import Mathlib

/-! Bolt: device authorization, domain list and journal.

A shallow embedding of `boltd/bolt-device.c`, `boltd/bolt-domain.c`,
`boltd/bolt-journal.c` and `lib/device.c`.  C strings are modelled as `String` (names, messages) or
`List Char` (text that is scanned or written byte by byte); a `NULL` string is
`none`.  Objects that the C code mutates in place are passed and returned
explicitly.
-/

namespace Bolt

/-! ## Errors -/

/-- Error domains and codes that the embedded code raises or passes on. -/
inductive ErrorCode where
  | BOLT_ERROR_FAILED
  | BOLT_ERROR_UDEV
  | G_IO_ERROR_FAILED
  | G_IO_ERROR_NOT_FOUND
  deriving DecidableEq, Repr

/-- A `GError`: a code and a message. -/
structure GError where
  code : ErrorCode
  message : String
  deriving DecidableEq, Repr

/-! ## udev devices (libudev) -/

/-- A `struct udev_device` as far as the code reads it: the sysfs path, the
sysname and the sysfs attributes. -/
structure udev_device where
  syspath : String
  sysname : Option String
  sysattrs : List (String × String)
  deriving DecidableEq, Repr

/-- The libudev call `udev_device_get_sysattr_value`: the value of the attribute,
`none` (NULL) when the device has no such attribute. -/
def udev_device_get_sysattr_value (udev : udev_device) (attr : String) : Option String :=
  udev.sysattrs.lookup attr

/-! ## `g_ascii_strtoull` (GLib) -/

/-- The C locale `isspace` that GLib uses while parsing numbers. -/
def ISSPACE (c : Char) : Bool :=
  c = ' ' || c = '\t' || c = '\n' || c = '\x0b' || c = '\x0c' || c = '\r'

/-- Value of a character as a digit in bases up to 36. -/
def digit_value (c : Char) : Option Nat :=
  if '0' ≤ c ∧ c ≤ '9' then some (c.toNat - 48)
  else if 'a' ≤ c ∧ c ≤ 'z' then some (c.toNat - 97 + 10)
  else if 'A' ≤ c ∧ c ≤ 'Z' then some (c.toNat - 65 + 10)
  else none

/-- Largest `guint64`. -/
def G_MAXUINT64 : Nat := 2 ^ 64 - 1

/-- The digit loop of `g_parse_long_long`: consumes digits below `base`,
accumulating into `ui64` unless that would exceed `G_MAXUINT64`; returns the
accumulator, the overflow flag and the number of characters consumed. -/
def parse_digits (base : Nat) : List Char → Nat → Bool → Nat → Nat × Bool × Nat
  | [], ui64, overflow, n => (ui64, overflow, n)
  | c :: s, ui64, overflow, n =>
    match digit_value c with
    | none => (ui64, overflow, n)
    | some d =>
      if d ≥ base then (ui64, overflow, n)
      else if ui64 > G_MAXUINT64 / base ∨ (ui64 = G_MAXUINT64 / base ∧ d > G_MAXUINT64 % base) then
        parse_digits base s ui64 true (n + 1)
      else
        parse_digits base s (ui64 * base + d) overflow (n + 1)

/-- GLib `g_ascii_strtoull (nptr, &end, 0)`, which on a glibc system is
`strtoull_l` in the C locale: returns the `guint64` result and the offset of
`end` from `nptr`.  White space is skipped, a sign is accepted, a leading `0x`
selects base 16 and a leading `0` base 8.  A value that does not fit 64 bits
gives `G_MAXUINT64` whatever its sign; otherwise a minus sign negates the result
modulo `2 ^ 64`. -/
def g_ascii_strtoull (nptr : List Char) : Nat × Nat :=
  let s := nptr.dropWhile ISSPACE
  let ws := nptr.length - s.length
  match s with
  | [] => (0, 0)
  | c :: _ =>
    let negative := decide (c = '-')
    let s1 := if c = '-' ∨ c = '+' then s.drop 1 else s
    let sg := s.length - s1.length
    let hex := match s1 with
      | '0' :: x :: _ => decide (x = 'x' ∨ x = 'X')
      | _ => false
    let base := if hex then 16 else if s1.head? = some '0' then 8 else 10
    let s2 := if hex then s1.drop 2 else s1
    let pre := if hex then 2 else 0
    let (ui64, overflow, n) := parse_digits base s2 0 false 0
    if n = 0 then
      (0, if hex then ws + sg + 1 else 0)
    else
      (if overflow then G_MAXUINT64
       else if negative then (2 ^ 64 - ui64) % 2 ^ 64 else ui64, ws + sg + pre + n)

/-! ## Device status and device objects (`bolt-device.c`) -/

/-- The `BoltStatus` enumeration. -/
inductive BoltStatus where
  | BOLT_STATUS_DISCONNECTED
  | BOLT_STATUS_CONNECTED
  | BOLT_STATUS_AUTHORIZING
  | BOLT_STATUS_AUTH_ERROR
  | BOLT_STATUS_AUTHORIZED
  | BOLT_STATUS_AUTHORIZED_SECURE
  | BOLT_STATUS_AUTHORIZED_NEWKEY
  deriving DecidableEq, Repr

open BoltStatus ErrorCode

/-- The fields of `struct _BoltDevice` that the code below reads or writes.
`uid` is `none` for a NULL pointer. -/
structure BoltDevice where
  uid : Option String
  name : String
  vendor : String
  status : BoltStatus
  syspath : String
  deriving DecidableEq, Repr

/-- Reinterpretation of a `guint64` as `gint64`. -/
def to_gint64 (v : Nat) : Int :=
  if v % 2 ^ 64 < 2 ^ 63 then (v % 2 ^ 64 : Nat) else ((v % 2 ^ 64 : Nat) : Int) - 2 ^ 64

/-- Largest `gint`. -/
def G_MAXINT : Int := 2 ^ 31 - 1

/-- Smallest `gint`. -/
def G_MININT : Int := -(2 ^ 31)

/-- `read_sysfs_attr_int`: the attribute parsed with `g_ascii_strtoull`, stored in
a `gint64`; 0 when absent, unparsed or outside the `gint` range. -/
def read_sysfs_attr_int (device : udev_device) (attr : String) : Int :=
  match udev_device_get_sysattr_value device attr with
  | none => 0
  | some str =>
    let (r, e) := g_ascii_strtoull str.toList
    let val := to_gint64 r
    if e = 0 then 0
    else if val > G_MAXINT ∨ val < G_MININT then 0
    else val

/-- `string_nonzero`: the string is neither NULL nor empty. -/
def string_nonzero (str : Option String) : Bool :=
  match str with
  | none => false
  | some s => !s.toList.isEmpty

/-- `bolt_status_from_udev`. -/
def bolt_status_from_udev (udev : udev_device) : BoltStatus :=
  let authorized := read_sysfs_attr_int udev "authorized"
  if authorized = 2 then BOLT_STATUS_AUTHORIZED_SECURE
  else
    let key := udev_device_get_sysattr_value udev "key"
    let have_key := string_nonzero key
    if authorized = 1 then
      if have_key then BOLT_STATUS_AUTHORIZED_NEWKEY else BOLT_STATUS_AUTHORIZED
    else if authorized = 0 ∧ have_key then BOLT_STATUS_AUTH_ERROR
    else BOLT_STATUS_CONNECTED

/-! ### Authorization -/

/-- `AuthData`: the level character to write and the outer callback with its
user data.  A callback is named by a number, `none` is a NULL callback. -/
structure AuthData where
  level : Char
  callback : Option Nat
  user_data : Nat
  deriving DecidableEq, Repr

/-- What a `GTask` returns: `TRUE`, or an error. -/
abbrev TaskResult := Except GError Unit

/-- A `GError` on the heap, as it is reached through a pointer: its contents and
the number of times `g_error_free` has been applied to it.  With `frees = 0` the
object is live; from 1 on its memory is released, so that reading it is a use
after free and freeing it once more a double free. -/
structure GErrorObject where
  error : GError
  frees : Nat
  deriving DecidableEq, Repr

/-- GLib `g_error_free`. -/
def g_error_free (e : GErrorObject) : GErrorObject :=
  { e with frees := e.frees + 1 }

/-- What a worker leaves in its `GTask`: `TRUE`, or the error object that the
task holds a pointer to. -/
abbrev TaskReturn := Except GErrorObject Unit

/-- The result of a task by value: `TRUE`, or the contents of its error
object. -/
def task_result (res : TaskReturn) : TaskResult :=
  match res with
  | .ok u => .ok u
  | .error e => .error e.error

/-- GLib `g_task_propagate_boolean (task, &error)`: the boolean, and the object
that `error` points to afterwards; the pointer is moved from the task, the
object is not copied. -/
def g_task_propagate_boolean (res : TaskReturn) : Bool × Option GErrorObject :=
  match res with
  | .ok _ => (true, none)
  | .error e => (false, some e)

/-- The calls into `bolt-io` that the worker issues, in order. -/
inductive IoCall where
  | opendir (path : String)
  | verify_uid (dirfd : Nat) (uid : Option String)
  | write_char_at (dirfd : Nat) (name : String) (c : Char)
  deriving DecidableEq, Repr

/-- The `bolt-io` functions used by the worker; their bodies are not part of the
sources at hand, so the worker is embedded over any behaviour of them. -/
structure BoltIo where
  bolt_opendir : String → Except GError Nat
  bolt_verify_uid : Nat → Option String → Except GError Unit
  bolt_write_char_at : Nat → String → Char → Except GError Unit

/-- `authorize_in_thread`: what is handed to the task and the `bolt-io` calls
issued on the way.  The local `error` is a `g_autoptr (GError)`.  When the open
or the verification fails, `g_task_return_error (task, error)` gives the task
the object that `error` points to, and since the pointer is not stolen the
cleanup of `error` frees that same object as the function returns.  When the
write fails, `g_task_return_new_error` gives the task an object of its own. -/
def authorize_in_thread (io : BoltIo) (dev : BoltDevice) (auth : AuthData) :
    TaskReturn × List IoCall :=
  match io.bolt_opendir dev.syspath with
  | .error error => (.error (g_error_free ⟨error, 0⟩), [.opendir dev.syspath])
  | .ok devdir =>
    match io.bolt_verify_uid devdir dev.uid with
    | .error error =>
      (.error (g_error_free ⟨error, 0⟩), [.opendir dev.syspath, .verify_uid devdir dev.uid])
    | .ok _ =>
      let calls := [.opendir dev.syspath, .verify_uid devdir dev.uid,
                    .write_char_at devdir "authorized" auth.level]
      match io.bolt_write_char_at devdir "authorized" auth.level with
      | .error error =>
        (.error ⟨⟨BOLT_ERROR_FAILED, "failed to authorize device: " ++ error.message⟩, 0⟩,
         calls)
      | .ok _ => (.ok (), calls)

/-- One call of the outer callback: `callback (dev, ok, &error, user_data)`. -/
structure CallbackCall where
  callback : Nat
  ok : Bool
  error : Option GError
  user_data : Nat
  deriving DecidableEq, Repr

/-- `authorize_thread_done`: reads the task result with
`g_task_propagate_boolean`, sets the status, and calls the outer callback when
there is one. -/
def authorize_thread_done (dev : BoltDevice) (auth : AuthData) (res : TaskResult) :
    BoltDevice × Option CallbackCall :=
  let ok : Bool := match res with
    | .ok _ => true
    | .error _ => false
  let error : Option GError := match res with
    | .ok _ => none
    | .error e => some e
  let dev1 : BoltDevice :=
    if ok then { dev with status := BOLT_STATUS_AUTH_ERROR }
    else { dev with status := BOLT_STATUS_AUTHORIZED }
  (dev1, auth.callback.map fun cb => ⟨cb, ok, error, auth.user_data⟩)

/-- Outcome of `bolt_device_authorize`: the device afterwards, the returned
boolean, the error set on rejection, the task handed to the thread pool, and
whether a `status` notification was emitted. -/
structure AuthorizeOutcome where
  dev : BoltDevice
  ret : Bool
  error : Option GError
  task : Option AuthData
  notified : Bool
  deriving DecidableEq, Repr

/-- `bolt_device_authorize`.  The message of the error ends with the number of
the status in the C code; that number is left out here. -/
def bolt_device_authorize (dev : BoltDevice) (callback : Option Nat) (user_data : Nat) :
    AuthorizeOutcome :=
  if dev.status ≠ BOLT_STATUS_CONNECTED ∧ dev.status ≠ BOLT_STATUS_AUTH_ERROR then
    { dev := dev, ret := false,
      error := some ⟨BOLT_ERROR_FAILED, "wrong device state"⟩,
      task := none, notified := false }
  else
    let auth_data : AuthData := ⟨'1', callback, user_data⟩
    { dev := { dev with status := BOLT_STATUS_AUTHORIZING }, ret := true,
      error := none, task := some auth_data, notified := true }

/-! ### The device on the main loop -/

/-- A device together with the authorization tasks that are in flight. -/
structure DeviceLoop where
  dev : BoltDevice
  tasks : List AuthData
  deriving DecidableEq, Repr

/-- What can happen to a device on the main loop: an authorize request, or the
completion of the in-flight task number `i` with a worker result. -/
inductive LoopEvent where
  | request (callback : Option Nat) (user_data : Nat)
  | done (i : Nat) (res : TaskResult)

/-- One step of the main loop.  A completion is possible only for a task that is
in flight. -/
def loop_step (s : DeviceLoop) : LoopEvent → Option DeviceLoop
  | .request callback user_data =>
    let r := bolt_device_authorize s.dev callback user_data
    some ⟨r.dev, s.tasks ++ r.task.toList⟩
  | .done i res =>
    match s.tasks.get? i with
    | none => none
    | some auth => some ⟨(authorize_thread_done s.dev auth res).1, s.tasks.eraseIdx i⟩

/-- States the main loop can reach from `s0`. -/
inductive LoopReachable (s0 : DeviceLoop) : DeviceLoop → Prop where
  | start : LoopReachable s0 s0
  | next {s s1 : DeviceLoop} (e : LoopEvent) :
      LoopReachable s0 s → loop_step s e = some s1 → LoopReachable s0 s1

/-- The edges of the authorization state machine. -/
def legal_edge (a b : BoltStatus) : Bool :=
  match a, b with
  | BOLT_STATUS_CONNECTED, BOLT_STATUS_AUTHORIZING => true
  | BOLT_STATUS_AUTH_ERROR, BOLT_STATUS_AUTHORIZING => true
  | BOLT_STATUS_AUTHORIZING, BOLT_STATUS_AUTHORIZED => true
  | BOLT_STATUS_AUTHORIZING, BOLT_STATUS_AUTHORIZED_NEWKEY => true
  | BOLT_STATUS_AUTHORIZING, BOLT_STATUS_AUTHORIZED_SECURE => true
  | BOLT_STATUS_AUTHORIZING, BOLT_STATUS_AUTH_ERROR => true
  | _, _ => false

/-! ### A sysfs directory for the worker -/

/-- Modelled from the spec: `bolt_opendir`, `bolt_verify_uid` and
`bolt_write_char_at` of `bolt-io.c` are not among the sources.  Per the sysfs
adapter of the spec, opening a path yields a directory handle or fails with an
I/O error, verifying compares the `unique_id` attribute under the handle with
the expected uid and fails on a mismatch, and writing stores one character.
Here a single directory `path` is present, handle 3 stands for it, and
`unique_id` is what its `unique_id` attribute reads as. -/
def sysfs_io (path : String) (unique_id : String) : BoltIo where
  bolt_opendir := fun p =>
    if p = path then .ok 3 else .error ⟨G_IO_ERROR_NOT_FOUND, "could not open directory"⟩
  bolt_verify_uid := fun _ uid =>
    if uid = some unique_id then .ok () else .error ⟨BOLT_ERROR_FAILED, "unique id mismatch"⟩
  bolt_write_char_at := fun _ _ _ => .ok ()

/-- Whether a call is a write to the `authorized` attribute. -/
def is_authorized_write : IoCall → Bool
  | .write_char_at _ name _ => name = "authorized"
  | _ => false

/-! ## Domains (`bolt-domain.c`) -/

/-- The `BoltSecurity` enumeration. -/
inductive BoltSecurity where
  | BOLT_SECURITY_UNKNOWN
  | BOLT_SECURITY_NONE
  | BOLT_SECURITY_DPONLY
  | BOLT_SECURITY_USER
  | BOLT_SECURITY_SECURE
  | BOLT_SECURITY_USBONLY
  deriving DecidableEq, Repr

open BoltSecurity

/-- The fields of `struct _BoltDomain`.  The link field `domains` is represented
by the position of the domain in its list, `store` by whether one is set, and
`bootacl` is `none` for a NULL string vector. -/
structure BoltDomain where
  sort : Int
  store : Bool
  uid : String
  id : String
  syspath : String
  security : BoltSecurity
  bootacl : Option (List String)
  deriving DecidableEq, Repr

/-- The functions of `bolt-sysfs.c` and `bolt-str.c` that
`bolt_domain_new_for_udev` calls; their bodies are not part of the sources at
hand, so the constructor is embedded over any behaviour of them.
`bolt_sysfs_security_for_device` returns the security level and the error it
may have set; `bolt_str_parse_as_int` returns the parsed integer when it
succeeds. -/
structure BoltSysfs where
  bolt_sysfs_device_is_domain : udev_device → Except GError Unit
  bolt_sysfs_security_for_device : udev_device → BoltSecurity × Option GError
  bolt_sysfs_read_boot_acl : udev_device → Except GError (List String)
  bolt_str_parse_as_int : List Char → Option Int

/-- The value of the local variable `sort` of `bolt_domain_new_for_udev` once the
sysname has been looked at: -1 unless the sysname starts with "domain" and the
rest parses as an integer. -/
def sysname_sort (h : BoltSysfs) (sysname : String) : Int :=
  if "domain".toList.isPrefixOf sysname.toList then
    match h.bolt_str_parse_as_int (sysname.toList.drop "domain".toList.length) with
    | some v => v
    | none => -1
  else -1

/-- The call `g_object_new (BOLT_TYPE_DOMAIN, "uid", .., "id", .., "syspath", ..,
"security", .., "bootacl", .., NULL)`: the instance is allocated zero-filled,
`bolt_domain_init` only initialises the link field, and `bolt_domain_set_property`
stores the five properties; `sort` and `store` keep their zero value. -/
def g_object_new_domain (uid id syspath : String) (security : BoltSecurity)
    (bootacl : Option (List String)) : BoltDomain :=
  { sort := 0, store := false, uid := uid, id := id, syspath := syspath,
    security := security, bootacl := bootacl }

set_option linter.unusedVariables false in
/-- `bolt_domain_new_for_udev`: the new domain or NULL, and the error set. -/
def bolt_domain_new_for_udev (h : BoltSysfs) (udev : udev_device) (uid : String) :
    Option BoltDomain × Option GError :=
  match h.bolt_sysfs_device_is_domain udev with
  | .error e => (none, some e)
  | .ok _ =>
    let syspath := udev.syspath
    match udev.sysname with
    | none => (none, some ⟨BOLT_ERROR_UDEV, "could not get domain id from udev"⟩)
    | some sysname =>
      let sort := sysname_sort h sysname
      let (security, error) := h.bolt_sysfs_security_for_device udev
      if security = BOLT_SECURITY_UNKNOWN then (none, error)
      else
        let acl := match h.bolt_sysfs_read_boot_acl udev with
          | .ok a => some a
          | .error _ => none
        let dom := g_object_new_domain uid sysname syspath security acl
        (some dom, error)

/-! ### The domain list

The domains are linked into a circular doubly-linked list without a separate
head node (`bolt-list.h`, not among the sources at hand).  A list is represented
by the sequence of its members in the order in which `bolt_nhlist_iter_next`
visits them, starting at the node the list pointer refers to; NULL is `[]`. -/

/-- Modelled from the spec: `bolt_list_add_after` of `bolt-list.h` is not among
the sources.  It links `node` into the list directly behind the member at
position `n`, so that the walk visits it right after that member; behind the
last member (`list->domains.prev`) this appends at the tail. -/
def bolt_list_add_after (list : List BoltDomain) (n : Nat) (node : BoltDomain) :
    List BoltDomain :=
  list.take (n + 1) ++ node :: list.drop (n + 1)

/-- The loop of `bolt_domain_insert`: walks the members from position `i` on and
stops at the first one whose `sort` is smaller than that of `domain`; `none`
when the walk ends with `n == NULL`. -/
def insert_walk (domain : BoltDomain) : List BoltDomain → Nat → Option Nat
  | [], _ => none
  | d :: rest, i => if domain.sort > d.sort then some i else insert_walk domain rest (i + 1)

/-- `bolt_domain_insert`: returns the head of the list, which is `domain` for an
empty list and the old head otherwise. -/
def bolt_domain_insert (list : List BoltDomain) (domain : BoltDomain) : List BoltDomain :=
  match list with
  | [] => [domain]
  | _ :: _ =>
    let n := match insert_walk domain list 0 with
      | some i => i
      | none => list.length - 1
    bolt_list_add_after list n domain

/-- A domain is built from a udev device with `bolt_domain_new_for_udev` and,
unless that returned NULL, inserted into the list with `bolt_domain_insert`. -/
def insert_new_for_udev (h : BoltSysfs) (list : List BoltDomain) (udev : udev_device)
    (uid : String) : List BoltDomain :=
  match (bolt_domain_new_for_udev h udev uid).1 with
  | some dom => bolt_domain_insert list dom
  | none => list

/-- `bolt_domain_foreach`: calls `func (d, data)` for every member in list
order; `data` is threaded through as the state that `func` updates. -/
def bolt_domain_foreach {σ : Type} (list : List BoltDomain) (func : BoltDomain → σ → σ)
    (data : σ) : σ :=
  list.foldl (fun acc d => func d acc) data

/-- `bolt_domain_count`. -/
def bolt_domain_count (domain : List BoltDomain) : Nat :=
  domain.length

/-- A visitor for `bolt_domain_foreach` that records the `sort` of each domain
it is called with. -/
def record_sort (d : BoltDomain) (seen : List Int) : List Int :=
  seen ++ [d.sort]

/-- A domain with the given sysname and `sort` field. -/
def domain_with_sort (id : String) (sort : Int) : BoltDomain :=
  { sort := sort, store := false, uid := id, id := id, syspath := "/sys/" ++ id,
    security := BOLT_SECURITY_USER, bootacl := none }

/-- The udev device of a controller with the given sysname, security level
`user` and no boot ACL. -/
def sysfs_domain (sysname : String) : udev_device :=
  ⟨"/sys/devices/" ++ sysname, some sysname, [("security", "user")]⟩

/-- Modelled from the spec: the bodies of `bolt_sysfs_device_is_domain`,
`bolt_sysfs_security_for_device`, `bolt_sysfs_read_boot_acl` and
`bolt_str_parse_as_int` are not among the sources.  Per the spec a domain is a
controller sysfs node with a `security` attribute naming its level and an
optional `boot_acl` attribute holding a comma-separated uid list, and the index
of a domain is the integer written in decimal digits after "domain". -/
def spec_sysfs : BoltSysfs where
  bolt_sysfs_device_is_domain := fun _ => .ok ()
  bolt_sysfs_security_for_device := fun udev =>
    match udev_device_get_sysattr_value udev "security" with
    | some "none" => (BOLT_SECURITY_NONE, none)
    | some "dponly" => (BOLT_SECURITY_DPONLY, none)
    | some "user" => (BOLT_SECURITY_USER, none)
    | some "secure" => (BOLT_SECURITY_SECURE, none)
    | some "usbonly" => (BOLT_SECURITY_USBONLY, none)
    | _ => (BOLT_SECURITY_UNKNOWN, some ⟨BOLT_ERROR_UDEV, "unknown security level"⟩)
  bolt_sysfs_read_boot_acl := fun udev =>
    match udev_device_get_sysattr_value udev "boot_acl" with
    | some v => .ok ((v.toList.splitOn ',').map String.mk)
    | none => .error ⟨G_IO_ERROR_NOT_FOUND, "boot_acl attribute missing"⟩
  bolt_str_parse_as_int := fun s =>
    if s ≠ [] ∧ s.all Char.isDigit = true then
      some (s.foldl (fun (a : Int) c => a * 10 + ((c.toNat - 48 : Nat) : Int)) 0)
    else none

/-! ## Files and descriptors (`bolt-io.c`, POSIX) -/

/-- An open file description: the inode it refers to, the file offset and
whether `O_APPEND` is set. -/
structure OpenFile where
  ino : Nat
  pos : Nat
  append : Bool
  deriving DecidableEq, Repr

/-- The part of the system a journal lives in: file contents by inode, directory
entries by path, the descriptor table, and the next unused inode and descriptor
numbers. -/
structure Fs where
  data : Nat → List Char
  names : String → Option Nat
  next_ino : Nat
  fds : Nat → Option OpenFile
  next_fd : Nat

/-- Pointwise update of a table. -/
def upd {α β : Type} [DecidableEq α] (f : α → β) (k : α) (v : β) : α → β :=
  fun x => if x = k then v else f x

/-- The error of a call on a descriptor that is not open. -/
def EBADF : GError := ⟨G_IO_ERROR_FAILED, "bad file descriptor"⟩

/-- The effect of `write(2)`: the bytes go to the end of the file when
`O_APPEND` is set and to the file offset otherwise (a gap is zero-filled); the
new contents and the new offset. -/
def file_write (content : List Char) (f : OpenFile) (bytes : List Char) : List Char × Nat :=
  let off := if f.append then content.length else f.pos
  (content.take off ++ List.replicate (off - content.length) '\x00' ++ bytes ++
     content.drop (off + bytes.length), off + bytes.length)

/-- Modelled from the spec: the body of `bolt_open` (`bolt-io.c`) is not among
the sources.  It is `open(2)` with `O_RDWR | O_CREAT | O_CLOEXEC` and, as asked,
`O_TRUNC` or `O_APPEND`: an existing file is opened (and emptied under
`O_TRUNC`), a missing one is created empty; the call fails when the environment
says so. -/
def bolt_open (fs : Fs) (path : String) (trunc append : Bool) (fault : Option GError) :
    Fs × Except GError Nat :=
  match fault with
  | some e => (fs, .error e)
  | none =>
    let fd := fs.next_fd
    match fs.names path with
    | some ino =>
      ({ fs with data := if trunc then upd fs.data ino [] else fs.data,
                 fds := upd fs.fds fd (some ⟨ino, 0, append⟩),
                 next_fd := fs.next_fd + 1 }, .ok fd)
    | none =>
      let ino := fs.next_ino
      ({ data := upd fs.data ino [],
         names := upd fs.names path (some ino),
         next_ino := fs.next_ino + 1,
         fds := upd fs.fds fd (some ⟨ino, 0, append⟩),
         next_fd := fs.next_fd + 1 }, .ok fd)

/-- Modelled from the spec: the body of `bolt_close` is not among the sources;
it is `close(2)`. -/
def bolt_close (fs : Fs) (fd : Nat) : Fs :=
  { fs with fds := upd fs.fds fd none }

/-- Modelled from the spec: the body of `bolt_fstat` is not among the sources;
it is `fstat(2)`, of which the code reads `st_size`. -/
def bolt_fstat (fs : Fs) (fd : Nat) (fault : Option GError) : Except GError Nat :=
  match fault with
  | some e => .error e
  | none =>
    match fs.fds fd with
    | none => .error EBADF
    | some f => .ok (fs.data f.ino).length

/-- Modelled from the spec: the body of `bolt_lseek` is not among the sources; it
is `lseek(2)`, used with `SEEK_SET`. -/
def bolt_lseek (fs : Fs) (fd : Nat) (offset : Nat) (fault : Option GError) :
    Fs × Except GError Unit :=
  match fault with
  | some e => (fs, .error e)
  | none =>
    match fs.fds fd with
    | none => (fs, .error EBADF)
    | some f => ({ fs with fds := upd fs.fds fd (some { f with pos := offset }) }, .ok ())

/-- Modelled from the spec: the body of `bolt_write_all` is not among the
sources; it writes the whole buffer with `write(2)`.  A failure is an error
together with the number of bytes that were written before it. -/
def bolt_write_all (fs : Fs) (fd : Nat) (buf : List Char) (fault : Option (Nat × GError)) :
    Fs × Except GError Unit :=
  match fs.fds fd with
  | none => (fs, .error EBADF)
  | some f =>
    let bytes := match fault with
      | some (k, _) => buf.take k
      | none => buf
    let w := file_write (fs.data f.ino) f bytes
    ({ fs with data := upd fs.data f.ino w.1,
               fds := upd fs.fds fd (some { f with pos := w.2 }) },
     match fault with
     | some (_, e) => .error e
     | none => .ok ())

/-- Modelled from the spec: the body of `bolt_read_all` is not among the sources;
it reads up to `len` bytes from the file offset on with `read(2)` and returns
them. -/
def bolt_read_all (fs : Fs) (fd : Nat) (len : Nat) (fault : Option GError) :
    Fs × Except GError (List Char) :=
  match fault with
  | some e => (fs, .error e)
  | none =>
    match fs.fds fd with
    | none => (fs, .error EBADF)
    | some f =>
      let buf := ((fs.data f.ino).drop f.pos).take len
      ({ fs with fds := upd fs.fds fd (some { f with pos := f.pos + buf.length }) }, .ok buf)

/-- Modelled from the spec: the body of `bolt_copy_bytes` is not among the
sources; it copies `len` bytes from the offset of `fd_from` on to `fd_to`
("copy the existing journal contents verbatim into the lock file").  A failure
is an error together with the number of bytes copied before it. -/
def bolt_copy_bytes (fs : Fs) (fd_from fd_to : Nat) (len : Nat)
    (fault : Option (Nat × GError)) : Fs × Except GError Unit :=
  let n := match fault with
    | some (k, _) => min k len
    | none => len
  match bolt_read_all fs fd_from n none with
  | (fs1, .error e) => (fs1, .error e)
  | (fs1, .ok buf) =>
    match bolt_write_all fs1 fd_to buf none with
    | (fs2, .error e) => (fs2, .error e)
    | (fs2, .ok _) =>
      (fs2, match fault with
        | some (_, e) => .error e
        | none => .ok ())

/-- Modelled from the spec: the body of `bolt_fdatasync` is not among the
sources; it is `fdatasync(2)`, which changes nothing that is modelled here. -/
def bolt_fdatasync (fs : Fs) (fd : Nat) (fault : Option GError) : Except GError Unit :=
  match fault with
  | some e => .error e
  | none =>
    match fs.fds fd with
    | none => .error EBADF
    | some _ => .ok ()

/-- Modelled from the spec: the body of `bolt_faddflags` is not among the
sources; with `O_APPEND` it sets that flag on the descriptor through
`fcntl(2)`. -/
def bolt_faddflags (fs : Fs) (fd : Nat) (fault : Option GError) : Fs × Except GError Unit :=
  match fault with
  | some e => (fs, .error e)
  | none =>
    match fs.fds fd with
    | none => (fs, .error EBADF)
    | some f => ({ fs with fds := upd fs.fds fd (some { f with append := true }) }, .ok ())

/-- Modelled from the spec: the body of `bolt_rename` is not among the sources;
it is `rename(2)`: afterwards `dst` names the file that `src` named and `src`
names nothing. -/
def bolt_rename (fs : Fs) (src dst : String) (fault : Option GError) :
    Fs × Except GError Unit :=
  match fault with
  | some e => (fs, .error e)
  | none =>
    match fs.names src with
    | none => (fs, .error ⟨G_IO_ERROR_NOT_FOUND, "no such file"⟩)
    | some ino =>
      if src = dst then (fs, .ok ())
      else ({ fs with names := upd (upd fs.names dst (some ino)) src none }, .ok ())

/-- Modelled from the spec: the body of `bolt_ftruncate` is not among the
sources; it is `ftruncate(2)`, used with length 0. -/
def bolt_ftruncate (fs : Fs) (fd : Nat) (fault : Option GError) : Fs × Except GError Unit :=
  match fault with
  | some e => (fs, .error e)
  | none =>
    match fs.fds fd with
    | none => (fs, .error EBADF)
    | some f => ({ fs with data := upd fs.data f.ino [] }, .ok ())

/-! ## The journal (`bolt-journal.c`) -/

/-- The `BoltJournalOp` enumeration. -/
inductive BoltJournalOp where
  | BOLT_JOURNAL_FAILED
  | BOLT_JOURNAL_UNCHANGED
  | BOLT_JOURNAL_ADDED
  | BOLT_JOURNAL_REMOVED
  deriving DecidableEq, Repr

open BoltJournalOp

/-- A `BoltJournalItem`. -/
structure BoltJournalItem where
  id : String
  op : BoltJournalOp
  ts : Nat
  deriving DecidableEq, Repr

/-- The fields of `struct _BoltJournal`: `path` is the file name of the journal
(`root` joined with `name`), `fd` the open descriptor. -/
structure BoltJournal where
  path : String
  fresh : Bool
  fd : Nat
  sl_time : Int
  sl_count : Nat
  deriving DecidableEq, Repr

/-- `bolt_journal_op_to_string`. -/
def bolt_journal_op_to_string (op : BoltJournalOp) : String :=
  match op with
  | BOLT_JOURNAL_FAILED => "!"
  | BOLT_JOURNAL_UNCHANGED => "="
  | BOLT_JOURNAL_ADDED => "+"
  | BOLT_JOURNAL_REMOVED => "-"

/-- `bolt_journal_op_from_string`: the operation named by the first character,
or `BOLT_JOURNAL_FAILED` with an error for NULL, the empty string and any other
first character. -/
def bolt_journal_op_from_string (data : Option (List Char)) : BoltJournalOp × Option GError :=
  let data := match data with
    | none => "<null>".toList
    | some [] => "<empty>".toList
    | some d => d
  match data.head? with
  | some '!' => (BOLT_JOURNAL_FAILED, none)
  | some '+' => (BOLT_JOURNAL_ADDED, none)
  | some '-' => (BOLT_JOURNAL_REMOVED, none)
  | some '=' => (BOLT_JOURNAL_UNCHANGED, none)
  | _ => (BOLT_JOURNAL_FAILED,
          some ⟨BOLT_ERROR_FAILED, "invalid journal operation: " ++ String.mk data⟩)

/-- An upper-case hexadecimal digit. -/
def hex_digit (d : Nat) : Char :=
  if d < 10 then Char.ofNat (48 + d) else Char.ofNat (55 + d)

/-- The last `w` hexadecimal digits of `n`, most significant first. -/
def hex_digits : Nat → Nat → List Char
  | 0, _ => []
  | w + 1, n => hex_digits w (n / 16) ++ [hex_digit (n % 16)]

/-- The conversion `%016lX` of `printf` applied to a `guint64`: sixteen
hexadecimal digits, zero-padded (a 64-bit value never needs more). -/
def format_016X (now : Nat) : List Char :=
  hex_digits 16 (now % 2 ^ 64)

/-- The text before the newline in what `bolt_journal_write_entry` formats: the
id, the operation and the time stamp, separated by single spaces. -/
def journal_entry_line (id : String) (op : BoltJournalOp) (now : Nat) : List Char :=
  id.toList ++ (' ' :: ((bolt_journal_op_to_string op).toList ++ (' ' :: format_016X now)))

/-- The data that `bolt_journal_write_entry` formats with
`"%s %s %016lX\n"`. -/
def journal_entry_data (id : String) (op : BoltJournalOp) (now : Nat) : List Char :=
  journal_entry_line id op now ++ ['\n']

/-- `bolt_journal_write_entry`: `now` is the value of `g_get_real_time ()`,
`fault` what the environment does to the write. -/
def bolt_journal_write_entry (fs : Fs) (fd : Nat) (id : String) (op : BoltJournalOp)
    (now : Nat) (fault : Option (Nat × GError)) : Fs × Except GError Unit :=
  let data := journal_entry_data id op now
  match bolt_write_all fs fd data fault with
  | (fs1, .error err) =>
    (fs1, .error ⟨err.code, "could not add journal entry: " ++ err.message⟩)
  | (fs1, .ok _) => (fs1, .ok ())

/-- `bolt_journal_is_fresh`. -/
def bolt_journal_is_fresh (journal : BoltJournal) : Bool :=
  journal.fresh

/-- `bolt_journal_put`: the write of the entry may fail; a failing `fdatasync`
only warns. -/
def bolt_journal_put (fs : Fs) (journal : BoltJournal) (id : String) (op : BoltJournalOp)
    (now : Nat) (fault : Option (Nat × GError)) : Fs × BoltJournal × Except GError Unit :=
  match bolt_journal_write_entry fs journal.fd id op now fault with
  | (fs1, .error e) => (fs1, journal, .error e)
  | (fs1, .ok _) => (fs1, { journal with fresh := false }, .ok ())

/-- What the environment does during one `bolt_journal_put_diff`: which calls
fail, and the clock value at the entry with a given index. -/
structure PutDiffEnv where
  open_fault : Option GError
  fstat_fault : Option GError
  lseek_fault : Option GError
  copy_fault : Option (Nat × GError)
  now : Nat → Nat
  write_fault : Nat → Option (Nat × GError)
  fdatasync_fault : Option GError
  faddflags_fault : Option GError
  rename_fault : Option GError

/-- The loop of `bolt_journal_put_diff` over the entries of the diff, in the
order in which the hash table iterator yields them; `i` counts the entries
already handled.  An op-code is an `int`. -/
def put_diff_loop (env : PutDiffEnv) (fd : Nat) :
    List (String × Int) → Nat → Fs → Fs × Except GError Unit
  | [], _, fs => (fs, .ok ())
  | (uid, opcode) :: rest, i, fs =>
    if opcode = ('+'.toNat : Int) ∨ opcode = ('-'.toNat : Int) then
      let op := if opcode = ('+'.toNat : Int) then BOLT_JOURNAL_ADDED else BOLT_JOURNAL_REMOVED
      match bolt_journal_write_entry fs fd uid op (env.now i) (env.write_fault i) with
      | (fs1, .ok _) => put_diff_loop env fd rest (i + 1) fs1
      | (fs1, .error e) => (fs1, .error e)
    else (fs, .error ⟨BOLT_ERROR_FAILED, "unsupported op-code in diff"⟩)

/-- The copy step of `bolt_journal_put_diff`: `bolt_lseek` to the start of the
journal and, if that went well, `bolt_copy_bytes` of `st_size` bytes into the
lock file. -/
def put_diff_copy (env : PutDiffEnv) (fs0 : Fs) (journal : BoltJournal) (fd st_size : Nat) :
    Fs × Except GError Unit :=
  match bolt_lseek fs0 journal.fd 0 env.lseek_fault with
  | (fs1, .error e) => (fs1, .error e)
  | (fs1, .ok _) => bolt_copy_bytes fs1 journal.fd fd st_size env.copy_fault

/-- `bolt_journal_put_diff`.  The descriptor in the local variable `fd` is
closed on every way out (`bolt_autoclose`); after the swap that is the old
descriptor of the journal. -/
def bolt_journal_put_diff (fs : Fs) (journal : BoltJournal) (diff : List (String × Int))
    (env : PutDiffEnv) : Fs × BoltJournal × Except GError Unit :=
  let base := journal.path
  let path := base ++ ".lock"
  match bolt_open fs path true false env.open_fault with
  | (fs0, .error e) => (fs0, journal, .error e)
  | (fs0, .ok fd) =>
    match bolt_fstat fs0 journal.fd env.fstat_fault with
    | .error err =>
      (bolt_close fs0 fd, journal,
       .error ⟨err.code, "could not query journal: " ++ err.message⟩)
    | .ok st_size =>
      match put_diff_copy env fs0 journal fd st_size with
      | (fs1, .error e) => (bolt_close fs1 fd, journal, .error e)
      | (fs1, .ok _) =>
        match put_diff_loop env fd diff 0 fs1 with
        | (fs2, .error e) => (bolt_close fs2 fd, journal, .error e)
        | (fs2, .ok _) =>
          match bolt_fdatasync fs2 fd env.fdatasync_fault with
          | .error e => (bolt_close fs2 fd, journal, .error e)
          | .ok _ =>
            match bolt_faddflags fs2 fd env.faddflags_fault with
            | (fs3, .error e) => (bolt_close fs3 fd, journal, .error e)
            | (fs3, .ok _) =>
              match bolt_rename fs3 path base env.rename_fault with
              | (fs4, .error e) => (bolt_close fs4 fd, journal, .error e)
              | (fs4, .ok _) =>
                (bolt_close fs4 journal.fd, { journal with fd := fd }, .ok ())

/-! ### Reading the journal back -/

/-- The `%ms` conversion of `sscanf`: skips white space and reads the characters
up to the next white space; fails at the end of the input.  Returns the word
and the rest of the input. -/
def sscanf_ms (s : List Char) : Option (List Char × List Char) :=
  match s.dropWhile ISSPACE with
  | [] => none
  | c :: r => some ((c :: r).takeWhile (fun x => !ISSPACE x), (c :: r).dropWhile (fun x => !ISSPACE x))

/-- Value of a hexadecimal digit. -/
def hex_value (c : Char) : Option Nat :=
  match digit_value c with
  | some d => if d < 16 then some d else none
  | none => none

/-- The `%016lX` conversion of `sscanf` (glibc): skips white space, then reads at
most 16 characters: a sign, a `0x` or `0X` mark after which the digits may be
missing, and hexadecimal digits.  Fails when no digit was read; a minus sign
negates modulo `2 ^ 64`. -/
def sscanf_016lX (s : List Char) : Option Nat :=
  let s0 := s.dropWhile ISSPACE
  let negative := decide (s0.head? = some '-')
  let signed := decide (s0.head? = some '-' ∨ s0.head? = some '+')
  let s1 := if signed then s0.drop 1 else s0
  let w1 := if signed then 15 else 16
  let marked := match s1 with
    | '0' :: x :: _ => decide (x = 'x' ∨ x = 'X')
    | _ => false
  let s2 := if marked then s1.drop 2 else s1
  let w2 := if marked then w1 - 2 else w1
  let digits := (s2.take w2).takeWhile (fun c => (hex_value c).isSome)
  if digits = [] ∧ marked = false then none
  else
    let v := digits.foldl (fun a c => a * 16 + (hex_value c).getD 0) 0
    some (if negative then (2 ^ 64 - v) % 2 ^ 64 else v)

/-- The body of the loop of `bolt_journal_list` for one line:
`sscanf (line, "%ms %ms %016lX", &name, &opstr, &ts)` must convert all three,
otherwise the line is skipped; the operation is read off `opstr` with the error
ignored. -/
def journal_parse_line (l : List Char) : Option BoltJournalItem :=
  match sscanf_ms l with
  | none => none
  | some (name, r1) =>
    match sscanf_ms r1 with
    | none => none
    | some (opstr, r2) =>
      match sscanf_016lX r2 with
      | none => none
      | some ts => some ⟨String.mk name, (bolt_journal_op_from_string (some opstr)).1, ts⟩

/-- Splitting at every newline: the pieces between the newlines, the last one
being what follows the last newline. -/
def split_nl : List Char → List (List Char)
  | [] => [[]]
  | c :: s =>
    if c = '\n' then [] :: split_nl s
    else
      match split_nl s with
      | [] => [[c]]
      | l :: ls => (c :: l) :: ls

/-- GLib `g_strsplit (buf, "\n", -1)`: the empty string gives the empty vector. -/
def g_strsplit_nl (buf : List Char) : List (List Char) :=
  if buf = [] then [] else split_nl buf

/-- The parsing part of `bolt_journal_list`: the buffer is a C string, so it
ends at the first NUL; it is split into lines, and the loop runs over the lines
up to the first empty one, skipping those that do not parse. -/
def journal_parse (buf : List Char) : List BoltJournalItem :=
  (((g_strsplit_nl (buf.takeWhile (fun c => c ≠ '\x00'))).takeWhile
    (fun l => !l.isEmpty)).filterMap journal_parse_line)

/-- What the environment does during one `bolt_journal_list`. -/
structure ListEnv where
  lseek_fault : Option GError
  fstat_fault : Option GError
  read_fault : Option GError

/-- An environment in which every call of `bolt_journal_list` succeeds. -/
def ListEnv.ok : ListEnv := ⟨none, none, none⟩

/-- `bolt_journal_list`: the items read, or NULL with an error. -/
def bolt_journal_list (fs : Fs) (journal : BoltJournal) (env : ListEnv) :
    Fs × Except GError (List BoltJournalItem) :=
  match bolt_lseek fs journal.fd 0 env.lseek_fault with
  | (fs1, .error e) => (fs1, .error ⟨e.code, "could not read from journal: " ++ e.message⟩)
  | (fs1, .ok _) =>
    match bolt_fstat fs1 journal.fd env.fstat_fault with
    | .error e => (fs1, .error ⟨e.code, "could not read from journal: " ++ e.message⟩)
    | .ok st_size =>
      if st_size = 0 then (fs1, .ok [])
      else
        match bolt_read_all fs1 journal.fd st_size env.read_fault with
        | (fs2, .error e) => (fs2, .error e)
        | (fs2, .ok buf) => (fs2, .ok (journal_parse buf))

/-- `bolt_journal_reset`. -/
def bolt_journal_reset (fs : Fs) (journal : BoltJournal) (fault : Option GError) :
    Fs × BoltJournal × Except GError Unit :=
  match bolt_ftruncate fs journal.fd fault with
  | (fs1, .error e) => (fs1, journal, .error e)
  | (fs1, .ok _) => (fs1, { journal with fresh := true }, .ok ())

/-! ### Concrete journals -/

/-- A file system holding one journal file with the given contents at `path`
(inode 0), open for appending on descriptor 3. -/
def journal_fs (path : String) (content : List Char) : Fs where
  data := fun i => if i = 0 then content else []
  names := fun p => if p = path then some 0 else none
  next_ino := 1
  fds := fun fd => if fd = 3 then some ⟨0, 0, true⟩ else none
  next_fd := 4

/-- The journal object for `journal_fs`. -/
def journal_at (path : String) : BoltJournal :=
  ⟨path, false, 3, 0, 0⟩

/-- An environment in which every call of `bolt_journal_put_diff` succeeds and
the clock reads `t0 + i` at the entry with index `i`. -/
def PutDiffEnv.ok (t0 : Nat) : PutDiffEnv :=
  { open_fault := none, fstat_fault := none, lseek_fault := none, copy_fault := none,
    now := fun i => t0 + i, write_fault := fun _ => none,
    fdatasync_fault := none, faddflags_fault := none, rename_fault := none }

/-! ### Well-formed journals and the records of a diff -/

/-- The journal object is attached to its file: its descriptor is open as `f`,
the journal path names the inode of `f`, the inode and the descriptor lie below
the allocation marks of the file system, and the lock path is not a second name
of the journal file. -/
def journal_attached (fs : Fs) (journal : BoltJournal) (f : OpenFile) : Prop :=
  fs.fds journal.fd = some f ∧ fs.names journal.path = some f.ino ∧
  f.ino < fs.next_ino ∧ journal.fd < fs.next_fd ∧
  fs.names (journal.path ++ ".lock") ≠ some f.ino

instance (fs : Fs) (journal : BoltJournal) (f : OpenFile) :
    Decidable (journal_attached fs journal f) := by
  unfold journal_attached
  infer_instance

/-- The operation that `bolt_journal_put_diff` records for an op-code. -/
def diff_op (opcode : Int) : BoltJournalOp :=
  if opcode = ('+'.toNat : Int) then BOLT_JOURNAL_ADDED else BOLT_JOURNAL_REMOVED

/-- The text of the records of a diff: one line per entry, in order, stamped
with the clock values from index `i` on. -/
def diff_data (env : PutDiffEnv) : List (String × Int) → Nat → List Char
  | [], _ => []
  | (uid, opcode) :: rest, i =>
    journal_entry_data uid (diff_op opcode) (env.now i) ++ diff_data env rest (i + 1)

/-- The records of a diff as items: one per entry, in order, with the clock
values from index `i` on as `guint64` time stamps. -/
def diff_items (env : PutDiffEnv) : List (String × Int) → Nat → List BoltJournalItem
  | [], _ => []
  | (uid, opcode) :: rest, i =>
    ⟨uid, diff_op opcode, env.now i % 2 ^ 64⟩ :: diff_items env rest (i + 1)

/-- The text made of the given lines, each followed by a newline. -/
def unlines : List (List Char) → List Char
  | [] => []
  | l :: ls => l ++ '\n' :: unlines ls

/-- A line of a well-formed journal file: not empty, and without newline or NUL
characters. -/
def good_line (l : List Char) : Prop :=
  l ≠ [] ∧ ∀ c ∈ l, c ≠ '\n' ∧ c ≠ '\x00'

/-- A uid that the journal format can hold: not empty, and without white space
or NUL characters. -/
def uid_token (uid : String) : Prop :=
  uid.toList ≠ [] ∧ ∀ c ∈ uid.toList, ISSPACE c = false ∧ c ≠ '\x00'

instance (l : List Char) : Decidable (good_line l) := by
  unfold good_line
  infer_instance

instance (uid : String) : Decidable (uid_token uid) := by
  unfold uid_token
  infer_instance

/-- The state of affairs while `bolt_journal_put_diff` works on the lock file,
relative to the file system `fs` it started from: `fd` is a descriptor other
than the journal's, open on an inode `L` other than the journal's, which the
lock path names; the journal's descriptor still refers to the journal file, the
journal path still names it, and its contents are those in `fs`. -/
def lock_open (fs : Fs) (journal : BoltJournal) (f : OpenFile) (fd L : Nat) (fsx : Fs) :
    Prop :=
  fd ≠ journal.fd ∧ L ≠ f.ino ∧
  (∃ p a, fsx.fds fd = some ⟨L, p, a⟩) ∧
  (∃ p, fsx.fds journal.fd = some ⟨f.ino, p, f.append⟩) ∧
  fsx.data f.ino = fs.data f.ino ∧
  fsx.names journal.path = some f.ino ∧
  fsx.names (journal.path ++ ".lock") = some L

/-- The lock file holds exactly `c` and the descriptor `fd`, not in append mode,
stands at its end. -/
def lock_holds (fsx : Fs) (fd L : Nat) (c : List Char) : Prop :=
  fsx.fds fd = some ⟨L, c.length, false⟩ ∧ fsx.data L = c

/-- The op character of a journal record as the format lists it: '+' added,
'-' removed, '=' unchanged, '!' failed. -/
def journal_op_char : BoltJournalOp → Char
  | BOLT_JOURNAL_ADDED => '+'
  | BOLT_JOURNAL_REMOVED => '-'
  | BOLT_JOURNAL_UNCHANGED => '='
  | BOLT_JOURNAL_FAILED => '!'

/-! ### The life of a journal -/

/-- What the environment does during `bolt_journal_initialize`:
`bolt_fs_make_parent_dirs` may fail with an error other than "exists", and the
open and the `fstat` may fail. -/
structure InitEnv where
  mkdirs_fault : Option GError
  open_fault : Option GError
  fstat_fault : Option GError

/-- An environment in which every call of `bolt_journal_initialize` succeeds. -/
def InitEnv.ok : InitEnv := ⟨none, none, none⟩

/-- `bolt_journal_initialize`: `root` and `name` are the construction
properties, the journal file is `root/name`.  The file is opened with
`O_RDWR | O_APPEND | O_CREAT | O_CLOEXEC`; `fresh` is whether its size is 0.  The
other fields start from the zero-filled instance. -/
def bolt_journal_initialize (fs : Fs) (root name : Option String) (env : InitEnv) :
    Fs × Except GError BoltJournal :=
  match root, name with
  | some r, some n =>
    match env.mkdirs_fault with
    | some err => (fs, .error err)
    | none =>
      let path := r ++ "/" ++ n
      match bolt_open fs path false true env.open_fault with
      | (fs1, .error e) => (fs1, .error e)
      | (fs1, .ok fd) =>
        match bolt_fstat fs1 fd env.fstat_fault with
        | .error err =>
          (fs1, .error ⟨err.code, "could not read from journal: " ++ err.message⟩)
        | .ok st_size =>
          (fs1, .ok { path := path, fresh := decide (st_size = 0), fd := fd,
                      sl_time := 0, sl_count := 0 })
  | _, _ => (fs, .error ⟨BOLT_ERROR_FAILED, "root and/or name NULL for journal"⟩)

/-- A call that changes a journal after its initialization, with what the
environment does during it. -/
inductive JournalCall where
  | put (id : String) (op : BoltJournalOp) (now : Nat) (fault : Option (Nat × GError))
  | put_diff (diff : List (String × Int)) (env : PutDiffEnv)
  | reset (fault : Option GError)

/-- Carrying out one call on a journal. -/
def journal_call (fs : Fs) (journal : BoltJournal) :
    JournalCall → Fs × BoltJournal × Except GError Unit
  | .put id op now fault => bolt_journal_put fs journal id op now fault
  | .put_diff diff env => bolt_journal_put_diff fs journal diff env
  | .reset fault => bolt_journal_reset fs journal fault

/-- Whether a call returned `TRUE`. -/
def call_ok (r : Except GError Unit) : Bool :=
  match r with
  | .ok _ => true
  | .error _ => false

/-- The life of a journal: the calls are carried out in order; the result is
the final file system and journal object together with the history, which pairs
each call with whether it succeeded. -/
def journal_life : Fs → BoltJournal → List JournalCall →
    Fs × BoltJournal × List (JournalCall × Bool)
  | fs, journal, [] => (fs, journal, [])
  | fs, journal, c :: cs =>
    ((journal_life (journal_call fs journal c).1 (journal_call fs journal c).2.1 cs).1,
     (journal_life (journal_call fs journal c).1 (journal_call fs journal c).2.1 cs).2.1,
     (c, call_ok (journal_call fs journal c).2.2) ::
       (journal_life (journal_call fs journal c).1 (journal_call fs journal c).2.1 cs).2.2)

/-- The entry of a history is a `bolt_journal_put` that succeeded. -/
def put_succeeded : JournalCall × Bool → Bool
  | (.put _ _ _ _, true) => true
  | _ => false

/-- The entry of a history is a `bolt_journal_put_diff` that succeeded. -/
def put_diff_succeeded : JournalCall × Bool → Bool
  | (.put_diff _ _, true) => true
  | _ => false

/-- The entry of a history is a `bolt_journal_reset` that succeeded. -/
def reset_succeeded : JournalCall × Bool → Bool
  | (.reset _, true) => true
  | _ => false

/-- Whether the file at `path` is empty or missing, so that opening it with
`O_CREAT` finds size 0. -/
def file_empty_at (fs : Fs) (path : String) : Bool :=
  match fs.names path with
  | none => true
  | some ino => (fs.data ino).isEmpty

/-- No `bolt_journal_put` succeeded in the history. -/
def no_put_in (h : List (JournalCall × Bool)) : Prop :=
  ∀ e ∈ h, put_succeeded e = false

/-- Some `bolt_journal_reset` succeeded in the history and no `bolt_journal_put`
has succeeded since. -/
def reset_then_no_put (h : List (JournalCall × Bool)) : Prop :=
  ∃ h1 e h2, h = h1 ++ e :: h2 ∧ reset_succeeded e = true ∧ no_put_in h2

/-- A file system holding one file with the given contents at `path` (inode 0)
and no open descriptor. -/
def file_fs (path : String) (content : List Char) : Fs where
  data := fun i => if i = 0 then content else []
  names := fun p => if p = path then some 0 else none
  next_ino := 1
  fds := fun _ => none
  next_fd := 3

/-! ### The boot ACL of a domain -/

/-- The functions of `bolt-str.c` and `bolt-error.c` that
`bolt_domain_update_from_udev` calls; their bodies are not part of the sources
at hand, so the update is embedded over any behaviour of them.
`bolt_strv_equal` compares two string vectors, either of which may be NULL;
`bolt_err_notfound` tells whether an error (or NULL) is a not-found error. -/
structure BoltUtil where
  bolt_strv_equal : Option (List String) → Option (List String) → Bool
  bolt_err_notfound : Option GError → Bool

/-- `bolt_domain_update_from_udev`: the domain afterwards and the names of the
properties for which a change notification was emitted, in order. -/
def bolt_domain_update_from_udev (h : BoltSysfs) (u : BoltUtil) (domain : BoltDomain)
    (udev : udev_device) : BoltDomain × List String :=
  let acl : Option (List String) := match h.bolt_sysfs_read_boot_acl udev with
    | .ok a => some a
    | .error _ => none
  let err : Option GError := match h.bolt_sysfs_read_boot_acl udev with
    | .ok _ => none
    | .error e => some e
  if acl = none ∧ u.bolt_err_notfound err = false then (domain, [])
  else
    let same := u.bolt_strv_equal domain.bootacl acl
    if same then (domain, [])
    else ({ domain with bootacl := acl }, ["bootacl"])

/-- `bolt_domain_supports_bootacl`. -/
def bolt_domain_supports_bootacl (domain : BoltDomain) : Bool :=
  domain.bootacl.isSome

/-- Modelled from the spec: `bolt_strzero` of `bolt-str.h` is not among the
sources; a slot is free when its contents are the empty string. -/
def bolt_strzero (s : String) : Bool :=
  s.toList.isEmpty

/-- Incrementing a `guint` counter. -/
def guint_succ (n : Nat) : Nat :=
  (n + 1) % 2 ^ 32

/-- `bolt_domain_bootacl_slots`: the returned slot count and the value stored
through `n_free` (when that pointer is not NULL). -/
def bolt_domain_bootacl_slots (domain : BoltDomain) : Nat × Nat :=
  match domain.bootacl with
  | none => (0, 0)
  | some bootacl =>
    bootacl.foldl
      (fun (c : Nat × Nat) iter =>
        (guint_succ c.1, if bolt_strzero iter then guint_succ c.2 else c.2))
      (0, 0)

/-- `bolt_domain_bootacl_get_used`: the returned array, without its NULL
terminator, and the value stored through `n_used` (when that pointer is not
NULL). -/
def bolt_domain_bootacl_get_used (domain : BoltDomain) : List String × Nat :=
  match domain.bootacl with
  | none => ([], 0)
  | some bootacl =>
    bootacl.foldl
      (fun (c : List String × Nat) iter =>
        if iter.toList.length ≠ 0 then (c.1 ++ [iter], guint_succ c.2) else c)
      ([], 0)

/-- Modelled from the spec: the bodies of `bolt_strv_equal` and
`bolt_err_notfound` are not among the sources.  Per the spec the cached and the
read ACL are compared for equality of all their contents, and a not-found error
is the kind that marks an absent attribute. -/
def spec_util : BoltUtil where
  bolt_strv_equal := fun a b => decide (a = b)
  bolt_err_notfound := fun e =>
    match e with
    | some err => decide (err.code = G_IO_ERROR_NOT_FOUND)
    | none => false

/-- A domain with the given boot ACL. -/
def domain_with_bootacl (bootacl : Option (List String)) : BoltDomain :=
  { sort := 0, store := false, uid := "uid-0", id := "domain0",
    syspath := "/sys/devices/domain0", security := BOLT_SECURITY_USER, bootacl := bootacl }

/-- The udev device of the controller domain0 whose `boot_acl` attribute reads
as given. -/
def sysfs_domain_acl (boot_acl : String) : udev_device :=
  ⟨"/sys/devices/domain0", some "domain0", [("security", "user"), ("boot_acl", boot_acl)]⟩

/-! ### Removing a domain from the list -/

/-- Modelled from the spec: `bolt_nhlist_del` of `bolt-list.h` is not among the
sources.  It unlinks the member at position `n` and returns the head of what
remains: the old head, the member behind it when the head itself was unlinked,
and NULL when the list had that one member only. -/
def bolt_nhlist_del (list : List BoltDomain) (n : Nat) : List BoltDomain :=
  list.eraseIdx n

/-- `bolt_domain_remove`: the member to remove is given by its position in the
list, which stands for its address.  A NULL list gives NULL. -/
def bolt_domain_remove (list : List BoltDomain) (domain : Nat) : List BoltDomain :=
  match list with
  | [] => []
  | _ :: _ => bolt_nhlist_del list domain

/-- A visitor for `bolt_domain_foreach` that records each domain it is called
with. -/
def record_domain (d : BoltDomain) (seen : List BoltDomain) : List BoltDomain :=
  seen ++ [d]

/-! ## Devices of the client library (`lib/device.c`) -/

/-- A `GUdevDevice` wraps a `struct udev_device`. -/
abbrev GUdevDevice := udev_device

/-- GUdev `g_udev_device_get_sysfs_path`. -/
def g_udev_device_get_sysfs_path (udev : GUdevDevice) : Option String :=
  some udev.syspath

/-- GUdev `g_udev_device_get_sysfs_attr`. -/
def g_udev_device_get_sysfs_attr (udev : GUdevDevice) (attr : String) : Option String :=
  udev_device_get_sysattr_value udev attr

/-- GUdev `g_udev_device_get_sysfs_attr_as_uint64`: 0 for a missing attribute,
else `g_ascii_strtoull (s, NULL, 0)`. -/
def g_udev_device_get_sysfs_attr_as_uint64 (udev : GUdevDevice) (attr : String) : Nat :=
  match g_udev_device_get_sysfs_attr udev attr with
  | none => 0
  | some s => (g_ascii_strtoull s.toList).1

/-- The digit loop of `strtol`: the value of the longest run of digits below
`base`. -/
def strtol_digits (base : Nat) : List Char → Nat → Nat
  | [], v => v
  | c :: s, v =>
    match digit_value c with
    | none => v
    | some d => if d ≥ base then v else strtol_digits base s (v * base + d)

/-- The C library `strtol (nptr, NULL, 0)` for a 64-bit `long`: white space is
skipped, a sign is accepted, a leading `0x` selects base 16 and a leading `0`
base 8; a value out of range is clamped to `LONG_MIN` or `LONG_MAX`. -/
def strtol (nptr : List Char) : Int :=
  let s := nptr.dropWhile ISSPACE
  match s with
  | [] => 0
  | c :: _ =>
    let negative := decide (c = '-')
    let s1 := if c = '-' ∨ c = '+' then s.drop 1 else s
    let hex := match s1 with
      | '0' :: x :: _ => decide (x = 'x' ∨ x = 'X')
      | _ => false
    let base := if hex then 16 else if s1.head? = some '0' then 8 else 10
    let s2 := if hex then s1.drop 2 else s1
    let v := strtol_digits base s2 0
    if negative then (if v > 2 ^ 63 then -(2 ^ 63 : Int) else -(v : Int))
    else (if v > 2 ^ 63 - 1 then (2 ^ 63 - 1 : Int) else (v : Int))

/-- Conversion of an integer to `gint`: the low 32 bits, read as signed. -/
def to_gint (v : Int) : Int :=
  (v + 2 ^ 31) % 2 ^ 32 - 2 ^ 31

/-- GUdev `g_udev_device_get_sysfs_attr_as_int`: 0 for a missing attribute, else
`strtol (s, NULL, 0)` stored in a `gint`. -/
def g_udev_device_get_sysfs_attr_as_int (udev : GUdevDevice) (attr : String) : Int :=
  match g_udev_device_get_sysfs_attr udev attr with
  | none => 0
  | some s => to_gint (strtol s.toList)

/-- The fields of `TbDevice` (declared in `device.h`, not among the sources)
that `device.c` uses; `db` is whether that pointer is set.  The `guint` fields
hold values below `2 ^ 32`. -/
structure TbDevice where
  uid : Option String
  vendor : Nat
  vendor_name : Option String
  device : Nat
  device_name : Option String
  sysfs : Option String
  authorized : Int
  autoconnect : Bool
  db : Bool
  deriving DecidableEq, Repr

/-- `set_string`: the returned flag and the field afterwards; `g_strcmp0`
compares two strings either of which may be NULL. -/
def set_string (val : Option String) (field : Option String) : Nat × Option String :=
  if val = field then (0, field) else (1, val)

/-- `set_string_from_udev_attr`. -/
def set_string_from_udev_attr (udev : GUdevDevice) (attr : String) (field : Option String) :
    Nat × Option String :=
  set_string (g_udev_device_get_sysfs_attr udev attr) field

/-- `set_uint_from_udev_attr`: the 64-bit value read is compared with the field
and, when different, stored in the `guint` field. -/
def set_uint_from_udev_attr (udev : GUdevDevice) (attr : String) (field : Nat) : Nat × Nat :=
  let val := g_udev_device_get_sysfs_attr_as_uint64 udev attr
  if val = field then (0, field) else (1, val % 2 ^ 32)

/-- `set_int_from_udev_attr`. -/
def set_int_from_udev_attr (udev : GUdevDevice) (attr : String) (field : Int) : Nat × Int :=
  let val := g_udev_device_get_sysfs_attr_as_int udev attr
  if val = field then (0, field) else (1, val)

/-- `tb_device_update_from_udev`: the device afterwards and the returned
boolean `chg > 0`; the flags are or-ed into `chg`. -/
def tb_device_update_from_udev (device : TbDevice) (udev : GUdevDevice) : TbDevice × Bool :=
  let val := g_udev_device_get_sysfs_path udev
  let r1 := set_string val device.sysfs
  let r2 := set_string_from_udev_attr udev "device_name" device.device_name
  let r3 := set_uint_from_udev_attr udev "device" device.device
  let r4 := set_string_from_udev_attr udev "vendor_name" device.vendor_name
  let r5 := set_uint_from_udev_attr udev "vendor" device.vendor
  let r6 := set_int_from_udev_attr udev "authorized" device.authorized
  let r7 := if device.uid = none then set_string_from_udev_attr udev "unique_id" device.uid
            else (0, device.uid)
  let chg := r1.1 ||| r2.1 ||| r3.1 ||| r4.1 ||| r5.1 ||| r6.1 ||| r7.1
  ({ device with sysfs := r1.2, device_name := r2.2, device := r3.2, vendor_name := r4.2,
                 vendor := r5.2, authorized := r6.2, uid := r7.2 }, decide (chg > 0))

/-- `tb_device_get_uid`. -/
def tb_device_get_uid (device : TbDevice) : Option String :=
  device.uid

/-! ### Creating a device from udev -/

/-- `read_sysattr_name`: the value of the attribute `<attr>_name` when the
device has it, else that of `attr`; NULL with a udev error when it has
neither. -/
def read_sysattr_name (udev : udev_device) (attr : String) : Option String × Option GError :=
  let s := attr ++ "_name"
  match udev_device_get_sysattr_value udev s with
  | some v => (some v, none)
  | none =>
    match udev_device_get_sysattr_value udev attr with
    | some v => (some v, none)
    | none => (none, some ⟨BOLT_ERROR_UDEV, "failed to get sysfs attr: " ++ attr⟩)

/-- `bolt_device_new_for_udev`: the new device or NULL, and the error set.  A
NULL `udev` is `none`, for which libudev returns a NULL attribute value.  The
syspath of a udev device is never NULL here, and the manager, which is only
stored as a weak pointer, is left out. -/
def bolt_device_new_for_udev (udev : Option udev_device) : Option BoltDevice × Option GError :=
  let uid : Option String := match udev with
    | some u => udev_device_get_sysattr_value u "unique_id"
    | none => none
  match udev with
  | none => (none, some ⟨BOLT_ERROR_UDEV, "could not get unique_id for udev"⟩)
  | some u =>
    let syspath := u.syspath
    match read_sysattr_name u "device" with
    | (none, error) => (none, error)
    | (some name, _) =>
      match read_sysattr_name u "vendor" with
      | (none, error) => (none, error)
      | (some vendor, _) =>
        (some { uid := uid, name := name, vendor := vendor,
                status := bolt_status_from_udev u, syspath := syspath }, none)

/-- `bolt_device_get_uid`. -/
def bolt_device_get_uid (dev : BoltDevice) : Option String :=
  dev.uid

/-! ### The D-Bus method `Authorize` -/

/-- What a `GDBusMethodInvocation` is answered with: the method return sent by
`bolt_dbus_device_complete_authorize`, or the error reply that
`g_dbus_method_invocation_take_error` builds from an error object, given here as
the object was when it was read. -/
inductive DBusReply where
  | complete_authorize
  | error (e : GErrorObject)
  deriving DecidableEq, Repr

/-- The number that stands for the address of `handle_authorize_done` where a
callback is stored. -/
def HANDLE_AUTHORIZE_DONE : Nat := 1

/-- GLib `g_dbus_method_invocation_take_error (invocation, error)`: the reply is
built from the error object, which is then freed; for a NULL error the call
returns without sending.  Returns the replies sent and the object afterwards. -/
def g_dbus_method_invocation_take_error (invocation : Nat) (error : Option GErrorObject) :
    List (Nat × DBusReply) × Option GErrorObject :=
  match error with
  | some e => ([(invocation, .error e)], some (g_error_free e))
  | none => ([], none)

set_option linter.unusedVariables false in
/-- `handle_authorize_done`: the replies it sends, each with the invocation it
answers, and the object that `*error` points to when it returns; `user_data` is
the invocation.  After `g_dbus_method_invocation_take_error (invocation,
*error)` the assignment `error = NULL` clears the parameter only, so `*error`
still points to the object that was given away. -/
def handle_authorize_done (dev : BoltDevice) (ok : Bool) (error : Option GErrorObject)
    (user_data : Nat) : List (Nat × DBusReply) × Option GErrorObject :=
  let invocation := user_data
  if ok then ([(invocation, .complete_authorize)], error)
  else g_dbus_method_invocation_take_error invocation error

/-- The call `auth->callback (dev, ok, &error, auth->user_data)` made by
`authorize_thread_done`, for the callbacks defined in `bolt-device.c`, with
`error` the object that the local `error` of the caller points to: the replies
sent by the callee and the object that `error` points to afterwards. -/
def call_callback (dev : BoltDevice) (c : CallbackCall) (error : Option GErrorObject) :
    List (Nat × DBusReply) × Option GErrorObject :=
  if c.callback = HANDLE_AUTHORIZE_DONE then handle_authorize_done dev c.ok error c.user_data
  else ([], error)

/-- `handle_authorize`: the outcome of `bolt_device_authorize` and the replies
sent before it returns.  The error of a rejection is a plain local pointer that
`g_dbus_method_invocation_take_error` takes over. -/
def handle_authorize (dev : BoltDevice) (invocation : Nat) :
    AuthorizeOutcome × List (Nat × DBusReply) :=
  let r := bolt_device_authorize dev (some HANDLE_AUTHORIZE_DONE) invocation
  if !r.ret then
    (r, (g_dbus_method_invocation_take_error invocation
          (r.error.map fun error => ⟨error, 0⟩)).1)
  else (r, [])

/-- The error object in `authorize_thread_done`.  `g_task_propagate_boolean`
moves the pointer of the task into the local `error`, a `g_autoptr (GError)`;
the callback, when there is one, is given the address of `error`; and when the
callback has returned, the cleanup of `error` frees the object that it still
points to.  The status and the arguments of the callback are those that
`authorize_thread_done` computes from the result by value.  Returns the device,
the replies that the callback sent, and the error object at the end. -/
def authorize_thread_done_error (dev : BoltDevice) (auth : AuthData) (res : TaskReturn) :
    BoltDevice × List (Nat × DBusReply) × Option GErrorObject :=
  let error := (g_task_propagate_boolean res).2
  let done := authorize_thread_done dev auth (task_result res)
  let called := match done.2 with
    | some c => call_callback done.1 c error
    | none => ([], error)
  (done.1, called.1, called.2.map g_error_free)

/-- GLib `g_task_run_in_thread (task, authorize_in_thread)` for a task created
with the callback `authorize_thread_done`: the worker function runs in a thread
on the device as it is then, and once it has returned its result the callback
of the task runs, one time, on the main loop with the device as it is by then.
Returns the device after the callback, the replies sent, and the error object of
the task at the end. -/
def g_task_run_in_thread (io : BoltIo) (dev_worker dev_done : BoltDevice) (auth : AuthData) :
    BoltDevice × List (Nat × DBusReply) × Option GErrorObject :=
  authorize_thread_done_error dev_done auth (authorize_in_thread io dev_worker auth).1

/-- One `Authorize` method call from `handle_authorize` to the completion of the
task it may have started: the device at the end, the replies sent, and the error
object of the task at the end. -/
def authorize_method_call (io : BoltIo) (dev : BoltDevice) (invocation : Nat) :
    BoltDevice × List (Nat × DBusReply) × Option GErrorObject :=
  let r := handle_authorize dev invocation
  match r.1.task with
  | none => (r.1.dev, r.2, none)
  | some auth =>
    let t := g_task_run_in_thread io r.1.dev r.1.dev auth
    (t.1, r.2 ++ t.2.1, t.2.2)

/-- Whether a task result is TRUE. -/
def task_ok (res : TaskResult) : Bool :=
  match res with
  | .ok _ => true
  | .error _ => false

/-- The error of a task result. -/
def task_error (res : TaskResult) : Option GError :=
  match res with
  | .ok _ => none
  | .error e => some e

/-- Modelled from the spec: a sysfs directory as `sysfs_io` has it, whose
`authorized` attribute cannot be written: `bolt_write_char_at` fails with an I/O
error. -/
def sysfs_io_write_fault (path : String) (unique_id : String) : BoltIo where
  bolt_opendir := (sysfs_io path unique_id).bolt_opendir
  bolt_verify_uid := (sysfs_io path unique_id).bolt_verify_uid
  bolt_write_char_at := fun _ _ _ => .error ⟨G_IO_ERROR_FAILED, "write failed"⟩

/-! ### Decimal numerals -/

/-- The character of a decimal digit. -/
def decimal_digit (d : Nat) : Char :=
  Char.ofNat (48 + d)

/-- The text of the decimal numeral with the given digits, most significant
first. -/
def decimal_text (digits : List Nat) : String :=
  String.mk (digits.map decimal_digit)

/-- The number that a decimal numeral denotes, continuing from `a`. -/
def decimal_value (digits : List Nat) (a : Nat) : Nat :=
  digits.foldl (fun v d => v * 10 + d) a

/-! ## Theorems -/

/-- C1: `bolt_device_authorize` accepts exactly when the status is connected or
auth-error; on acceptance the status becomes authorizing and the task carries
level '1'; on rejection an error is set and the device is unchanged. -/
theorem bolt_device_authorize_accepts_iff (dev : BoltDevice) (callback : Option Nat)
    (user_data : Nat) :
    ((bolt_device_authorize dev callback user_data).ret = true ↔
      (dev.status = BOLT_STATUS_CONNECTED ∨ dev.status = BOLT_STATUS_AUTH_ERROR)) ∧
    ((bolt_device_authorize dev callback user_data).ret = true →
      (bolt_device_authorize dev callback user_data).dev.status = BOLT_STATUS_AUTHORIZING ∧
      (bolt_device_authorize dev callback user_data).task = some ⟨'1', callback, user_data⟩ ∧
      (bolt_device_authorize dev callback user_data).error = none) ∧
    ((bolt_device_authorize dev callback user_data).ret = false →
      (bolt_device_authorize dev callback user_data).error.isSome = true ∧
      (bolt_device_authorize dev callback user_data).dev = dev ∧
      (bolt_device_authorize dev callback user_data).task = none) := by
  unfold bolt_device_authorize
  by_cases h1 : dev.status = BOLT_STATUS_CONNECTED
  · simp [h1]
  · by_cases h2 : dev.status = BOLT_STATUS_AUTH_ERROR
    · simp [h2]
    · simp [h1, h2]

/-- Witness for C1: a connected device is accepted and becomes authorizing, an
authorized one is rejected and stays as it is. -/
theorem bolt_device_authorize_accepts_iff_witness :
    (bolt_device_authorize ⟨some "X", "n", "v", BOLT_STATUS_CONNECTED, "/sys/0-1"⟩ none 0).dev.status
      = BOLT_STATUS_AUTHORIZING ∧
    (bolt_device_authorize ⟨some "X", "n", "v", BOLT_STATUS_AUTHORIZED, "/sys/0-1"⟩ none 0).dev
      = ⟨some "X", "n", "v", BOLT_STATUS_AUTHORIZED, "/sys/0-1"⟩ :=
  ⟨((bolt_device_authorize_accepts_iff
      ⟨some "X", "n", "v", BOLT_STATUS_CONNECTED, "/sys/0-1"⟩ none 0).2.1 (by decide)).1,
   ((bolt_device_authorize_accepts_iff
      ⟨some "X", "n", "v", BOLT_STATUS_AUTHORIZED, "/sys/0-1"⟩ none 0).2.2 (by decide)).2.1⟩

/-- C2 (as the code behaves): `authorize_thread_done` sets the status to
auth-error when the worker succeeded and to authorized when it failed, the
reverse of what the claim states. -/
theorem authorize_thread_done_status_inverted (dev : BoltDevice) (auth : AuthData)
    (e : GError) :
    (authorize_thread_done dev auth (.ok ())).1.status = BOLT_STATUS_AUTH_ERROR ∧
    (authorize_thread_done dev auth (.error e)).1.status = BOLT_STATUS_AUTHORIZED := by
  simp [authorize_thread_done]

/-- Main-loop invariant: either no task is in flight, or exactly one is and the
device is authorizing. -/
theorem loop_tasks_authorizing (s0 s : DeviceLoop) (h0 : s0.tasks = [])
    (hr : LoopReachable s0 s) :
    s.tasks = [] ∨ (s.dev.status = BOLT_STATUS_AUTHORIZING ∧ s.tasks.length = 1) := by
  induction hr with
  | start => exact Or.inl h0
  | @next s s1 e _ hs ih =>
    cases e with
    | request callback user_data =>
      simp only [loop_step, Option.some.injEq] at hs
      subst hs
      unfold bolt_device_authorize
      split
      · simpa using ih
      · rename_i hc
        rcases ih with ih | ih
        · right; simp [ih]
        · exfalso; apply hc; simp [ih.1]
    | done i res =>
      simp only [loop_step] at hs
      split at hs
      · exact absurd hs (by simp)
      · rename_i auth hget
        simp only [Option.some.injEq] at hs
        subst hs
        left
        rcases ih with ih | ih
        · simp [ih] at hget
        · obtain ⟨a, ha⟩ := List.length_eq_one.mp ih.2
          rw [ha] at hget ⊢
          cases i with
          | zero => simp
          | succ j => simp at hget

/-- C3: along every run of authorize requests and worker completions that starts
with no task in flight, a step either leaves the status as it is or changes it
along one of the six edges of the state machine; no step takes authorizing to
connected. -/
theorem authorize_steps_follow_edges (s0 s s1 : DeviceLoop) (e : LoopEvent)
    (h0 : s0.tasks = []) (hr : LoopReachable s0 s) (hs : loop_step s e = some s1) :
    (s1.dev.status ≠ s.dev.status → legal_edge s.dev.status s1.dev.status = true) ∧
    ¬ (s.dev.status = BOLT_STATUS_AUTHORIZING ∧ s1.dev.status = BOLT_STATUS_CONNECTED) := by
  have inv := loop_tasks_authorizing s0 s h0 hr
  cases e with
  | request callback user_data =>
    simp only [loop_step, Option.some.injEq] at hs
    subst hs
    unfold bolt_device_authorize
    by_cases h1 : s.dev.status = BOLT_STATUS_CONNECTED
    · simp [h1, legal_edge]
    · by_cases h2 : s.dev.status = BOLT_STATUS_AUTH_ERROR
      · simp [h2, legal_edge]
      · simp [h1, h2]
  | done i res =>
    simp only [loop_step] at hs
    split at hs
    · exact absurd hs (by simp)
    · rename_i auth hget
      simp only [Option.some.injEq] at hs
      subst hs
      rcases inv with inv | inv
      · simp [inv] at hget
      · cases res <;> simp [authorize_thread_done, inv.1, legal_edge]

/-- Witness for C3: a connected device is asked to authorize, its worker
succeeds, and it is asked again; the last step is the edge auth-error to
authorizing. -/
theorem authorize_steps_follow_edges_witness :
    legal_edge BOLT_STATUS_AUTH_ERROR BOLT_STATUS_AUTHORIZING = true ∧
    ¬ (BOLT_STATUS_AUTH_ERROR = BOLT_STATUS_AUTHORIZING ∧
       BOLT_STATUS_AUTHORIZING = BOLT_STATUS_CONNECTED) :=
  have h := authorize_steps_follow_edges
    ⟨⟨some "X", "n", "v", BOLT_STATUS_CONNECTED, "/sys/0-1"⟩, []⟩
    ⟨⟨some "X", "n", "v", BOLT_STATUS_AUTH_ERROR, "/sys/0-1"⟩, []⟩
    ⟨⟨some "X", "n", "v", BOLT_STATUS_AUTHORIZING, "/sys/0-1"⟩, [⟨'1', none, 0⟩]⟩
    (.request none 0) rfl
    (@LoopReachable.next _
      ⟨⟨some "X", "n", "v", BOLT_STATUS_AUTHORIZING, "/sys/0-1"⟩, [⟨'1', none, 0⟩]⟩ _
      (.done 0 (.ok ()))
      (@LoopReachable.next _ _ _ (.request none 0) .start (by decide)) (by decide))
    (by decide)
  ⟨h.1 (by decide), h.2⟩

/-- The worker when the directory cannot be opened: the task is left with the
error of the open, freed once. -/
theorem authorize_in_thread_open_error (io : BoltIo) (dev : BoltDevice) (auth : AuthData)
    (e : GError) (ho : io.bolt_opendir dev.syspath = .error e) :
    authorize_in_thread io dev auth = (.error ⟨e, 1⟩, [.opendir dev.syspath]) := by
  simp [authorize_in_thread, ho, g_error_free]

/-- The worker when the uid verification fails: the task is left with the error
of the verification, freed once. -/
theorem authorize_in_thread_verify_error (io : BoltIo) (dev : BoltDevice) (auth : AuthData)
    (devdir : Nat) (e : GError) (ho : io.bolt_opendir dev.syspath = .ok devdir)
    (hv : io.bolt_verify_uid devdir dev.uid = .error e) :
    authorize_in_thread io dev auth =
      (.error ⟨e, 1⟩, [.opendir dev.syspath, .verify_uid devdir dev.uid]) := by
  simp [authorize_in_thread, ho, hv, g_error_free]

/-- The calls of the worker when open and verification succeed. -/
theorem authorize_in_thread_calls (io : BoltIo) (dev : BoltDevice) (auth : AuthData)
    (devdir : Nat) (ho : io.bolt_opendir dev.syspath = .ok devdir)
    (hv : io.bolt_verify_uid devdir dev.uid = .ok ()) :
    (authorize_in_thread io dev auth).2 =
      [.opendir dev.syspath, .verify_uid devdir dev.uid,
       .write_char_at devdir "authorized" auth.level] := by
  simp only [authorize_in_thread, ho, hv]
  split <;> rfl

/-- The result of the worker when open and verification succeed: `TRUE` when the
write succeeds, and a new, live error object when it fails. -/
theorem authorize_in_thread_written (io : BoltIo) (dev : BoltDevice) (auth : AuthData)
    (devdir : Nat) (ho : io.bolt_opendir dev.syspath = .ok devdir)
    (hv : io.bolt_verify_uid devdir dev.uid = .ok ()) :
    (io.bolt_write_char_at devdir "authorized" auth.level = .ok () →
      (authorize_in_thread io dev auth).1 = .ok ()) ∧
    (∀ e, io.bolt_write_char_at devdir "authorized" auth.level = .error e →
      (authorize_in_thread io dev auth).1
        = .error ⟨⟨BOLT_ERROR_FAILED, "failed to authorize device: " ++ e.message⟩, 0⟩) := by
  constructor
  · intro hw
    simp [authorize_in_thread, ho, hv, hw]
  · intro e hw
    simp [authorize_in_thread, ho, hv, hw]

/-- The order of the calls of the worker: it writes to `authorized` only when
the directory was opened and `bolt_verify_uid` succeeded, and then as the last
call after both; when the open or the verification fails no write to
`authorized` is issued, and the error object that the task is left with is the
one of the failed call, freed once by the worker. -/
theorem authorize_in_thread_write_after_verify (io : BoltIo) (dev : BoltDevice)
    (auth : AuthData) :
    ((authorize_in_thread io dev auth).2.any is_authorized_write = true ↔
      ∃ devdir, io.bolt_opendir dev.syspath = .ok devdir ∧
        io.bolt_verify_uid devdir dev.uid = .ok ()) ∧
    (∀ devdir, io.bolt_opendir dev.syspath = .ok devdir →
      io.bolt_verify_uid devdir dev.uid = .ok () →
      (authorize_in_thread io dev auth).2 =
        [.opendir dev.syspath, .verify_uid devdir dev.uid,
         .write_char_at devdir "authorized" auth.level]) ∧
    (∀ e, io.bolt_opendir dev.syspath = .error e →
      (authorize_in_thread io dev auth).1 = .error ⟨e, 1⟩ ∧
      (authorize_in_thread io dev auth).2.any is_authorized_write = false) ∧
    (∀ devdir e, io.bolt_opendir dev.syspath = .ok devdir →
      io.bolt_verify_uid devdir dev.uid = .error e →
      (authorize_in_thread io dev auth).1 = .error ⟨e, 1⟩ ∧
      (authorize_in_thread io dev auth).2.any is_authorized_write = false) := by
  cases ho : io.bolt_opendir dev.syspath with
  | error e =>
    rw [authorize_in_thread_open_error io dev auth e ho]
    simp [is_authorized_write]
  | ok devdir =>
    cases hv : io.bolt_verify_uid devdir dev.uid with
    | error e =>
      rw [authorize_in_thread_verify_error io dev auth devdir e ho hv]
      refine ⟨?_, ?_, by simp, ?_⟩
      · simp [is_authorized_write, hv]
      · intro d hd h
        cases hd
        rw [hv] at h
        cases h
      · intro d e1 hd he
        cases hd
        rw [hv] at he
        cases he
        simp [is_authorized_write]
    | ok u =>
      rw [authorize_in_thread_calls io dev auth devdir ho hv]
      refine ⟨?_, ?_, by simp, ?_⟩
      · simp [is_authorized_write, hv]
      · intro d hd _
        cases hd
        rfl
      · intro d e1 hd he
        cases hd
        rw [hv] at he
        cases he

/-- C4 (as the code behaves): the device has uid X and syspath `/sys/0-1`.  When
the `unique_id` under the path reads Z, and when the path cannot be opened, the
worker issues no write to `authorized`, but the error object it has handed to
the task is freed once when the worker returns: the task is failed with a
pointer to released memory.  When the write itself fails the task gets a live
error object of its own, and when everything succeeds the write is the last of
the three calls. -/
theorem authorize_in_thread_error_freed :
    authorize_in_thread (sysfs_io "/sys/0-1" "Z")
        ⟨some "X", "n", "v", BOLT_STATUS_AUTHORIZING, "/sys/0-1"⟩ ⟨'1', none, 0⟩
      = (.error ⟨⟨BOLT_ERROR_FAILED, "unique id mismatch"⟩, 1⟩,
         [.opendir "/sys/0-1", .verify_uid 3 (some "X")]) ∧
    authorize_in_thread (sysfs_io "/sys/0-2" "X")
        ⟨some "X", "n", "v", BOLT_STATUS_AUTHORIZING, "/sys/0-1"⟩ ⟨'1', none, 0⟩
      = (.error ⟨⟨G_IO_ERROR_NOT_FOUND, "could not open directory"⟩, 1⟩,
         [.opendir "/sys/0-1"]) ∧
    authorize_in_thread (sysfs_io_write_fault "/sys/0-1" "X")
        ⟨some "X", "n", "v", BOLT_STATUS_AUTHORIZING, "/sys/0-1"⟩ ⟨'1', none, 0⟩
      = (.error ⟨⟨BOLT_ERROR_FAILED, "failed to authorize device: write failed"⟩, 0⟩,
         [.opendir "/sys/0-1", .verify_uid 3 (some "X"),
          .write_char_at 3 "authorized" '1']) ∧
    authorize_in_thread (sysfs_io "/sys/0-1" "X")
        ⟨some "X", "n", "v", BOLT_STATUS_AUTHORIZING, "/sys/0-1"⟩ ⟨'1', none, 0⟩
      = (.ok (), [.opendir "/sys/0-1", .verify_uid 3 (some "X"),
                  .write_char_at 3 "authorized" '1']) :=
  ⟨rfl, rfl, rfl, rfl⟩

/-- C5: the status table of `bolt_status_from_udev`, by the integer read from
`authorized` and by whether `key` is present and non-empty. -/
theorem bolt_status_from_udev_table (udev : udev_device) :
    (read_sysfs_attr_int udev "authorized" = 2 →
      bolt_status_from_udev udev = BOLT_STATUS_AUTHORIZED_SECURE) ∧
    (read_sysfs_attr_int udev "authorized" = 1 →
      (∃ k, udev_device_get_sysattr_value udev "key" = some k ∧ k ≠ "") →
      bolt_status_from_udev udev = BOLT_STATUS_AUTHORIZED_NEWKEY) ∧
    (read_sysfs_attr_int udev "authorized" = 1 →
      (udev_device_get_sysattr_value udev "key" = none ∨
        udev_device_get_sysattr_value udev "key" = some "") →
      bolt_status_from_udev udev = BOLT_STATUS_AUTHORIZED) ∧
    (read_sysfs_attr_int udev "authorized" = 0 →
      (∃ k, udev_device_get_sysattr_value udev "key" = some k ∧ k ≠ "") →
      bolt_status_from_udev udev = BOLT_STATUS_AUTH_ERROR) ∧
    (read_sysfs_attr_int udev "authorized" = 0 →
      (udev_device_get_sysattr_value udev "key" = none ∨
        udev_device_get_sysattr_value udev "key" = some "") →
      bolt_status_from_udev udev = BOLT_STATUS_CONNECTED) := by
  have hne : ∀ k : String, k ≠ "" → string_nonzero (some k) = true := by
    intro k hk
    have : k.data ≠ [] := fun h => hk (String.ext h)
    simp [string_nonzero, this]
  have he : string_nonzero (some "") = false := by decide
  have hn : string_nonzero none = false := rfl
  refine ⟨?_, ?_, ?_, ?_, ?_⟩
  · intro h; simp [bolt_status_from_udev, h]
  · rintro h ⟨k, hk, hk2⟩; simp [bolt_status_from_udev, h, hk, hne k hk2]
  · rintro h (hk | hk) <;> simp [bolt_status_from_udev, h, hk, he, hn]
  · rintro h ⟨k, hk, hk2⟩; simp [bolt_status_from_udev, h, hk, hne k hk2]
  · rintro h (hk | hk) <;> simp [bolt_status_from_udev, h, hk, he, hn]

/-- Witness for C5: `authorized` reads 1 with a key gives authorized-newkey,
and `authorized` reads 0 with an empty key gives connected. -/
theorem bolt_status_from_udev_table_witness :
    bolt_status_from_udev ⟨"/sys/0-1", some "0-1", [("authorized", "1"), ("key", "abc")]⟩
      = BOLT_STATUS_AUTHORIZED_NEWKEY ∧
    bolt_status_from_udev ⟨"/sys/0-1", some "0-1", [("authorized", "0"), ("key", "")]⟩
      = BOLT_STATUS_CONNECTED :=
  ⟨(bolt_status_from_udev_table
      ⟨"/sys/0-1", some "0-1", [("authorized", "1"), ("key", "abc")]⟩).2.1
      (by decide) ⟨"abc", by decide, by decide⟩,
   (bolt_status_from_udev_table
      ⟨"/sys/0-1", some "0-1", [("authorized", "0"), ("key", "")]⟩).2.2.2.2
      (by decide) (Or.inr (by decide))⟩

/-- C6 (as the code behaves): inserting domains with `sort` 2, 0 and 10 in that
order into the empty list makes `bolt_domain_foreach` visit them as 2, 10, 0,
which is not non-increasing, where the claim states 10, 2, 0.  With the three
domains as `bolt_domain_new_for_udev` builds them from the sysnames domain2,
domain0 and domain10 the visit sees the `sort` values 0, 0, 0. -/
theorem bolt_domain_insert_foreach_2_0_10 :
    bolt_domain_foreach
      (bolt_domain_insert
        (bolt_domain_insert
          (bolt_domain_insert [] (domain_with_sort "domain2" 2))
          (domain_with_sort "domain0" 0))
        (domain_with_sort "domain10" 10))
      record_sort [] = [2, 10, 0] ∧
    bolt_domain_foreach
      (insert_new_for_udev spec_sysfs
        (insert_new_for_udev spec_sysfs
          (insert_new_for_udev spec_sysfs [] (sysfs_domain "domain2") "uid-2")
          (sysfs_domain "domain0") "uid-0")
        (sysfs_domain "domain10") "uid-10")
      record_sort [] = [0, 0, 0] ∧
    (insert_new_for_udev spec_sysfs
        (insert_new_for_udev spec_sysfs
          (insert_new_for_udev spec_sysfs [] (sysfs_domain "domain2") "uid-2")
          (sysfs_domain "domain0") "uid-0")
        (sysfs_domain "domain10") "uid-10").map (fun d => d.id)
      = ["domain2", "domain0", "domain10"] := by
  decide

/-- Whatever the sysfs helpers return, a domain built by
`bolt_domain_new_for_udev` has `sort` 0. -/
theorem bolt_domain_new_for_udev_sort_zero (h : BoltSysfs) (udev : udev_device)
    (uid : String) (dom : BoltDomain)
    (hd : (bolt_domain_new_for_udev h udev uid).1 = some dom) : dom.sort = 0 := by
  unfold bolt_domain_new_for_udev at hd
  split at hd
  · simp at hd
  · split at hd
    · simp at hd
    · simp only at hd
      split at hd
      · simp at hd
      · simp only [Option.some.injEq] at hd
        rw [← hd]
        rfl

/-- C8 (as the code behaves): for the sysname domain10 the constructor computes
10 in its local variable but the domain it returns has `sort` 0, where the claim
states 10. -/
theorem bolt_domain_new_for_udev_domain10 :
    sysname_sort spec_sysfs "domain10" = 10 ∧
    (bolt_domain_new_for_udev spec_sysfs (sysfs_domain "domain10") "uid-10").1
      = some ⟨0, false, "uid-10", "domain10", "/sys/devices/domain10",
              BOLT_SECURITY_USER, none⟩ := by
  decide

/-! ### Tables -/

@[simp] theorem upd_same {α β : Type} [DecidableEq α] (f : α → β) (k : α) (v : β) :
    upd f k v k = v := by
  simp [upd]

theorem upd_other {α β : Type} [DecidableEq α] (f : α → β) (k x : α) (v : β) (h : x ≠ k) :
    upd f k v x = f x := by
  simp [upd, h]

/-- A path and the lock path made from it differ. -/
theorem lock_path_ne (base : String) : base ++ ".lock" ≠ base := by
  intro h
  have h1 := congrArg String.length h
  simp [String.length_append] at h1
  revert h1
  decide

/-! ### Reading a journal -/

theorem journal_parse_nil : journal_parse [] = [] := by
  simp [journal_parse, g_strsplit_nl]

/-- With every call succeeding, `bolt_journal_list` returns the items parsed from
the contents of the file behind the descriptor. -/
theorem bolt_journal_list_ok (fs : Fs) (journal : BoltJournal) (f : OpenFile)
    (hf : fs.fds journal.fd = some f) :
    (bolt_journal_list fs journal ListEnv.ok).2 = .ok (journal_parse (fs.data f.ino)) := by
  simp only [bolt_journal_list, ListEnv.ok, bolt_lseek, hf, bolt_fstat, upd_same, bolt_read_all]
  by_cases h0 : (fs.data f.ino).length = 0
  · have : fs.data f.ino = [] := List.length_eq_zero.mp h0
    simp [this, journal_parse_nil]
  · simp [h0]

theorem split_nl_ne_nil (s : List Char) : split_nl s ≠ [] := by
  cases s with
  | nil => simp [split_nl]
  | cons c s =>
    simp only [split_nl]
    split
    · simp
    · split <;> simp

theorem split_nl_line (l r : List Char) (h : ∀ c ∈ l, c ≠ '\n') :
    split_nl (l ++ '\n' :: r) = l :: split_nl r := by
  induction l with
  | nil => simp [split_nl]
  | cons c l ih =>
    have hc : c ≠ '\n' := h c (by simp)
    have ih1 := ih (fun x hx => h x (by simp [hx]))
    simp [split_nl, hc, ih1]

theorem unlines_append (a b : List (List Char)) :
    unlines (a ++ b) = unlines a ++ unlines b := by
  induction a with
  | nil => rfl
  | cons l a ih => simp [unlines, ih]

theorem split_nl_unlines (ls : List (List Char)) (h : ∀ l ∈ ls, good_line l) :
    split_nl (unlines ls) = ls ++ [[]] := by
  induction ls with
  | nil => rfl
  | cons l ls ih =>
    have hl := (h l (by simp)).2
    rw [unlines, split_nl_line l _ (fun c hc => (hl c hc).1),
      ih (fun x hx => h x (by simp [hx]))]
    rfl

theorem unlines_no_nul (ls : List (List Char)) (h : ∀ l ∈ ls, good_line l) :
    ∀ c ∈ unlines ls, c ≠ '\x00' := by
  induction ls with
  | nil => simp [unlines]
  | cons l ls ih =>
    intro c hc
    simp only [unlines, List.mem_append, List.mem_cons] at hc
    rcases hc with hc | hc | hc
    · exact ((h l (by simp)).2 c hc).2
    · rw [hc]; decide
    · exact ih (fun x hx => h x (by simp [hx])) c hc

/-- The items of a file made of good lines are the items of its lines. -/
theorem journal_parse_unlines (ls : List (List Char)) (h : ∀ l ∈ ls, good_line l) :
    journal_parse (unlines ls) = ls.filterMap journal_parse_line := by
  have hnul : (unlines ls).takeWhile (fun c => c ≠ '\x00') = unlines ls := by
    rw [List.takeWhile_eq_self_iff]
    intro c hc
    simpa using unlines_no_nul ls h c hc
  unfold journal_parse
  rw [hnul]
  cases ls with
  | nil => simp [unlines, g_strsplit_nl]
  | cons l ls =>
    have hne : unlines (l :: ls) ≠ [] := by simp [unlines]
    have htw : ((l :: ls) ++ [[]]).takeWhile (fun l => !l.isEmpty) = l :: ls := by
      rw [List.takeWhile_append_of_pos]
      · simp
      · intro x hx
        have := (h x hx).1
        cases x <;> simp_all
    simp only [g_strsplit_nl, hne, if_false, split_nl_unlines _ h, htw]

/-! ### Time stamps -/

theorem hex_digit_spec (d : Nat) (h : d < 16) :
    hex_value (hex_digit d) = some d ∧ ISSPACE (hex_digit d) = false ∧
    hex_digit d ≠ '-' ∧ hex_digit d ≠ '+' ∧ hex_digit d ≠ 'x' ∧ hex_digit d ≠ 'X' ∧
    hex_digit d ≠ '\n' ∧ hex_digit d ≠ '\x00' := by
  interval_cases d <;> decide

theorem hex_digits_mem (w n : Nat) :
    ∀ c ∈ hex_digits w n, ∃ d, d < 16 ∧ c = hex_digit d := by
  induction w generalizing n with
  | zero => simp [hex_digits]
  | succ w ih =>
    intro c hc
    simp only [hex_digits, List.mem_append, List.mem_singleton] at hc
    rcases hc with hc | hc
    · exact ih _ c hc
    · exact ⟨n % 16, Nat.mod_lt _ (by decide), hc⟩

theorem hex_digits_length (w n : Nat) : (hex_digits w n).length = w := by
  induction w generalizing n with
  | zero => rfl
  | succ w ih => simp [hex_digits, ih]

theorem hex_digits_value (w n a : Nat) :
    (hex_digits w n).foldl (fun a c => a * 16 + (hex_value c).getD 0) a
      = a * 16 ^ w + n % 16 ^ w := by
  induction w generalizing n a with
  | zero => simp [hex_digits, Nat.mod_one]
  | succ w ih =>
    simp only [hex_digits, List.foldl_append, List.foldl_cons, List.foldl_nil, ih]
    have hm : n % 16 ^ (w + 1) = n % 16 + 16 * (n / 16 % 16 ^ w) := by
      rw [Nat.pow_succ', Nat.mod_mul]
    rw [(hex_digit_spec (n % 16) (Nat.mod_lt _ (by decide))).1, hm]
    simp only [Option.getD_some]
    ring

/-- Scanning the sixteen digits that `%016lX` printed gives the value back. -/
theorem sscanf_016lX_format (now : Nat) :
    sscanf_016lX (' ' :: format_016X now) = some (now % 2 ^ 64) := by
  have hlen := hex_digits_length 16 (now % 2 ^ 64)
  have hmem := hex_digits_mem 16 (now % 2 ^ 64)
  have hval := hex_digits_value 16 (now % 2 ^ 64) 0
  unfold format_016X
  generalize hex_digits 16 (now % 2 ^ 64) = H at hlen hmem hval
  match H, hlen with
  | c0 :: c1 :: T, hlen =>
    obtain ⟨d0, hd0, rfl⟩ := hmem c0 (by simp)
    obtain ⟨d1, hd1, rfl⟩ := hmem c1 (by simp)
    have f0 := hex_digit_spec d0 hd0
    have f1 := hex_digit_spec d1 hd1
    have hall : ∀ c ∈ hex_digit d0 :: hex_digit d1 :: T, (hex_value c).isSome = true := by
      intro c hc
      obtain ⟨d, hd, rfl⟩ := hmem c hc
      simp [(hex_digit_spec d hd).1]
    have hdrop : List.dropWhile ISSPACE (' ' :: hex_digit d0 :: hex_digit d1 :: T)
        = hex_digit d0 :: hex_digit d1 :: T := by
      rw [List.dropWhile_cons_of_pos (by decide), List.dropWhile_cons_of_neg (by simp [f0.2.1])]
    have hmark : (match hex_digit d0 :: hex_digit d1 :: T with
        | '0' :: x :: _ => decide (x = 'x' ∨ x = 'X')
        | _ => false) = false := by
      split
      · rename_i heq
        simp only [List.cons.injEq] at heq
        rw [← heq.2.1]
        simp [f1.2.2.2.2.1, f1.2.2.2.2.2.1]
      · rfl
    have htake : ((hex_digit d0 :: hex_digit d1 :: T).take 16).takeWhile
        (fun c => (hex_value c).isSome) = hex_digit d0 :: hex_digit d1 :: T := by
      rw [List.take_of_length_le (by omega), List.takeWhile_eq_self_iff]
      exact hall
    have h16 : (16 : Nat) ^ 16 = 2 ^ 64 := by norm_num
    simp only [sscanf_016lX, hdrop, List.head?_cons, Option.some.injEq, f0.2.2.1, f0.2.2.2.1,
      or_self, decide_False, Bool.false_eq_true, if_false, hmark, htake, hval]
    simp [h16]

/-! ### One record, written and read back -/

theorem sscanf_ms_word (w rest : List Char) (hw : w ≠ [])
    (hns : ∀ c ∈ w, ISSPACE c = false) :
    sscanf_ms (w ++ ' ' :: rest) = some (w, ' ' :: rest) := by
  cases w with
  | nil => exact absurd rfl hw
  | cons c w =>
    have hc : ISSPACE c = false := hns c (by simp)
    have hd : List.dropWhile ISSPACE (c :: w ++ ' ' :: rest) = c :: (w ++ ' ' :: rest) := by
      rw [List.cons_append, List.dropWhile_cons_of_neg (by simp [hc])]
    have hp : ∀ a ∈ c :: w, (fun x => !ISSPACE x) a = true := by
      intro a ha
      simp [hns a ha]
    have ht : List.takeWhile (fun x => !ISSPACE x) (c :: w ++ ' ' :: rest) = c :: w := by
      rw [List.takeWhile_append_of_pos hp]
      simp [List.takeWhile_cons, show ISSPACE ' ' = true by decide]
    have hr : List.dropWhile (fun x => !ISSPACE x) (c :: w ++ ' ' :: rest) = ' ' :: rest := by
      rw [List.dropWhile_append_of_pos hp]
      simp [List.dropWhile_cons, show ISSPACE ' ' = true by decide]
    simp only [sscanf_ms, hd]
    rw [← List.cons_append, ht, hr]

theorem sscanf_ms_space (s : List Char) : sscanf_ms (' ' :: s) = sscanf_ms s := by
  simp [sscanf_ms, List.dropWhile_cons_of_pos, show ISSPACE ' ' = true by decide]

/-- The line of an entry with a well-formed uid parses to that entry. -/
theorem journal_parse_line_entry (uid : String) (op : BoltJournalOp) (now : Nat)
    (hu : uid_token uid) :
    journal_parse_line (journal_entry_line uid op now) = some ⟨uid, op, now % 2 ^ 64⟩ := by
  have h1 := sscanf_ms_word uid.toList
    ((bolt_journal_op_to_string op).toList ++ ' ' :: format_016X now) hu.1
    (fun c hc => (hu.2 c hc).1)
  have h2 : sscanf_ms (' ' :: ((bolt_journal_op_to_string op).toList ++ ' ' :: format_016X now))
      = some ((bolt_journal_op_to_string op).toList, ' ' :: format_016X now) := by
    rw [sscanf_ms_space]
    apply sscanf_ms_word
    · cases op <;> decide
    · cases op <;> decide
  have h3 : (bolt_journal_op_from_string (some (bolt_journal_op_to_string op).toList)).1 = op := by
    cases op <;> rfl
  simp only [journal_parse_line, journal_entry_line, h1, h2, sscanf_016lX_format, h3]
  rfl

/-- The line of an entry with a well-formed uid is a good line. -/
theorem journal_entry_line_good (uid : String) (op : BoltJournalOp) (now : Nat)
    (hu : uid_token uid) : good_line (journal_entry_line uid op now) := by
  constructor
  · intro h
    rw [journal_entry_line, List.append_eq_nil] at h
    exact hu.1 h.1
  · intro c hc
    simp only [journal_entry_line, List.mem_append, List.mem_cons] at hc
    rcases hc with hc | hc | hc | hc | hc
    · have := hu.2 c hc
      refine ⟨?_, this.2⟩
      intro h
      rw [h] at this
      exact absurd this.1 (by decide)
    · rw [hc]; decide
    · revert hc
      cases op <;> simp [bolt_journal_op_to_string] <;> intro h <;> rw [h] <;> decide
    · rw [hc]; decide
    · obtain ⟨d, hd, rfl⟩ := hex_digits_mem 16 _ c hc
      have := hex_digit_spec d hd
      exact ⟨this.2.2.2.2.2.2.1, this.2.2.2.2.2.2.2⟩

/-! ### The steps of `bolt_journal_put_diff` -/

theorem bolt_open_lock (fs fs0 : Fs) (journal : BoltJournal) (f : OpenFile)
    (fault : Option GError) (fd : Nat) (ha : journal_attached fs journal f)
    (h : bolt_open fs (journal.path ++ ".lock") true false fault = (fs0, .ok fd)) :
    ∃ L, lock_open fs journal f fd L fs0 ∧ lock_holds fs0 fd L [] := by
  obtain ⟨hfd, hname, hino, hlt, hlock⟩ := ha
  have hne : journal.fd ≠ fs.next_fd := Nat.ne_of_lt hlt
  have hp : journal.path ≠ journal.path ++ ".lock" := fun e => lock_path_ne _ e.symm
  unfold bolt_open at h
  cases fault with
  | some e => simp at h
  | none =>
    cases hn : fs.names (journal.path ++ ".lock") with
    | some ino =>
      simp only [hn, Prod.mk.injEq, Except.ok.injEq, if_true] at h
      obtain ⟨rfl, rfl⟩ := h
      have hi : ino ≠ f.ino := fun e => hlock (by rw [hn, e])
      refine ⟨ino, ⟨hne.symm, hi, ⟨0, false, by simp⟩, ⟨f.pos, ?_⟩, ?_, hname, hn⟩, by simp, by simp⟩
      · simp [upd_other _ _ _ _ hne, hfd]
      · simp [upd_other _ _ _ _ hi.symm]
    | none =>
      simp only [hn, Prod.mk.injEq, Except.ok.injEq] at h
      obtain ⟨rfl, rfl⟩ := h
      have hi : fs.next_ino ≠ f.ino := (Nat.ne_of_lt hino).symm
      refine ⟨fs.next_ino, ⟨hne.symm, hi, ⟨0, false, by simp⟩, ⟨f.pos, ?_⟩, ?_, ?_, by simp⟩,
        by simp, by simp⟩
      · simp [upd_other _ _ _ _ hne, hfd]
      · simp [upd_other _ _ _ _ hi.symm]
      · simp [upd_other _ _ _ _ hp, hname]

theorem bolt_open_error (fs fs0 : Fs) (path : String) (t a : Bool) (fault : Option GError)
    (e : GError) (h : bolt_open fs path t a fault = (fs0, .error e)) : fs0 = fs := by
  unfold bolt_open at h
  cases fault with
  | some e1 =>
    simp only [Prod.mk.injEq] at h
    exact h.1.symm
  | none =>
    cases hn : fs.names path <;> simp [hn] at h

theorem lock_open_close (fs fsx : Fs) (journal : BoltJournal) (f : OpenFile) (fd L : Nat)
    (h : lock_open fs journal f fd L fsx) :
    (∃ p, (bolt_close fsx fd).fds journal.fd = some ⟨f.ino, p, f.append⟩) ∧
    (bolt_close fsx fd).data f.ino = fs.data f.ino ∧
    (bolt_close fsx fd).names journal.path = some f.ino := by
  obtain ⟨hne, _, _, ⟨p, hp⟩, hd, hn, _⟩ := h
  exact ⟨⟨p, by simp [bolt_close, upd_other _ _ _ _ hne.symm, hp]⟩, hd, hn⟩

theorem bolt_fstat_journal (fs fsx : Fs) (journal : BoltJournal) (f : OpenFile) (fd L : Nat)
    (fault : Option GError) (n : Nat) (h : lock_open fs journal f fd L fsx)
    (hs : bolt_fstat fsx journal.fd fault = .ok n) : n = (fs.data f.ino).length := by
  obtain ⟨_, _, _, ⟨p, hp⟩, hd, _, _⟩ := h
  unfold bolt_fstat at hs
  cases fault with
  | some e => simp at hs
  | none =>
    simp only [hp, Except.ok.injEq] at hs
    rw [← hs, hd]

/-- Writing through the lock descriptor leaves the journal side alone. -/
theorem bolt_write_all_lock (fs fsx fsy : Fs) (journal : BoltJournal) (f : OpenFile)
    (fd L : Nat) (buf : List Char) (fault : Option (Nat × GError)) (r : Except GError Unit)
    (h : lock_open fs journal f fd L fsx)
    (hw : bolt_write_all fsx fd buf fault = (fsy, r)) :
    lock_open fs journal f fd L fsy := by
  obtain ⟨hne, hi, ⟨p, a, hfd⟩, ⟨q, hq⟩, hd, hn, hl⟩ := h
  simp only [bolt_write_all, hfd, Prod.mk.injEq] at hw
  obtain ⟨rfl, _⟩ := hw
  refine ⟨hne, hi, ⟨_, a, upd_same _ _ _⟩, ⟨q, ?_⟩, ?_, hn, hl⟩
  · simp [upd_other _ _ _ _ hne.symm, hq]
  · simp [upd_other _ _ _ _ hi.symm, hd]

/-- A write through the lock descriptor that succeeds appends the buffer. -/
theorem bolt_write_all_holds (fsx fsy : Fs) (fd L : Nat) (c buf : List Char)
    (fault : Option (Nat × GError))
    (hh : lock_holds fsx fd L c)
    (hw : bolt_write_all fsx fd buf fault = (fsy, .ok ())) :
    lock_holds fsy fd L (c ++ buf) := by
  obtain ⟨hfd, hc⟩ := hh
  cases fault with
  | some e => simp [bolt_write_all, hfd] at hw
  | none =>
    simp only [bolt_write_all, hfd, Prod.mk.injEq, and_true] at hw
    subst hw
    simp [lock_holds, file_write, hc]

theorem lock_open_setpos (fs fsx : Fs) (journal : BoltJournal) (f : OpenFile) (fd L p : Nat)
    (h : lock_open fs journal f fd L fsx) :
    lock_open fs journal f fd L
      { fsx with fds := upd fsx.fds journal.fd (some ⟨f.ino, p, f.append⟩) } := by
  obtain ⟨hne, hi, ⟨q, a, hfd⟩, _, hd, hn, hl⟩ := h
  exact ⟨hne, hi, ⟨q, a, by simp [upd_other _ _ _ _ hne, hfd]⟩, ⟨p, upd_same _ _ _⟩, hd, hn, hl⟩

theorem lock_holds_setpos (fsx : Fs) (journal : BoltJournal) (fd L : Nat) (c : List Char)
    (v : Option OpenFile) (hne : fd ≠ journal.fd) (h : lock_holds fsx fd L c) :
    lock_holds { fsx with fds := upd fsx.fds journal.fd v } fd L c := by
  obtain ⟨hfd, hc⟩ := h
  exact ⟨by simp [upd_other _ _ _ _ hne, hfd], hc⟩

/-- The copy step leaves the journal side alone, however it ends. -/
theorem put_diff_copy_lock (env : PutDiffEnv) (fs fsx fsy : Fs) (journal : BoltJournal)
    (f : OpenFile) (fd L n : Nat) (r : Except GError Unit)
    (h : lock_open fs journal f fd L fsx)
    (hc : put_diff_copy env fsx journal fd n = (fsy, r)) :
    lock_open fs journal f fd L fsy := by
  have hq := h.2.2.2.1
  obtain ⟨q, hq⟩ := hq
  unfold put_diff_copy bolt_lseek at hc
  cases hl : env.lseek_fault with
  | some e =>
    simp only [hl, Prod.mk.injEq] at hc
    rw [← hc.1]
    exact h
  | none =>
    simp only [hl, hq, bolt_copy_bytes, bolt_read_all, upd_same] at hc
    have h1 := lock_open_setpos fs _ journal f fd L
      (0 + (List.take (match env.copy_fault with
        | some (k, _) => min k n
        | none => n) (List.drop 0 (fsx.data f.ino))).length)
      (lock_open_setpos fs fsx journal f fd L 0 h)
    split at hc
    · rename_i fs2 e hw
      simp only [Prod.mk.injEq] at hc
      rw [← hc.1]
      exact bolt_write_all_lock fs _ fs2 journal f fd L _ none _ h1 hw
    · rename_i fs2 u hw
      simp only [Prod.mk.injEq] at hc
      rw [← hc.1]
      exact bolt_write_all_lock fs _ fs2 journal f fd L _ none _ h1 hw

/-- A copy step that succeeds fills the empty lock file with the contents of
the journal. -/
theorem put_diff_copy_holds (env : PutDiffEnv) (fs fsx fsy : Fs) (journal : BoltJournal)
    (f : OpenFile) (fd L n : Nat)
    (h : lock_open fs journal f fd L fsx) (hh : lock_holds fsx fd L [])
    (hn : n = (fs.data f.ino).length)
    (hc : put_diff_copy env fsx journal fd n = (fsy, .ok ())) :
    lock_holds fsy fd L (fs.data f.ino) := by
  have hne := h.1
  have hd := h.2.2.2.2.1
  obtain ⟨q, hq⟩ := h.2.2.2.1
  unfold put_diff_copy bolt_lseek at hc
  cases hl : env.lseek_fault with
  | some e => simp [hl] at hc
  | none =>
    simp only [hl, hq, bolt_copy_bytes, bolt_read_all, upd_same] at hc
    cases hcf : env.copy_fault with
    | some e =>
      simp only [hcf] at hc
      split at hc <;> simp at hc
    | none =>
      simp only [hcf, hn, hd, List.drop_zero, List.take_length] at hc
      split at hc
      · simp at hc
      · rename_i fs2 u hw
        simp only [Prod.mk.injEq, and_true] at hc
        rw [← hc]
        have := bolt_write_all_holds _ fs2 fd L [] (fs.data f.ino) none
          (lock_holds_setpos _ journal fd L [] _ hne
            (lock_holds_setpos _ journal fd L [] _ hne hh)) hw
        simpa using this

theorem write_entry_lock (fs fsx fsy : Fs) (journal : BoltJournal) (f : OpenFile)
    (fd L : Nat) (id : String) (op : BoltJournalOp) (now : Nat)
    (fault : Option (Nat × GError)) (r : Except GError Unit)
    (h : lock_open fs journal f fd L fsx)
    (hw : bolt_journal_write_entry fsx fd id op now fault = (fsy, r)) :
    lock_open fs journal f fd L fsy := by
  simp only [bolt_journal_write_entry] at hw
  split at hw
  · rename_i fs1 err he
    simp only [Prod.mk.injEq] at hw
    rw [← hw.1]
    exact bolt_write_all_lock fs fsx fs1 journal f fd L _ fault _ h he
  · rename_i fs1 u he
    simp only [Prod.mk.injEq] at hw
    rw [← hw.1]
    exact bolt_write_all_lock fs fsx fs1 journal f fd L _ fault _ h he

theorem write_entry_holds (fsx fsy : Fs) (fd L : Nat) (c : List Char) (id : String)
    (op : BoltJournalOp) (now : Nat) (fault : Option (Nat × GError))
    (hh : lock_holds fsx fd L c)
    (hw : bolt_journal_write_entry fsx fd id op now fault = (fsy, .ok ())) :
    lock_holds fsy fd L (c ++ journal_entry_data id op now) := by
  simp only [bolt_journal_write_entry] at hw
  split at hw
  · simp at hw
  · rename_i fs1 u he
    simp only [Prod.mk.injEq, and_true] at hw
    rw [← hw]
    exact bolt_write_all_holds fsx fs1 fd L c _ fault hh he

/-- The loop over the diff leaves the journal side alone, however it ends. -/
theorem put_diff_loop_lock (env : PutDiffEnv) (fs : Fs) (journal : BoltJournal)
    (f : OpenFile) (fd L : Nat) (diff : List (String × Int)) :
    ∀ (i : Nat) (fsx fsy : Fs) (r : Except GError Unit),
      lock_open fs journal f fd L fsx → put_diff_loop env fd diff i fsx = (fsy, r) →
      lock_open fs journal f fd L fsy := by
  induction diff with
  | nil =>
    intro i fsx fsy r h hl
    simp only [put_diff_loop, Prod.mk.injEq] at hl
    rw [← hl.1]
    exact h
  | cons e rest ih =>
    intro i fsx fsy r h hl
    obtain ⟨uid, opcode⟩ := e
    simp only [put_diff_loop] at hl
    split at hl
    · split at hl
      · rename_i fs1 u hw
        exact ih (i + 1) fs1 fsy r (write_entry_lock fs fsx fs1 journal f fd L _ _ _ _ _ h hw) hl
      · rename_i fs1 e1 hw
        simp only [Prod.mk.injEq] at hl
        rw [← hl.1]
        exact write_entry_lock fs fsx fs1 journal f fd L _ _ _ _ _ h hw
    · simp only [Prod.mk.injEq] at hl
      rw [← hl.1]
      exact h

/-- A diff with an op-code other than '+' and '-' makes the loop end in an
error. -/
theorem put_diff_loop_bad (env : PutDiffEnv) (fd : Nat) (diff : List (String × Int))
    (hbad : ∃ e ∈ diff, e.2 ≠ ('+'.toNat : Int) ∧ e.2 ≠ ('-'.toNat : Int)) :
    ∀ (i : Nat) (fsx : Fs), ∃ err, (put_diff_loop env fd diff i fsx).2 = .error err := by
  induction diff with
  | nil => simp at hbad
  | cons e rest ih =>
    intro i fsx
    obtain ⟨uid, opcode⟩ := e
    simp only [put_diff_loop]
    split
    · rename_i hop
      split
      · rename_i fs1 u hw
        apply ih
        obtain ⟨x, hx, hx1, hx2⟩ := hbad
        simp only [List.mem_cons] at hx
        rcases hx with hx | hx
        · subst hx
          rcases hop with hop | hop
          · exact absurd hop hx1
          · exact absurd hop hx2
        · exact ⟨x, hx, hx1, hx2⟩
      · rename_i fs1 e1 hw
        exact ⟨e1, rfl⟩
    · exact ⟨_, rfl⟩

/-- A loop over the diff that succeeds appends the text of its records. -/
theorem put_diff_loop_holds (env : PutDiffEnv) (fd L : Nat) (diff : List (String × Int)) :
    ∀ (i : Nat) (fsx fsy : Fs) (c : List Char),
      lock_holds fsx fd L c → put_diff_loop env fd diff i fsx = (fsy, .ok ()) →
      lock_holds fsy fd L (c ++ diff_data env diff i) := by
  induction diff with
  | nil =>
    intro i fsx fsy c h hl
    simp only [put_diff_loop, Prod.mk.injEq, and_true] at hl
    rw [← hl]
    simpa [diff_data] using h
  | cons e rest ih =>
    intro i fsx fsy c h hl
    obtain ⟨uid, opcode⟩ := e
    simp only [put_diff_loop] at hl
    split at hl
    · split at hl
      · rename_i fs1 u hw
        have h1 := write_entry_holds fsx fs1 fd L c _ _ _ _ h hw
        have h2 := ih (i + 1) fs1 fsy _ h1 hl
        simpa [diff_data, diff_op, List.append_assoc] using h2
      · simp at hl
    · simp at hl

/-- The three ways `bolt_journal_put_diff` can end for an attached journal: the
lock file could not be opened and nothing changed; or a later step failed, the
lock descriptor was closed and the journal side is as before; or every step
succeeded, the journal object holds the lock descriptor, now appending, the
journal path names the lock file, and that file holds the old contents followed
by the text of the diff records. -/
theorem put_diff_outcome (fs : Fs) (journal : BoltJournal) (f : OpenFile)
    (diff : List (String × Int)) (env : PutDiffEnv) (ha : journal_attached fs journal f) :
    (∃ e, bolt_journal_put_diff fs journal diff env = (fs, journal, .error e)) ∨
    (∃ fsx fd L e, lock_open fs journal f fd L fsx ∧
      bolt_journal_put_diff fs journal diff env = (bolt_close fsx fd, journal, .error e)) ∨
    (∃ fd L p fs1 fs2, put_diff_loop env fd diff 0 fs1 = (fs2, .ok ()) ∧
      (bolt_journal_put_diff fs journal diff env).2 = ({ journal with fd := fd }, .ok ()) ∧
      (bolt_journal_put_diff fs journal diff env).1.fds fd = some ⟨L, p, true⟩ ∧
      (bolt_journal_put_diff fs journal diff env).1.names journal.path = some L ∧
      (bolt_journal_put_diff fs journal diff env).1.data L
        = fs.data f.ino ++ diff_data env diff 0) := by
  simp only [bolt_journal_put_diff]
  rcases ho : bolt_open fs (journal.path ++ ".lock") true false env.open_fault
    with ⟨fs0, e | fd⟩
  · left
    rw [bolt_open_error fs fs0 _ _ _ _ e ho]
    exact ⟨e, rfl⟩
  · right
    obtain ⟨L, hlo, hlh⟩ := bolt_open_lock fs fs0 journal f _ fd ha ho
    simp only []
    cases hs : bolt_fstat fs0 journal.fd env.fstat_fault with
    | error err => exact Or.inl ⟨fs0, fd, L, _, hlo, rfl⟩
    | ok n =>
      have hn := bolt_fstat_journal fs fs0 journal f fd L _ n hlo hs
      simp only []
      rcases hc : put_diff_copy env fs0 journal fd n with ⟨fs1, e | u⟩
      · exact Or.inl ⟨fs1, fd, L, e, put_diff_copy_lock env fs fs0 fs1 journal f fd L n _ hlo hc, rfl⟩
      · have hlo1 := put_diff_copy_lock env fs fs0 fs1 journal f fd L n _ hlo hc
        have hlh1 := put_diff_copy_holds env fs fs0 fs1 journal f fd L n hlo hlh hn hc
        simp only []
        rcases hl : put_diff_loop env fd diff 0 fs1 with ⟨fs2, e | u⟩
        · exact Or.inl ⟨fs2, fd, L, e, put_diff_loop_lock env fs journal f fd L diff 0 fs1 fs2 _ hlo1 hl, rfl⟩
        · have hlo2 := put_diff_loop_lock env fs journal f fd L diff 0 fs1 fs2 _ hlo1 hl
          have hlh2 := put_diff_loop_holds env fd L diff 0 fs1 fs2 _ hlh1 hl
          obtain ⟨hne, hi, _, ⟨q, hq⟩, hd, hnm, hlk⟩ := hlo2
          obtain ⟨hfd2, hc2⟩ := hlh2
          simp only []
          cases hsy : bolt_fdatasync fs2 fd env.fdatasync_fault with
          | error e => exact Or.inl ⟨fs2, fd, L, e, ⟨hne, hi, ⟨_, _, hfd2⟩, ⟨q, hq⟩, hd, hnm, hlk⟩, rfl⟩
          | ok u1 =>
            simp only []
            cases hff : env.faddflags_fault with
            | some e =>
              simp only [bolt_faddflags, hff]
              exact Or.inl ⟨fs2, fd, L, e, ⟨hne, hi, ⟨_, _, hfd2⟩, ⟨q, hq⟩, hd, hnm, hlk⟩, rfl⟩
            | none =>
              simp only [bolt_faddflags, hff, hfd2]
              cases hrf : env.rename_fault with
              | some e =>
                simp only [bolt_rename, hrf]
                refine Or.inl ⟨{ fs2 with fds := (upd fs2.fds fd
                    (some ⟨L, (fs.data f.ino ++ diff_data env diff 0).length, true⟩)) },
                  fd, L, e, ⟨hne, hi, ⟨_, _, upd_same _ _ _⟩, ⟨q, ?_⟩, hd, hnm, hlk⟩, rfl⟩
                simp [upd_other _ _ _ _ hne.symm, hq]
              | none =>
                simp only [bolt_rename, hrf, hlk, lock_path_ne, if_false]
                refine Or.inr ⟨fd, L, (fs.data f.ino ++ diff_data env diff 0).length,
                  fs1, fs2, hl, rfl, ?_, ?_, hc2⟩
                · simp only [bolt_close]
                  rw [upd_other _ _ _ _ hne, upd_same]
                · simp only [bolt_close]
                  rw [upd_other _ _ _ _ (lock_path_ne journal.path).symm, upd_same]

/-- The items of good lines followed by the text of a diff with well-formed uids
are the items of the lines followed by the items of the diff. -/
theorem journal_parse_diff (env : PutDiffEnv) (diff : List (String × Int))
    (hu : ∀ e ∈ diff, uid_token e.1) :
    ∀ (i : Nat) (ls : List (List Char)), (∀ l ∈ ls, good_line l) →
      journal_parse (unlines ls ++ diff_data env diff i)
        = ls.filterMap journal_parse_line ++ diff_items env diff i := by
  induction diff with
  | nil =>
    intro i ls hls
    simp [diff_data, diff_items, journal_parse_unlines ls hls]
  | cons e rest ih =>
    intro i ls hls
    obtain ⟨uid, opcode⟩ := e
    have hut : uid_token uid := hu (uid, opcode) (by simp)
    have hgood : ∀ l ∈ ls ++ [journal_entry_line uid (diff_op opcode) (env.now i)],
        good_line l := by
      intro l hl
      simp only [List.mem_append, List.mem_singleton] at hl
      rcases hl with hl | hl
      · exact hls l hl
      · rw [hl]
        exact journal_entry_line_good uid _ _ hut
    have heq : unlines ls ++ diff_data env ((uid, opcode) :: rest) i
        = unlines (ls ++ [journal_entry_line uid (diff_op opcode) (env.now i)])
            ++ diff_data env rest (i + 1) := by
      simp [diff_data, journal_entry_data, unlines_append, unlines, List.append_assoc]
    rw [heq, ih (fun x hx => hu x (by simp [hx])) (i + 1) _ hgood]
    simp [diff_items, List.filterMap_append, journal_parse_line_entry uid _ _ hut]

/-- C9 (amended): after a successful `bolt_journal_put_diff` on an attached
journal every op-code of the diff was '+' or '-', the journal object holds a
descriptor on the file that the journal path now names, and that file holds the
prior contents followed by one record line per diff entry.  When moreover the
prior contents are good lines, each ended by a newline, and every uid of the
diff is a well-formed token, `bolt_journal_list` returns the prior items
followed by the items of the diff. -/
theorem bolt_journal_put_diff_appends (fs : Fs) (journal : BoltJournal) (f : OpenFile)
    (diff : List (String × Int)) (env : PutDiffEnv)
    (ha : journal_attached fs journal f)
    (hok : (bolt_journal_put_diff fs journal diff env).2.2 = .ok ()) :
    (∀ e ∈ diff, e.2 = ('+'.toNat : Int) ∨ e.2 = ('-'.toNat : Int)) ∧
    (∃ f1, (bolt_journal_put_diff fs journal diff env).1.fds
          (bolt_journal_put_diff fs journal diff env).2.1.fd = some f1 ∧
        (bolt_journal_put_diff fs journal diff env).1.names journal.path = some f1.ino ∧
        (bolt_journal_put_diff fs journal diff env).1.data f1.ino
          = fs.data f.ino ++ diff_data env diff 0) ∧
    (∀ ls, fs.data f.ino = unlines ls → (∀ l ∈ ls, good_line l) →
      (∀ e ∈ diff, uid_token e.1) →
      ∃ items, (bolt_journal_list fs journal ListEnv.ok).2 = .ok items ∧
        (bolt_journal_list (bolt_journal_put_diff fs journal diff env).1
          (bolt_journal_put_diff fs journal diff env).2.1 ListEnv.ok).2
          = .ok (items ++ diff_items env diff 0)) := by
  rcases put_diff_outcome fs journal f diff env ha with ⟨e, h⟩ | ⟨fsx, fd, L, e, _, h⟩ |
    ⟨fd, L, p, fs1, fs2, hloop, hj, hfd, hnm, hdata⟩
  · rw [h] at hok
    cases hok
  · rw [h] at hok
    cases hok
  · have hj1 : (bolt_journal_put_diff fs journal diff env).2.1 = { journal with fd := fd } := by
      rw [hj]
    refine ⟨?_, ⟨⟨L, p, true⟩, ?_, hnm, hdata⟩, ?_⟩
    · intro e he
      by_contra hcon
      have hbad : ∃ x ∈ diff, x.2 ≠ ('+'.toNat : Int) ∧ x.2 ≠ ('-'.toNat : Int) :=
        ⟨e, he, fun h1 => hcon (Or.inl h1), fun h2 => hcon (Or.inr h2)⟩
      obtain ⟨err, herr⟩ := put_diff_loop_bad env fd diff hbad 0 fs1
      rw [hloop] at herr
      cases herr
    · rw [hj1]
      exact hfd
    · intro ls hprior hls hu
      refine ⟨journal_parse (fs.data f.ino), bolt_journal_list_ok fs journal f ha.1, ?_⟩
      have hfd1 : (bolt_journal_put_diff fs journal diff env).1.fds
          (bolt_journal_put_diff fs journal diff env).2.1.fd = some ⟨L, p, true⟩ := by
        rw [hj1]
        exact hfd
      rw [bolt_journal_list_ok _ _ _ hfd1, hdata, hprior,
        journal_parse_diff env diff hu 0 ls hls, journal_parse_unlines ls hls]

/-- C10: for an attached journal and a diff holding an op-code other than '+'
and '-', `bolt_journal_put_diff` returns an error whatever else happens, and
leaves the journal object, the file named by the journal path, the file behind
the journal's descriptor and its contents as they were; `bolt_journal_list`
returns what it returned before. -/
theorem bolt_journal_put_diff_bad_opcode (fs : Fs) (journal : BoltJournal) (f : OpenFile)
    (diff : List (String × Int)) (env : PutDiffEnv)
    (ha : journal_attached fs journal f)
    (hbad : ∃ e ∈ diff, e.2 ≠ ('+'.toNat : Int) ∧ e.2 ≠ ('-'.toNat : Int)) :
    (∃ err, (bolt_journal_put_diff fs journal diff env).2.2 = .error err) ∧
    (bolt_journal_put_diff fs journal diff env).2.1 = journal ∧
    (bolt_journal_put_diff fs journal diff env).1.names journal.path
      = fs.names journal.path ∧
    (∃ p, (bolt_journal_put_diff fs journal diff env).1.fds journal.fd
      = some ⟨f.ino, p, f.append⟩) ∧
    (bolt_journal_put_diff fs journal diff env).1.data f.ino = fs.data f.ino ∧
    (bolt_journal_list (bolt_journal_put_diff fs journal diff env).1
      (bolt_journal_put_diff fs journal diff env).2.1 ListEnv.ok).2
      = (bolt_journal_list fs journal ListEnv.ok).2 := by
  rcases put_diff_outcome fs journal f diff env ha with ⟨e, h⟩ | ⟨fsx, fd, L, e, hlo, h⟩ |
    ⟨fd, L, p, fs1, fs2, hloop, _⟩
  · rw [h]
    exact ⟨⟨e, rfl⟩, rfl, rfl, ⟨f.pos, ha.1⟩, rfl, rfl⟩
  · rw [h]
    obtain ⟨⟨p, hp⟩, hd, hn⟩ := lock_open_close fs fsx journal f fd L hlo
    refine ⟨⟨e, rfl⟩, rfl, ?_, ⟨p, hp⟩, hd, ?_⟩
    · rw [ha.2.1]
      exact hn
    · rw [bolt_journal_list_ok _ journal _ hp, bolt_journal_list_ok fs journal f ha.1]
      simp only []
      rw [hd]
  · obtain ⟨err, herr⟩ := put_diff_loop_bad env fd diff hbad 0 fs1
    rw [hloop] at herr
    cases herr

set_option maxRecDepth 100000 in
/-- Witness for C9: a journal holding A+ and B+ and the diff with A: '-' and
C: '+' lists as A+, B+, A-, C+. -/
theorem bolt_journal_put_diff_appends_witness :
    (bolt_journal_list
      (bolt_journal_put_diff
        (journal_fs "/j" "A + 0000000000000001\nB + 0000000000000002\n".toList)
        (journal_at "/j") [("A", 45), ("C", 43)] (PutDiffEnv.ok 3)).1
      (bolt_journal_put_diff
        (journal_fs "/j" "A + 0000000000000001\nB + 0000000000000002\n".toList)
        (journal_at "/j") [("A", 45), ("C", 43)] (PutDiffEnv.ok 3)).2.1 ListEnv.ok).2
      = .ok [⟨"A", BOLT_JOURNAL_ADDED, 1⟩, ⟨"B", BOLT_JOURNAL_ADDED, 2⟩,
             ⟨"A", BOLT_JOURNAL_REMOVED, 3⟩, ⟨"C", BOLT_JOURNAL_ADDED, 4⟩] := by
  obtain ⟨items, h1, h2⟩ := (bolt_journal_put_diff_appends
    (journal_fs "/j" "A + 0000000000000001\nB + 0000000000000002\n".toList)
    (journal_at "/j") ⟨0, 0, true⟩ [("A", 45), ("C", 43)] (PutDiffEnv.ok 3)
    (by decide) rfl).2.2
    ["A + 0000000000000001".toList, "B + 0000000000000002".toList] rfl
    (by decide) (by decide)
  have h3 : (bolt_journal_list
      (journal_fs "/j" "A + 0000000000000001\nB + 0000000000000002\n".toList)
      (journal_at "/j") ListEnv.ok).2
      = .ok [⟨"A", BOLT_JOURNAL_ADDED, 1⟩, ⟨"B", BOLT_JOURNAL_ADDED, 2⟩] := rfl
  rw [h3] at h1
  cases h1
  exact h2

set_option maxRecDepth 100000 in
/-- Counterexample to C9 as stated: a diff whose only uid is the empty string
is put successfully into an empty journal, and one with uid A into a journal
that holds a single empty line; in both cases `bolt_journal_list` returns no
item afterwards, which is not the prior items followed by the record of the
diff. -/
theorem bolt_journal_put_diff_list_counterexample :
    ((bolt_journal_put_diff (journal_fs "/j" []) (journal_at "/j") [("", 43)]
        (PutDiffEnv.ok 3)).2.2 = .ok () ∧
      (bolt_journal_list (journal_fs "/j" []) (journal_at "/j") ListEnv.ok).2 = .ok [] ∧
      diff_items (PutDiffEnv.ok 3) [("", 43)] 0 = [⟨"", BOLT_JOURNAL_ADDED, 3⟩] ∧
      (bolt_journal_list
        (bolt_journal_put_diff (journal_fs "/j" []) (journal_at "/j") [("", 43)]
          (PutDiffEnv.ok 3)).1
        (bolt_journal_put_diff (journal_fs "/j" []) (journal_at "/j") [("", 43)]
          (PutDiffEnv.ok 3)).2.1 ListEnv.ok).2 = .ok [] ∧
      (bolt_journal_list
        (bolt_journal_put_diff (journal_fs "/j" []) (journal_at "/j") [("", 43)]
          (PutDiffEnv.ok 3)).1
        (bolt_journal_put_diff (journal_fs "/j" []) (journal_at "/j") [("", 43)]
          (PutDiffEnv.ok 3)).2.1 ListEnv.ok).2
        ≠ .ok ([] ++ diff_items (PutDiffEnv.ok 3) [("", 43)] 0)) ∧
    ((bolt_journal_put_diff (journal_fs "/j" ['\n']) (journal_at "/j") [("A", 43)]
        (PutDiffEnv.ok 3)).2.2 = .ok () ∧
      (bolt_journal_list (journal_fs "/j" ['\n']) (journal_at "/j") ListEnv.ok).2 = .ok [] ∧
      diff_items (PutDiffEnv.ok 3) [("A", 43)] 0 = [⟨"A", BOLT_JOURNAL_ADDED, 3⟩] ∧
      (bolt_journal_list
        (bolt_journal_put_diff (journal_fs "/j" ['\n']) (journal_at "/j") [("A", 43)]
          (PutDiffEnv.ok 3)).1
        (bolt_journal_put_diff (journal_fs "/j" ['\n']) (journal_at "/j") [("A", 43)]
          (PutDiffEnv.ok 3)).2.1 ListEnv.ok).2 = .ok [] ∧
      (bolt_journal_list
        (bolt_journal_put_diff (journal_fs "/j" ['\n']) (journal_at "/j") [("A", 43)]
          (PutDiffEnv.ok 3)).1
        (bolt_journal_put_diff (journal_fs "/j" ['\n']) (journal_at "/j") [("A", 43)]
          (PutDiffEnv.ok 3)).2.1 ListEnv.ok).2
        ≠ .ok ([] ++ diff_items (PutDiffEnv.ok 3) [("A", 43)] 0)) := by
  refine ⟨⟨rfl, rfl, rfl, rfl, ?_⟩, ⟨rfl, rfl, rfl, rfl, ?_⟩⟩
  · intro h
    have h1 : (bolt_journal_list
        (bolt_journal_put_diff (journal_fs "/j" []) (journal_at "/j") [("", 43)]
          (PutDiffEnv.ok 3)).1
        (bolt_journal_put_diff (journal_fs "/j" []) (journal_at "/j") [("", 43)]
          (PutDiffEnv.ok 3)).2.1 ListEnv.ok).2 = .ok [] := rfl
    rw [h1] at h
    simp [diff_items] at h
  · intro h
    have h1 : (bolt_journal_list
        (bolt_journal_put_diff (journal_fs "/j" ['\n']) (journal_at "/j") [("A", 43)]
          (PutDiffEnv.ok 3)).1
        (bolt_journal_put_diff (journal_fs "/j" ['\n']) (journal_at "/j") [("A", 43)]
          (PutDiffEnv.ok 3)).2.1 ListEnv.ok).2 = .ok [] := rfl
    rw [h1] at h
    simp [diff_items] at h

set_option maxRecDepth 100000 in
/-- Witness for C10: a journal holding A+ and B+ and the diff with A: '-' and
C: '*' (op-code 42); the call fails and the journal still lists A+, B+. -/
theorem bolt_journal_put_diff_bad_opcode_witness :
    (∃ err, (bolt_journal_put_diff
        (journal_fs "/j" "A + 0000000000000001\nB + 0000000000000002\n".toList)
        (journal_at "/j") [("A", 45), ("C", 42)] (PutDiffEnv.ok 3)).2.2 = .error err) ∧
    (bolt_journal_list
      (bolt_journal_put_diff
        (journal_fs "/j" "A + 0000000000000001\nB + 0000000000000002\n".toList)
        (journal_at "/j") [("A", 45), ("C", 42)] (PutDiffEnv.ok 3)).1
      (bolt_journal_put_diff
        (journal_fs "/j" "A + 0000000000000001\nB + 0000000000000002\n".toList)
        (journal_at "/j") [("A", 45), ("C", 42)] (PutDiffEnv.ok 3)).2.1 ListEnv.ok).2
      = .ok [⟨"A", BOLT_JOURNAL_ADDED, 1⟩, ⟨"B", BOLT_JOURNAL_ADDED, 2⟩] := by
  have h := bolt_journal_put_diff_bad_opcode
    (journal_fs "/j" "A + 0000000000000001\nB + 0000000000000002\n".toList)
    (journal_at "/j") ⟨0, 0, true⟩ [("A", 45), ("C", 42)] (PutDiffEnv.ok 3)
    (by decide) ⟨("C", 42), by simp, by decide, by decide⟩
  refine ⟨h.1, ?_⟩
  rw [h.2.2.2.2.2]
  rfl

/-! ### Appending one entry -/

/-- What a successful `bolt_write_all` through an appending descriptor does to
the file behind it. -/
theorem bolt_write_all_append (fs : Fs) (fd : Nat) (f : OpenFile) (buf : List Char)
    (fault : Option (Nat × GError)) (hfd : fs.fds fd = some f) (happ : f.append = true)
    (hok : (bolt_write_all fs fd buf fault).2 = .ok ()) :
    (bolt_write_all fs fd buf fault).1.data f.ino = fs.data f.ino ++ buf ∧
    (∃ p, (bolt_write_all fs fd buf fault).1.fds fd = some ⟨f.ino, p, true⟩) := by
  cases fault with
  | some e => simp [bolt_write_all, hfd] at hok
  | none =>
    simp only [bolt_write_all, hfd, file_write, happ, if_true, upd_same]
    refine ⟨by simp, ⟨_, rfl⟩⟩

/-- What a successful `bolt_journal_write_entry` through an appending descriptor
does to the file behind it. -/
theorem write_entry_append (fs : Fs) (fd : Nat) (f : OpenFile) (id : String)
    (op : BoltJournalOp) (now : Nat) (fault : Option (Nat × GError))
    (hfd : fs.fds fd = some f) (happ : f.append = true)
    (hok : (bolt_journal_write_entry fs fd id op now fault).2 = .ok ()) :
    (bolt_journal_write_entry fs fd id op now fault).1.data f.ino
      = fs.data f.ino ++ journal_entry_data id op now ∧
    (∃ p, (bolt_journal_write_entry fs fd id op now fault).1.fds fd
      = some ⟨f.ino, p, true⟩) := by
  simp only [bolt_journal_write_entry] at hok ⊢
  rcases hw : bolt_write_all fs fd (journal_entry_data id op now) fault with ⟨fs1, e | u⟩
  · rw [hw] at hok
    simp at hok
  · have h := bolt_write_all_append fs fd f (journal_entry_data id op now) fault hfd happ
      (by rw [hw])
    rw [hw] at h
    exact h

theorem hex_digit_upper (d : Nat) (h : d < 16) :
    hex_digit d ∈ "0123456789ABCDEF".toList := by
  interval_cases d <;> decide

/-- C14: the data that a successful `bolt_journal_write_entry` appends for a
64-bit time stamp is the uid, one space, the op character, one space, sixteen
hexadecimal digits whose value is the time stamp, and a newline. -/
theorem bolt_journal_write_entry_record (fs : Fs) (fd : Nat) (f : OpenFile) (id : String)
    (op : BoltJournalOp) (now : Nat) (fault : Option (Nat × GError))
    (hfd : fs.fds fd = some f) (happ : f.append = true) (hnow : now < 2 ^ 64)
    (hok : (bolt_journal_write_entry fs fd id op now fault).2 = .ok ()) :
    ∃ H : List Char,
      (bolt_journal_write_entry fs fd id op now fault).1.data f.ino
        = fs.data f.ino ++ (id.toList ++ [' ', journal_op_char op, ' '] ++ H ++ ['\n']) ∧
      H.length = 16 ∧
      (∀ c ∈ H, c ∈ "0123456789ABCDEF".toList) ∧
      H.foldl (fun a c => a * 16 + (hex_value c).getD 0) 0 = now := by
  refine ⟨format_016X now, ?_, hex_digits_length 16 _, ?_, ?_⟩
  · rw [(write_entry_append fs fd f id op now fault hfd happ hok).1]
    cases op <;>
      simp [journal_entry_data, journal_entry_line, bolt_journal_op_to_string, journal_op_char]
  · intro c hc
    obtain ⟨d, hd, rfl⟩ := hex_digits_mem 16 _ c hc
    exact hex_digit_upper d hd
  · have h16 : (16 : Nat) ^ 16 = 2 ^ 64 := by norm_num
    rw [format_016X, hex_digits_value, h16, Nat.mod_mod, Nat.mod_eq_of_lt hnow]
    simp

set_option maxRecDepth 100000 in
/-- Witness for C14: the entry for uid A, added, at time 0x1F is the line
`A + 000000000000001F`. -/
theorem bolt_journal_write_entry_record_witness :
    ∃ H : List Char,
      (bolt_journal_write_entry (journal_fs "/j" []) 3 "A" BOLT_JOURNAL_ADDED 31 none).1.data 0
        = [] ++ ("A".toList ++ [' ', '+', ' '] ++ H ++ ['\n']) ∧
      H.length = 16 ∧
      (∀ c ∈ H, c ∈ "0123456789ABCDEF".toList) ∧
      H.foldl (fun a c => a * 16 + (hex_value c).getD 0) 0 = 31 :=
  bolt_journal_write_entry_record (journal_fs "/j" []) 3 ⟨0, 0, true⟩ "A"
    BOLT_JOURNAL_ADDED 31 none rfl rfl (by decide) rfl

/-- C11 (amended): after a successful `bolt_journal_put` through the journal's
appending descriptor the file holds the prior contents followed by the line of
the entry and `fresh` is cleared.  When moreover the prior contents are good
lines, each ended by a newline, and the uid is a well-formed token,
`bolt_journal_list` returns the items listed before followed by one item with
that uid, that op and the clock value as time stamp. -/
theorem bolt_journal_put_lists (fs : Fs) (journal : BoltJournal) (f : OpenFile)
    (id : String) (op : BoltJournalOp) (now : Nat) (fault : Option (Nat × GError))
    (hfd : fs.fds journal.fd = some f) (happ : f.append = true)
    (hok : (bolt_journal_put fs journal id op now fault).2.2 = .ok ()) :
    (bolt_journal_put fs journal id op now fault).2.1 = { journal with fresh := false } ∧
    (bolt_journal_put fs journal id op now fault).1.data f.ino
      = fs.data f.ino ++ journal_entry_data id op now ∧
    (∀ ls, fs.data f.ino = unlines ls → (∀ l ∈ ls, good_line l) → uid_token id →
      ∃ items, (bolt_journal_list fs journal ListEnv.ok).2 = .ok items ∧
        (bolt_journal_list (bolt_journal_put fs journal id op now fault).1
          (bolt_journal_put fs journal id op now fault).2.1 ListEnv.ok).2
          = .ok (items ++ [⟨id, op, now % 2 ^ 64⟩])) := by
  rcases hw : bolt_journal_write_entry fs journal.fd id op now fault with ⟨fs1, e | u⟩
  · simp [bolt_journal_put, hw] at hok
  · have h := write_entry_append fs journal.fd f id op now fault hfd happ (by rw [hw])
    rw [hw] at h
    obtain ⟨hdata, p, hp⟩ := h
    have hput : bolt_journal_put fs journal id op now fault
        = (fs1, { journal with fresh := false }, .ok ()) := by
      simp [bolt_journal_put, hw]
    rw [hput]
    refine ⟨rfl, hdata, ?_⟩
    intro ls hprior hls hu
    refine ⟨journal_parse (fs.data f.ino), bolt_journal_list_ok fs journal f hfd, ?_⟩
    have hfd1 : fs1.fds ({ journal with fresh := false } : BoltJournal).fd
        = some ⟨f.ino, p, true⟩ := hp
    have hgood : ∀ l ∈ ls ++ [journal_entry_line id op now], good_line l := by
      intro l hl
      simp only [List.mem_append, List.mem_singleton] at hl
      rcases hl with hl | hl
      · exact hls l hl
      · rw [hl]
        exact journal_entry_line_good id op now hu
    have heq : unlines ls ++ journal_entry_data id op now
        = unlines (ls ++ [journal_entry_line id op now]) := by
      simp [journal_entry_data, unlines_append, unlines]
    rw [bolt_journal_list_ok fs1 _ _ hfd1]
    simp only []
    rw [hdata, hprior, heq, journal_parse_unlines _ hgood, journal_parse_unlines ls hls]
    simp [List.filterMap_append, journal_parse_line_entry id op now hu]

set_option maxRecDepth 100000 in
/-- Witness for C11: a journal holding A+ lists as A+, B= after B is put as
unchanged at time 2. -/
theorem bolt_journal_put_lists_witness :
    (bolt_journal_list
      (bolt_journal_put (journal_fs "/j" "A + 0000000000000001\n".toList) (journal_at "/j")
        "B" BOLT_JOURNAL_UNCHANGED 2 none).1
      (bolt_journal_put (journal_fs "/j" "A + 0000000000000001\n".toList) (journal_at "/j")
        "B" BOLT_JOURNAL_UNCHANGED 2 none).2.1 ListEnv.ok).2
      = .ok [⟨"A", BOLT_JOURNAL_ADDED, 1⟩, ⟨"B", BOLT_JOURNAL_UNCHANGED, 2⟩] := by
  obtain ⟨items, h1, h2⟩ := (bolt_journal_put_lists
    (journal_fs "/j" "A + 0000000000000001\n".toList) (journal_at "/j") ⟨0, 0, true⟩
    "B" BOLT_JOURNAL_UNCHANGED 2 none rfl rfl rfl).2.2
    ["A + 0000000000000001".toList] rfl (by decide) (by decide)
  have h3 : (bolt_journal_list (journal_fs "/j" "A + 0000000000000001\n".toList)
      (journal_at "/j") ListEnv.ok).2 = .ok [⟨"A", BOLT_JOURNAL_ADDED, 1⟩] := rfl
  rw [h3] at h1
  cases h1
  exact h2

set_option maxRecDepth 100000 in
/-- Counterexample to C11 as stated: the empty uid is put successfully into an
empty journal, and uid A into a journal that holds a single empty line; in both
cases `bolt_journal_list` returns no item afterwards, which is not the items
listed before followed by the new record. -/
theorem bolt_journal_put_list_counterexample :
    ((bolt_journal_put (journal_fs "/j" []) (journal_at "/j") "" BOLT_JOURNAL_ADDED 3
        none).2.2 = .ok () ∧
      (bolt_journal_list (journal_fs "/j" []) (journal_at "/j") ListEnv.ok).2 = .ok [] ∧
      (bolt_journal_list
        (bolt_journal_put (journal_fs "/j" []) (journal_at "/j") "" BOLT_JOURNAL_ADDED 3
          none).1
        (bolt_journal_put (journal_fs "/j" []) (journal_at "/j") "" BOLT_JOURNAL_ADDED 3
          none).2.1 ListEnv.ok).2 = .ok []) ∧
    ((bolt_journal_put (journal_fs "/j" ['\n']) (journal_at "/j") "A" BOLT_JOURNAL_ADDED 3
        none).2.2 = .ok () ∧
      (bolt_journal_list (journal_fs "/j" ['\n']) (journal_at "/j") ListEnv.ok).2 = .ok [] ∧
      (bolt_journal_list
        (bolt_journal_put (journal_fs "/j" ['\n']) (journal_at "/j") "A" BOLT_JOURNAL_ADDED 3
          none).1
        (bolt_journal_put (journal_fs "/j" ['\n']) (journal_at "/j") "A" BOLT_JOURNAL_ADDED 3
          none).2.1 ListEnv.ok).2 = .ok []) :=
  ⟨⟨rfl, rfl, rfl⟩, ⟨rfl, rfl, rfl⟩⟩

/-- A line without white space gives no item: `sscanf` finds one field only. -/
theorem journal_parse_line_one_word (l : List Char) (h : ∀ c ∈ l, ISSPACE c = false) :
    journal_parse_line l = none := by
  cases l with
  | nil => rfl
  | cons c r =>
    have hc : ISSPACE c = false := h c (by simp)
    have hd : List.dropWhile ISSPACE (c :: r) = c :: r := by
      rw [List.dropWhile_cons_of_neg (by simp [hc])]
    have hr : List.dropWhile (fun x => !ISSPACE x) (c :: r) = [] := by
      rw [List.dropWhile_eq_nil_iff]
      intro x hx
      simp [h x hx]
    simp [journal_parse_line, sscanf_ms, hd, hr]

/-- C12 (amended): for a journal file made of good lines, each ended by a
newline, `bolt_journal_list` returns in file order the items of the lines on
which `sscanf` converts all three fields and skips the other lines without
stopping; a line of the format uid, op, sixteen-digit time stamp gives the item
with that uid, op and time stamp, and a line without white space gives none. -/
theorem bolt_journal_list_lines (fs : Fs) (journal : BoltJournal) (f : OpenFile)
    (ls : List (List Char)) (hfd : fs.fds journal.fd = some f)
    (hcontent : fs.data f.ino = unlines ls) (hls : ∀ l ∈ ls, good_line l) :
    (bolt_journal_list fs journal ListEnv.ok).2 = .ok (ls.filterMap journal_parse_line) ∧
    (∀ (uid : String) (op : BoltJournalOp) (ts : Nat), uid_token uid → ts < 2 ^ 64 →
      journal_parse_line (journal_entry_line uid op ts) = some ⟨uid, op, ts⟩) ∧
    (∀ l : List Char, (∀ c ∈ l, ISSPACE c = false) → journal_parse_line l = none) := by
  refine ⟨?_, ?_, journal_parse_line_one_word⟩
  · rw [bolt_journal_list_ok fs journal f hfd, hcontent, journal_parse_unlines ls hls]
  · intro uid op ts hu hts
    rw [journal_parse_line_entry uid op ts hu, Nat.mod_eq_of_lt hts]

set_option maxRecDepth 100000 in
/-- Witness for C12: the line `garbage` between the records of A and B is
skipped and both records are listed. -/
theorem bolt_journal_list_lines_witness :
    (bolt_journal_list
      (journal_fs "/j" "A + 0000000000000001\ngarbage\nB - 0000000000000002\n".toList)
      (journal_at "/j") ListEnv.ok).2
      = .ok [⟨"A", BOLT_JOURNAL_ADDED, 1⟩, ⟨"B", BOLT_JOURNAL_REMOVED, 2⟩] := by
  have h := (bolt_journal_list_lines
    (journal_fs "/j" "A + 0000000000000001\ngarbage\nB - 0000000000000002\n".toList)
    (journal_at "/j") ⟨0, 0, true⟩
    ["A + 0000000000000001".toList, "garbage".toList, "B - 0000000000000002".toList]
    rfl rfl (by decide)).1
  rw [h]
  rfl

set_option maxRecDepth 100000 in
/-- Counterexample to C12 as stated: with an empty line between the records of
A and B only A is listed, and the line `A x 0000000000000001`, whose op is none
of the four characters, is listed as a record with op failed. -/
theorem bolt_journal_list_counterexample :
    (bolt_journal_list
      (journal_fs "/j" "A + 0000000000000001\n\nB + 0000000000000002\n".toList)
      (journal_at "/j") ListEnv.ok).2 = .ok [⟨"A", BOLT_JOURNAL_ADDED, 1⟩] ∧
    (bolt_journal_list (journal_fs "/j" "A x 0000000000000001\n".toList)
      (journal_at "/j") ListEnv.ok).2 = .ok [⟨"A", BOLT_JOURNAL_FAILED, 1⟩] :=
  ⟨rfl, rfl⟩

/-! ### Freshness -/

theorem bolt_journal_put_diff_fresh (fs : Fs) (journal : BoltJournal)
    (diff : List (String × Int)) (env : PutDiffEnv) :
    (bolt_journal_put_diff fs journal diff env).2.1.fresh = journal.fresh := by
  simp only [bolt_journal_put_diff]
  repeat' split
  all_goals rfl

theorem bolt_journal_put_fresh (fs : Fs) (journal : BoltJournal) (id : String)
    (op : BoltJournalOp) (now : Nat) (fault : Option (Nat × GError)) :
    (bolt_journal_put fs journal id op now fault).2.1.fresh
      = (journal.fresh && !call_ok (bolt_journal_put fs journal id op now fault).2.2) := by
  simp only [bolt_journal_put]
  split <;> simp [call_ok]

theorem bolt_journal_reset_fresh (fs : Fs) (journal : BoltJournal) (fault : Option GError) :
    (bolt_journal_reset fs journal fault).2.1.fresh
      = (journal.fresh || call_ok (bolt_journal_reset fs journal fault).2.2) := by
  simp only [bolt_journal_reset]
  split <;> simp [call_ok]

theorem reset_then_no_put_cons (x : JournalCall × Bool) (h : List (JournalCall × Bool)) :
    reset_then_no_put (x :: h) ↔
      (reset_succeeded x = true ∧ no_put_in h) ∨ reset_then_no_put h := by
  constructor
  · rintro ⟨h1, e, h2, heq, hr, hn⟩
    cases h1 with
    | nil =>
      simp only [List.nil_append, List.cons.injEq] at heq
      obtain ⟨rfl, rfl⟩ := heq
      exact Or.inl ⟨hr, hn⟩
    | cons y h1 =>
      simp only [List.cons_append, List.cons.injEq] at heq
      exact Or.inr ⟨h1, e, h2, heq.2, hr, hn⟩
  · rintro (⟨hr, hn⟩ | ⟨h1, e, h2, heq, hr, hn⟩)
    · exact ⟨[], x, h, rfl, hr, hn⟩
    · exact ⟨x :: h1, e, h2, by rw [heq]; rfl, hr, hn⟩

theorem no_put_in_cons (x : JournalCall × Bool) (h : List (JournalCall × Bool)) :
    no_put_in (x :: h) ↔ put_succeeded x = false ∧ no_put_in h := by
  simp [no_put_in]

/-- Along a life without a successful `bolt_journal_put_diff` the journal is
fresh at the end exactly when it was fresh at the start and no put succeeded,
or a reset succeeded and no put succeeded after it. -/
theorem journal_life_fresh (cs : List JournalCall) :
    ∀ (fs : Fs) (journal : BoltJournal),
      (∀ e ∈ (journal_life fs journal cs).2.2, put_diff_succeeded e = false) →
      ((journal_life fs journal cs).2.1.fresh = true ↔
        (journal.fresh = true ∧ no_put_in (journal_life fs journal cs).2.2) ∨
        reset_then_no_put (journal_life fs journal cs).2.2) := by
  induction cs with
  | nil =>
    intro fs journal _
    simp [journal_life, no_put_in, reset_then_no_put]
  | cons c cs ih =>
    intro fs journal hnd
    simp only [journal_life] at hnd ⊢
    have hnd1 := fun e he => hnd e (List.mem_cons_of_mem _ he)
    have hhead := hnd _ (List.mem_cons_self _ _)
    rw [ih _ _ hnd1, reset_then_no_put_cons, no_put_in_cons]
    cases c with
    | put id op now fault =>
      have hf := bolt_journal_put_fresh fs journal id op now fault
      simp only [journal_call] at hf ⊢
      rw [hf]
      cases hok : call_ok (bolt_journal_put fs journal id op now fault).2.2 <;>
        simp [put_succeeded, reset_succeeded]
    | put_diff diff env =>
      have hf := bolt_journal_put_diff_fresh fs journal diff env
      simp only [journal_call] at hf hhead ⊢
      rw [hf]
      cases hok : call_ok (bolt_journal_put_diff fs journal diff env).2.2
      · simp [put_succeeded, reset_succeeded]
      · rw [hok] at hhead
        simp [put_diff_succeeded] at hhead
    | reset fault =>
      have hf := bolt_journal_reset_fresh fs journal fault
      simp only [journal_call] at hf ⊢
      rw [hf]
      cases hok : call_ok (bolt_journal_reset fs journal fault).2.2 <;>
        simp [put_succeeded, reset_succeeded]
      tauto

/-- A journal that `bolt_journal_initialize` returns is fresh exactly when its
file was empty or missing. -/
theorem bolt_journal_initialize_fresh (fs0 fs1 : Fs) (root name : Option String)
    (env : InitEnv) (journal : BoltJournal)
    (h : ( bolt_journal_initialize fs0 root name env) = (fs1, .ok journal)) :
    journal.fresh = file_empty_at fs0 journal.path := by
  unfold bolt_journal_initialize at h
  split at h
  · rename_i r n
    split at h
    · simp at h
    · simp only [] at h
      unfold bolt_open at h
      cases hof : env.open_fault with
      | some e => simp [hof] at h
      | none =>
        simp only [hof] at h
        cases hn : fs0.names (r ++ "/" ++ n) with
        | some ino =>
          simp only [hn, bolt_fstat, Bool.false_eq_true, if_false, upd_same] at h
          cases hff : env.fstat_fault with
          | some e => simp [hff] at h
          | none =>
            simp only [hff, Prod.mk.injEq, Except.ok.injEq] at h
            rw [← h.2]
            cases hd : fs0.data ino <;> simp [file_empty_at, hn, hd]
        | none =>
          simp only [hn, bolt_fstat, upd_same] at h
          cases hff : env.fstat_fault with
          | some e => simp [hff] at h
          | none =>
            simp only [hff, Prod.mk.injEq, Except.ok.injEq] at h
            rw [← h.2]
            simp [file_empty_at, hn]
  · simp at h

/-- C13 (amended): for a journal returned by `bolt_journal_initialize` and every
sequence of later puts, diffs and resets in which no `bolt_journal_put_diff`
succeeded, `bolt_journal_is_fresh` is true exactly when the file was empty at
initialization and no put has succeeded since, or a reset has succeeded and no
put has succeeded after it. -/
theorem bolt_journal_is_fresh_iff (fs0 fs1 : Fs) (root name : Option String)
    (env : InitEnv) (journal : BoltJournal) (cs : List JournalCall)
    (hinit : ( bolt_journal_initialize fs0 root name env) = (fs1, .ok journal))
    (hnd : ∀ e ∈ (journal_life fs1 journal cs).2.2, put_diff_succeeded e = false) :
    bolt_journal_is_fresh (journal_life fs1 journal cs).2.1 = true ↔
      (file_empty_at fs0 journal.path = true ∧ no_put_in (journal_life fs1 journal cs).2.2) ∨
      reset_then_no_put (journal_life fs1 journal cs).2.2 := by
  rw [← bolt_journal_initialize_fresh fs0 fs1 root name env journal hinit]
  exact journal_life_fresh cs fs1 journal hnd
set_option maxRecDepth 100000 in
/-- Witness for C13: the journal file holds a record at initialization, B is
put and then the journal is reset; no diff is put, and the journal is fresh. -/
theorem bolt_journal_is_fresh_iff_witness :
    bolt_journal_is_fresh
      (journal_life
        ( bolt_journal_initialize (file_fs "/s/journal" "A + 0000000000000001\n".toList)
          (some "/s") (some "journal") InitEnv.ok).1
        ⟨"/s/journal", false, 3, 0, 0⟩
        [.put "B" BOLT_JOURNAL_ADDED 2 none, .reset none]).2.1 = true := by
  have hH : (journal_life
      ( bolt_journal_initialize (file_fs "/s/journal" "A + 0000000000000001\n".toList)
        (some "/s") (some "journal") InitEnv.ok).1
      ⟨"/s/journal", false, 3, 0, 0⟩
      [.put "B" BOLT_JOURNAL_ADDED 2 none, .reset none]).2.2
      = [(.put "B" BOLT_JOURNAL_ADDED 2 none, true), (.reset none, true)] := rfl
  refine (bolt_journal_is_fresh_iff (file_fs "/s/journal" "A + 0000000000000001\n".toList)
    ( bolt_journal_initialize (file_fs "/s/journal" "A + 0000000000000001\n".toList)
      (some "/s") (some "journal") InitEnv.ok).1
    (some "/s") (some "journal") InitEnv.ok ⟨"/s/journal", false, 3, 0, 0⟩
    [.put "B" BOLT_JOURNAL_ADDED 2 none, .reset none] rfl ?_).mpr (Or.inr ?_)
  · intro e he
    rw [hH] at he
    simp only [List.mem_cons, List.mem_singleton, List.not_mem_nil, or_false] at he
    rcases he with rfl | rfl <;> rfl
  · rw [hH]
    exact ⟨[(.put "B" BOLT_JOURNAL_ADDED 2 none, true)], (.reset none, true), [], rfl, rfl,
      by simp [no_put_in]⟩

set_option maxRecDepth 100000 in
/-- Counterexample to C13 as stated: a journal whose file held a record at
initialization is fresh after a successful reset, and a journal whose file was
empty at initialization is still fresh after a successful
`bolt_journal_put_diff`. -/
theorem bolt_journal_is_fresh_counterexample :
    (file_empty_at (file_fs "/s/journal" "A + 0000000000000001\n".toList) "/s/journal"
        = false ∧
      (journal_life
        ( bolt_journal_initialize (file_fs "/s/journal" "A + 0000000000000001\n".toList)
          (some "/s") (some "journal") InitEnv.ok).1
        ⟨"/s/journal", false, 3, 0, 0⟩ [.reset none]).2.2 = [(.reset none, true)] ∧
      bolt_journal_is_fresh
        (journal_life
          ( bolt_journal_initialize (file_fs "/s/journal" "A + 0000000000000001\n".toList)
            (some "/s") (some "journal") InitEnv.ok).1
          ⟨"/s/journal", false, 3, 0, 0⟩ [.reset none]).2.1 = true) ∧
    (( bolt_journal_initialize (file_fs "/s/journal" []) (some "/s") (some "journal")
        InitEnv.ok).2.toOption = some ⟨"/s/journal", true, 3, 0, 0⟩ ∧
      call_ok (bolt_journal_put_diff
        ( bolt_journal_initialize (file_fs "/s/journal" []) (some "/s") (some "journal")
          InitEnv.ok).1
        ⟨"/s/journal", true, 3, 0, 0⟩ [("A", 43)] (PutDiffEnv.ok 1)).2.2 = true ∧
      bolt_journal_is_fresh (bolt_journal_put_diff
        ( bolt_journal_initialize (file_fs "/s/journal" []) (some "/s") (some "journal")
          InitEnv.ok).1
        ⟨"/s/journal", true, 3, 0, 0⟩ [("A", 43)] (PutDiffEnv.ok 1)).2.1 = true) :=
  ⟨⟨rfl, rfl, rfl⟩, ⟨rfl, rfl, rfl⟩⟩

/-! ### The boot ACL -/

/-- C15: when the boot ACL is read from sysfs, `bolt_domain_update_from_udev`
leaves the domain as it is and notifies nothing if `bolt_strv_equal` finds the
cached and the read ACL equal, and otherwise stores the read ACL, leaves the
other fields alone and emits exactly one `bootacl` notification.  With a
`bolt_strv_equal` that decides equality of two vectors, a cached ACL equal to
the read one is kept without notification and a different one is replaced with
one notification. -/
theorem bolt_domain_update_from_udev_bootacl (h : BoltSysfs) (u : BoltUtil)
    (domain : BoltDomain) (udev : udev_device) (acl : List String)
    (hread : h.bolt_sysfs_read_boot_acl udev = .ok acl) :
    (u.bolt_strv_equal domain.bootacl (some acl) = true →
      bolt_domain_update_from_udev h u domain udev = (domain, [])) ∧
    (u.bolt_strv_equal domain.bootacl (some acl) = false →
      bolt_domain_update_from_udev h u domain udev
        = ({ domain with bootacl := some acl }, ["bootacl"])) ∧
    ((∀ a b : List String, u.bolt_strv_equal (some a) (some b) = decide (a = b)) →
      ∀ cached, domain.bootacl = some cached →
        (cached = acl → bolt_domain_update_from_udev h u domain udev = (domain, [])) ∧
        (cached ≠ acl → bolt_domain_update_from_udev h u domain udev
          = ({ domain with bootacl := some acl }, ["bootacl"]))) := by
  have h1 : u.bolt_strv_equal domain.bootacl (some acl) = true →
      bolt_domain_update_from_udev h u domain udev = (domain, []) := by
    intro hs
    simp [bolt_domain_update_from_udev, hread, hs]
  have h2 : u.bolt_strv_equal domain.bootacl (some acl) = false →
      bolt_domain_update_from_udev h u domain udev
        = ({ domain with bootacl := some acl }, ["bootacl"]) := by
    intro hs
    simp [bolt_domain_update_from_udev, hread, hs]
  refine ⟨h1, h2, ?_⟩
  intro hu cached hc
  constructor
  · intro he
    apply h1
    rw [hc, hu]
    simp [he]
  · intro hne
    apply h2
    rw [hc, hu]
    simp [hne]

/-- Witness for C15: with the boot ACL X, empty, Y cached, an update that reads
the same slots notifies nothing, and one that reads Z in slot 1 stores the new
ACL and notifies once. -/
theorem bolt_domain_update_from_udev_bootacl_witness :
    bolt_domain_update_from_udev spec_sysfs spec_util
        (domain_with_bootacl (some ["X", "", "Y"])) (sysfs_domain_acl "X,,Y")
      = (domain_with_bootacl (some ["X", "", "Y"]), []) ∧
    bolt_domain_update_from_udev spec_sysfs spec_util
        (domain_with_bootacl (some ["X", "", "Y"])) (sysfs_domain_acl "X,Z,Y")
      = (domain_with_bootacl (some ["X", "Z", "Y"]), ["bootacl"]) :=
  ⟨((bolt_domain_update_from_udev_bootacl spec_sysfs spec_util
      (domain_with_bootacl (some ["X", "", "Y"])) (sysfs_domain_acl "X,,Y") ["X", "", "Y"]
      rfl).2.2 (fun a b => by simp [spec_util]) ["X", "", "Y"] rfl).1 rfl,
   ((bolt_domain_update_from_udev_bootacl spec_sysfs spec_util
      (domain_with_bootacl (some ["X", "", "Y"])) (sysfs_domain_acl "X,Z,Y") ["X", "Z", "Y"]
      rfl).2.2 (fun a b => by simp [spec_util]) ["X", "", "Y"] rfl).2 (by decide)⟩
theorem bolt_strzero_iff (s : String) : bolt_strzero s = true ↔ s = "" := by
  simp only [bolt_strzero, List.isEmpty_iff]
  constructor
  · intro h
    exact String.ext h
  · intro h
    rw [h]
    rfl

theorem guint_succ_add (a n : Nat) : guint_succ ((a + n) % 2 ^ 32) = (a + (n + 1)) % 2 ^ 32 := by
  unfold guint_succ
  omega

/-- The loop of `bolt_domain_bootacl_slots` counts the slots and the empty
slots, modulo `2 ^ 32`. -/
theorem bootacl_slots_loop (acl : List String) :
    ∀ a b : Nat,
      acl.foldl
        (fun (c : Nat × Nat) iter =>
          (guint_succ c.1, if bolt_strzero iter then guint_succ c.2 else c.2))
        (a % 2 ^ 32, b % 2 ^ 32)
      = ((a + acl.length) % 2 ^ 32, (b + acl.count "") % 2 ^ 32) := by
  induction acl with
  | nil => intro a b; simp
  | cons s acl ih =>
    intro a b
    simp only [List.foldl_cons, List.length_cons]
    by_cases hs : s = ""
    · have hz : bolt_strzero s = true := (bolt_strzero_iff s).mpr hs
      have h1 := guint_succ_add a 0
      have h2 := guint_succ_add b 0
      simp only [Nat.add_zero] at h1 h2
      rw [hz, if_pos rfl, h1, h2, ih, hs, List.count_cons_self]
      congr 2 <;> omega
    · have hz : bolt_strzero s = false := by
        rw [← Bool.not_eq_true]
        exact fun h => hs ((bolt_strzero_iff s).mp h)
      have h1 := guint_succ_add a 0
      simp only [Nat.add_zero] at h1
      rw [hz, h1]
      simp only [Bool.false_eq_true, if_false]
      rw [ih, List.count_cons_of_ne (fun h => hs h.symm)]
      congr 2
      omega

/-- C17: for a domain without boot ACL `bolt_domain_bootacl_slots` returns 0 and
stores 0; for a domain with a boot ACL (of fewer than `2 ^ 32` slots, the range
of the `guint` counters) it returns the number of slots and stores the number of
slots that hold the empty string. -/
theorem bolt_domain_bootacl_slots_count (domain : BoltDomain) :
    (domain.bootacl = none → bolt_domain_bootacl_slots domain = (0, 0)) ∧
    (∀ acl, domain.bootacl = some acl → acl.length < 2 ^ 32 →
      bolt_domain_bootacl_slots domain = (acl.length, acl.count "")) := by
  constructor
  · intro h
    simp [bolt_domain_bootacl_slots, h]
  · intro acl h hlen
    have hc : acl.count "" < 2 ^ 32 := Nat.lt_of_le_of_lt (List.count_le_length _ _) hlen
    have := bootacl_slots_loop acl 0 0
    simp only [Nat.zero_mod, Nat.zero_add] at this
    simp only [bolt_domain_bootacl_slots, h, this, Nat.mod_eq_of_lt hlen, Nat.mod_eq_of_lt hc]

/-- Witness for C17: the boot ACL X, empty, Y has three slots, one of them
free. -/
theorem bolt_domain_bootacl_slots_count_witness :
    bolt_domain_bootacl_slots (domain_with_bootacl (some ["X", "", "Y"])) = (3, 1) :=
  (bolt_domain_bootacl_slots_count (domain_with_bootacl (some ["X", "", "Y"]))).2
    ["X", "", "Y"] rfl (by decide)

/-- The loop of `bolt_domain_bootacl_get_used` collects the non-empty slots in
order and counts them modulo `2 ^ 32`. -/
theorem bootacl_get_used_loop (acl : List String) :
    ∀ (res : List String) (b : Nat),
      acl.foldl
        (fun (c : List String × Nat) iter =>
          if iter.toList.length ≠ 0 then (c.1 ++ [iter], guint_succ c.2) else c)
        (res, b % 2 ^ 32)
      = (res ++ acl.filter (fun s => decide (s ≠ "")),
         (b + (acl.filter (fun s => decide (s ≠ ""))).length) % 2 ^ 32) := by
  induction acl with
  | nil => intro res b; simp
  | cons s acl ih =>
    intro res b
    simp only [List.foldl_cons]
    by_cases hs : s = ""
    · have hl : s.toList.length = 0 := by rw [hs]; rfl
      simp only [hl, ne_eq, not_true_eq_false, if_false]
      rw [ih, List.filter_cons_of_neg (by simp [hs])]
    · have hl : s.toList.length ≠ 0 := by
        intro h0
        exact hs (String.ext (List.length_eq_zero.mp h0))
      have h2 := guint_succ_add b 0
      simp only [Nat.add_zero] at h2
      rw [if_pos hl, h2, ih, List.filter_cons_of_pos (by simp [hs])]
      simp only [List.append_assoc, List.singleton_append, List.length_cons]
      congr 2
      omega

/-- C18: for a domain without boot ACL `bolt_domain_bootacl_get_used` returns
the empty sequence and stores 0; for a domain with a boot ACL (of fewer than
`2 ^ 32` slots) it returns the slots that are not the empty string, in slot
order, and stores their number. -/
theorem bolt_domain_bootacl_get_used_filter (domain : BoltDomain) :
    (domain.bootacl = none → bolt_domain_bootacl_get_used domain = ([], 0)) ∧
    (∀ acl, domain.bootacl = some acl → acl.length < 2 ^ 32 →
      bolt_domain_bootacl_get_used domain
        = (acl.filter (fun s => decide (s ≠ "")),
           (acl.filter (fun s => decide (s ≠ ""))).length)) := by
  constructor
  · intro h
    simp [bolt_domain_bootacl_get_used, h]
  · intro acl h hlen
    have hc : (acl.filter (fun s => decide (s ≠ ""))).length < 2 ^ 32 :=
      Nat.lt_of_le_of_lt (List.length_filter_le _ _) hlen
    have := bootacl_get_used_loop acl [] 0
    simp only [Nat.zero_mod, Nat.zero_add, List.nil_append] at this
    simp only [bolt_domain_bootacl_get_used, h, this, Nat.mod_eq_of_lt hc]

/-- Witness for C18: of the boot ACL X, empty, Y the used slots are X, Y. -/
theorem bolt_domain_bootacl_get_used_filter_witness :
    bolt_domain_bootacl_get_used (domain_with_bootacl (some ["X", "", "Y"]))
      = (["X", "Y"], 2) :=
  (bolt_domain_bootacl_get_used_filter (domain_with_bootacl (some ["X", "", "Y"]))).2
    ["X", "", "Y"] rfl (by decide)
theorem bolt_domain_bootacl_slots_fst (domain : BoltDomain) (acl : List String)
    (h : domain.bootacl = some acl) :
    (bolt_domain_bootacl_slots domain).1 = acl.length % 2 ^ 32 := by
  have := bootacl_slots_loop acl 0 0
  simp only [Nat.zero_mod, Nat.zero_add] at this
  simp only [bolt_domain_bootacl_slots, h, this]

/-- C16 (amended): for a domain with a boot ACL and an update that reads a boot
ACL from sysfs, the slot count returned by `bolt_domain_bootacl_slots` is the
same after the update as before it whenever the ACL read has as many slots as
the cached one; an update that finds the two ACLs different stores the ACL read
as a whole, and the slot count afterwards is the number of slots read (as a
`guint`). -/
theorem bolt_domain_update_from_udev_slots (h : BoltSysfs) (u : BoltUtil)
    (domain : BoltDomain) (udev : udev_device) (acl cached : List String)
    (hread : h.bolt_sysfs_read_boot_acl udev = .ok acl)
    (hc : domain.bootacl = some cached) :
    (acl.length = cached.length →
      (bolt_domain_bootacl_slots (bolt_domain_update_from_udev h u domain udev).1).1
        = (bolt_domain_bootacl_slots domain).1) ∧
    (u.bolt_strv_equal domain.bootacl (some acl) = false →
      (bolt_domain_bootacl_slots (bolt_domain_update_from_udev h u domain udev).1).1
        = acl.length % 2 ^ 32) := by
  have hnew : u.bolt_strv_equal domain.bootacl (some acl) = false →
      (bolt_domain_bootacl_slots (bolt_domain_update_from_udev h u domain udev).1).1
        = acl.length % 2 ^ 32 := by
    intro hs
    have hupd : bolt_domain_update_from_udev h u domain udev
        = ({ domain with bootacl := some acl }, ["bootacl"]) := by
      simp [bolt_domain_update_from_udev, hread, hs]
    rw [hupd]
    exact bolt_domain_bootacl_slots_fst _ acl rfl
  refine ⟨?_, hnew⟩
  intro hlen
  cases hs : u.bolt_strv_equal domain.bootacl (some acl) with
  | true =>
    have hupd : bolt_domain_update_from_udev h u domain udev = (domain, []) := by
      simp [bolt_domain_update_from_udev, hread, hs]
    rw [hupd]
  | false =>
    rw [hnew hs, bolt_domain_bootacl_slots_fst domain cached hc, hlen]

/-- Witness for C16: with the boot ACL X, empty, Y cached, an update that reads
X, Z, Y leaves the slot count at 3. -/
theorem bolt_domain_update_from_udev_slots_witness :
    (bolt_domain_bootacl_slots (bolt_domain_update_from_udev spec_sysfs spec_util
        (domain_with_bootacl (some ["X", "", "Y"])) (sysfs_domain_acl "X,Z,Y")).1).1
      = (bolt_domain_bootacl_slots (domain_with_bootacl (some ["X", "", "Y"]))).1 :=
  (bolt_domain_update_from_udev_slots spec_sysfs spec_util
    (domain_with_bootacl (some ["X", "", "Y"])) (sysfs_domain_acl "X,Z,Y")
    ["X", "Z", "Y"] ["X", "", "Y"] rfl rfl).1 rfl

/-- Counterexample to C16 as stated: with the boot ACL X, empty, Y cached, an
update that reads the two slots X, Y stores them, and the slot count goes from
3 to 2. -/
theorem bolt_domain_update_from_udev_slots_counterexample :
    bolt_domain_bootacl_slots (domain_with_bootacl (some ["X", "", "Y"])) = (3, 1) ∧
    bolt_domain_update_from_udev spec_sysfs spec_util
        (domain_with_bootacl (some ["X", "", "Y"])) (sysfs_domain_acl "X,Y")
      = (domain_with_bootacl (some ["X", "Y"]), ["bootacl"]) ∧
    bolt_domain_bootacl_slots (bolt_domain_update_from_udev spec_sysfs spec_util
        (domain_with_bootacl (some ["X", "", "Y"])) (sysfs_domain_acl "X,Y")).1 = (2, 0) := by
  decide

/-! ### Removing a domain -/

theorem bolt_domain_foreach_record (list seen : List BoltDomain) :
    bolt_domain_foreach list record_domain seen = seen ++ list := by
  induction list generalizing seen with
  | nil => simp [bolt_domain_foreach]
  | cons d list ih =>
    have := ih (seen ++ [d])
    simp only [bolt_domain_foreach, List.foldl_cons, record_domain] at this ⊢
    rw [this]
    simp

/-- C19: for a non-empty list and its member at position `i`,
`bolt_domain_remove` returns a list that `bolt_domain_foreach` enumerates as the
old enumeration without that member, the others in their old order; the count
drops by one, and removing the only member gives NULL. -/
theorem bolt_domain_remove_enumeration (list : List BoltDomain) (i : Nat)
    (hi : i < list.length) :
    bolt_domain_foreach (bolt_domain_remove list i) record_domain []
      = (bolt_domain_foreach list record_domain []).take i
        ++ (bolt_domain_foreach list record_domain []).drop (i + 1) ∧
    bolt_domain_count (bolt_domain_remove list i) + 1 = bolt_domain_count list ∧
    (list.length = 1 → bolt_domain_remove list i = []) := by
  have hrem : bolt_domain_remove list i = list.eraseIdx i := by
    cases list <;> rfl
  rw [bolt_domain_foreach_record, bolt_domain_foreach_record, hrem]
  refine ⟨?_, ?_, ?_⟩
  · simp [List.eraseIdx_eq_take_drop_succ]
  · simp only [bolt_domain_count, List.length_eraseIdx, hi, if_true]
    omega
  · intro h1
    match list, h1 with
    | [d], _ =>
      have : i = 0 := by simpa using hi
      subst this
      rfl

/-- Witness for C19: removing the middle member of the list of domain2,
domain10, domain0 leaves domain2, domain0. -/
theorem bolt_domain_remove_enumeration_witness :
    bolt_domain_foreach
      (bolt_domain_remove [domain_with_sort "domain2" 2, domain_with_sort "domain10" 10,
        domain_with_sort "domain0" 0] 1) record_domain []
      = [domain_with_sort "domain2" 2, domain_with_sort "domain0" 0] :=
  (bolt_domain_remove_enumeration [domain_with_sort "domain2" 2,
    domain_with_sort "domain10" 10, domain_with_sort "domain0" 0] 1 (by decide)).1

/-! ### The uid of a library device -/

/-- C20: `tb_device_update_from_udev` leaves a uid that is set as it is,
whatever the udev device reports as `unique_id`. -/
theorem tb_device_update_from_udev_uid (device : TbDevice) (udev : GUdevDevice)
    (uid : String) (h : device.uid = some uid) :
    (tb_device_update_from_udev device udev).1.uid = some uid := by
  simp [tb_device_update_from_udev, h]

/-- Witness for C20: a device with uid X is updated from a udev device whose
`unique_id` reads Z; the uid stays X while the call reports a change of other
fields. -/
theorem tb_device_update_from_udev_uid_witness :
    (tb_device_update_from_udev
      ⟨some "X", 0, none, 0, none, none, 0, false, false⟩
      ⟨"/sys/0-1", some "0-1", [("unique_id", "Z"), ("authorized", "1")]⟩).1.uid
      = some "X" :=
  tb_device_update_from_udev_uid ⟨some "X", 0, none, 0, none, none, 0, false, false⟩
    ⟨"/sys/0-1", some "0-1", [("unique_id", "Z"), ("authorized", "1")]⟩ "X" rfl

/-! ### Used and free slots -/

theorem filter_ne_empty_add_count (acl : List String) :
    (acl.filter (fun s => decide (s ≠ ""))).length + acl.count "" = acl.length := by
  induction acl with
  | nil => rfl
  | cons s acl ih =>
    by_cases hs : s = ""
    · rw [List.filter_cons_of_neg (by simp [hs]), hs, List.count_cons_self, List.length_cons]
      omega
    · rw [List.filter_cons_of_pos (by simp [hs]), List.count_cons_of_ne (fun h => hs h.symm),
        List.length_cons, List.length_cons]
      omega

/-- C26: for every domain (whose boot ACL, when it has one, has fewer than
`2 ^ 32` slots, the range of the `guint` counters) the number of used slots
stored by `bolt_domain_bootacl_get_used`, which is the length of the array it
returns, plus the number of free slots stored by `bolt_domain_bootacl_slots`
equals the slot count that `bolt_domain_bootacl_slots` returns. -/
theorem bolt_domain_bootacl_used_free_total (domain : BoltDomain)
    (hlen : ∀ acl, domain.bootacl = some acl → acl.length < 2 ^ 32) :
    (bolt_domain_bootacl_get_used domain).2 + (bolt_domain_bootacl_slots domain).2
      = (bolt_domain_bootacl_slots domain).1 ∧
    (bolt_domain_bootacl_get_used domain).1.length = (bolt_domain_bootacl_get_used domain).2 := by
  cases h : domain.bootacl with
  | none => simp [bolt_domain_bootacl_get_used, bolt_domain_bootacl_slots, h]
  | some acl =>
    have hl := hlen acl h
    have hc : acl.count "" < 2 ^ 32 := Nat.lt_of_le_of_lt (List.count_le_length _ _) hl
    have hf : (acl.filter (fun s => decide (s ≠ ""))).length < 2 ^ 32 :=
      Nat.lt_of_le_of_lt (List.length_filter_le _ _) hl
    have h1 := bootacl_slots_loop acl 0 0
    have h2 := bootacl_get_used_loop acl [] 0
    simp only [Nat.zero_mod, Nat.zero_add, List.nil_append] at h1 h2
    simp only [bolt_domain_bootacl_get_used, bolt_domain_bootacl_slots, h, h1, h2,
      Nat.mod_eq_of_lt hl, Nat.mod_eq_of_lt hc, Nat.mod_eq_of_lt hf]
    exact ⟨filter_ne_empty_add_count acl, trivial⟩

/-- Witness for C26: the boot ACL X, empty, Y has two used slots and one free
slot out of three. -/
theorem bolt_domain_bootacl_used_free_total_witness :
    (bolt_domain_bootacl_get_used (domain_with_bootacl (some ["X", "", "Y"]))).2 = 2 ∧
    (bolt_domain_bootacl_slots (domain_with_bootacl (some ["X", "", "Y"]))).2 = 1 ∧
    (bolt_domain_bootacl_slots (domain_with_bootacl (some ["X", "", "Y"]))).1 = 3 ∧
    (bolt_domain_bootacl_get_used (domain_with_bootacl (some ["X", "", "Y"]))).2
      + (bolt_domain_bootacl_slots (domain_with_bootacl (some ["X", "", "Y"]))).2
      = (bolt_domain_bootacl_slots (domain_with_bootacl (some ["X", "", "Y"]))).1 :=
  ⟨by decide, by decide, by decide,
   (bolt_domain_bootacl_used_free_total (domain_with_bootacl (some ["X", "", "Y"]))
     (fun acl h => by
       have : acl = ["X", "", "Y"] := by
         simpa [domain_with_bootacl] using h.symm
       rw [this]
       decide)).1⟩

/-! ### Inserting a domain -/

theorem bolt_domain_insert_split (list : List BoltDomain) (d : BoltDomain) :
    ∃ k, k ≤ list.length ∧ bolt_domain_insert list d = list.take k ++ d :: list.drop k := by
  cases list with
  | nil => exact ⟨0, Nat.le_refl _, rfl⟩
  | cons a l =>
    simp only [bolt_domain_insert, bolt_list_add_after]
    by_cases hk : (match insert_walk d (a :: l) 0 with
        | some i => i
        | none => (a :: l).length - 1) + 1 ≤ (a :: l).length
    · exact ⟨_, hk, rfl⟩
    · refine ⟨(a :: l).length, Nat.le_refl _, ?_⟩
      have hk2 : (a :: l).length ≤ (match insert_walk d (a :: l) 0 with
        | some i => i
        | none => (a :: l).length - 1) + 1 := by omega
      rw [List.take_of_length_le hk2, List.drop_of_length_le hk2, List.take_length,
        List.drop_length]

/-- C25: for every domain list and every domain `d` that is not a member of it,
`bolt_domain_foreach` enumerates the list returned by `bolt_domain_insert` as
the old enumeration with `d` put in at one place: `d` occurs exactly once, every
other domain as often as before, the old members keep their relative order, and
`bolt_domain_count` grows by one; inserting into the empty list (NULL) returns
`d` as a one-element list. -/
theorem bolt_domain_insert_enumeration (list : List BoltDomain) (d : BoltDomain)
    (hd : d ∉ list) :
    (∃ k, k ≤ list.length ∧
      bolt_domain_foreach (bolt_domain_insert list d) record_domain []
        = (bolt_domain_foreach list record_domain []).take k
          ++ d :: (bolt_domain_foreach list record_domain []).drop k) ∧
    (bolt_domain_foreach (bolt_domain_insert list d) record_domain []).count d = 1 ∧
    (∀ m, m ≠ d →
      (bolt_domain_foreach (bolt_domain_insert list d) record_domain []).count m
        = (bolt_domain_foreach list record_domain []).count m) ∧
    (bolt_domain_foreach (bolt_domain_insert list d) record_domain []).filter
        (fun m => decide (m ≠ d))
      = bolt_domain_foreach list record_domain [] ∧
    bolt_domain_count (bolt_domain_insert list d) = bolt_domain_count list + 1 ∧
    bolt_domain_foreach (bolt_domain_insert [] d) record_domain [] = [d] := by
  obtain ⟨k, hk, he⟩ := bolt_domain_insert_split list d
  simp only [bolt_domain_foreach_record, List.nil_append, bolt_domain_count]
  have h0 : list.count d = 0 := List.count_eq_zero_of_not_mem hd
  have hc : ∀ m, (list.take k).count m + (list.drop k).count m = list.count m := by
    intro m
    rw [← List.count_append, List.take_append_drop]
  have hfl : list.filter (fun m => decide (m ≠ d)) = list := by
    rw [List.filter_eq_self]
    intro a ha
    simp only [ne_eq, decide_eq_true_eq]
    intro h
    exact hd (h ▸ ha)
  refine ⟨⟨k, hk, he⟩, ?_, ?_, ?_, ?_, rfl⟩
  · rw [he, List.count_append, List.count_cons_self]
    have := hc d
    omega
  · intro m hm
    rw [he, List.count_append, List.count_cons_of_ne (fun h => hm h)]
    exact hc m
  · rw [he, List.filter_append, List.filter_cons_of_neg (by simp), ← List.filter_append,
      List.take_append_drop, hfl]
  · rw [he]
    simp only [List.length_append, List.length_cons, List.length_take, List.length_drop]
    omega

/-- Witness for C25: domain10 is inserted into the list of domain2 and
domain0. -/
theorem bolt_domain_insert_enumeration_witness :
    bolt_domain_foreach
      (bolt_domain_insert [domain_with_sort "domain2" 2, domain_with_sort "domain0" 0]
        (domain_with_sort "domain10" 10)) record_domain []
      = [domain_with_sort "domain2" 2, domain_with_sort "domain10" 10,
         domain_with_sort "domain0" 0] ∧
    bolt_domain_count
      (bolt_domain_insert [domain_with_sort "domain2" 2, domain_with_sort "domain0" 0]
        (domain_with_sort "domain10" 10)) = 2 + 1 :=
  ⟨by decide,
   (bolt_domain_insert_enumeration [domain_with_sort "domain2" 2, domain_with_sort "domain0" 0]
     (domain_with_sort "domain10" 10) (by decide)).2.2.2.2.1⟩

/-! ### Rejected requests -/

/-- C22 (amended): for every device whose status is neither connected nor
auth-error, `bolt_device_authorize` rejects the request with an error of the
generic kind `BOLT_ERROR_FAILED` whose message names the wrong device state, and
leaves the device as it is. -/
theorem bolt_device_authorize_rejects_failed (dev : BoltDevice) (callback : Option Nat)
    (user_data : Nat)
    (h : dev.status ≠ BOLT_STATUS_CONNECTED ∧ dev.status ≠ BOLT_STATUS_AUTH_ERROR) :
    (bolt_device_authorize dev callback user_data).ret = false ∧
    (bolt_device_authorize dev callback user_data).error
      = some ⟨BOLT_ERROR_FAILED, "wrong device state"⟩ ∧
    (bolt_device_authorize dev callback user_data).dev = dev ∧
    (bolt_device_authorize dev callback user_data).task = none := by
  simp [bolt_device_authorize, h.1, h.2]

/-- Witness for C22: an authorized device. -/
theorem bolt_device_authorize_rejects_failed_witness :
    (bolt_device_authorize ⟨some "X", "n", "v", BOLT_STATUS_AUTHORIZED, "/sys/0-1"⟩
      (some 7) 0).error = some ⟨BOLT_ERROR_FAILED, "wrong device state"⟩ :=
  (bolt_device_authorize_rejects_failed
    ⟨some "X", "n", "v", BOLT_STATUS_AUTHORIZED, "/sys/0-1"⟩ (some 7) 0
    ⟨by decide, by decide⟩).2.1

/-- C22 as stated fails: the error with which an authorizing device is rejected
has the generic kind `BOLT_ERROR_FAILED`, not a kind distinct from it. -/
theorem bolt_device_authorize_rejects_counterexample :
    ∃ e, (bolt_device_authorize ⟨some "X", "n", "v", BOLT_STATUS_AUTHORIZING, "/sys/0-1"⟩
            none 0).error = some e ∧
      ¬ (e.code ≠ BOLT_ERROR_FAILED) :=
  ⟨⟨BOLT_ERROR_FAILED, "wrong device state"⟩, by decide, by decide⟩

/-! ### Devices without a unique id -/

theorem bolt_device_new_for_udev_null_udev :
    bolt_device_new_for_udev none
      = (none, some ⟨BOLT_ERROR_UDEV, "could not get unique_id for udev"⟩) := rfl

/-- What `bolt_device_new_for_udev` does for a udev device: it fails only when
one of the two names cannot be read, and otherwise returns a device whose uid is
whatever the lookup of `unique_id` gave, NULL included. -/
theorem bolt_device_new_for_udev_uid (u : udev_device) (name vendor : String)
    (hn : (read_sysattr_name u "device").1 = some name)
    (hv : (read_sysattr_name u "vendor").1 = some vendor) :
    bolt_device_new_for_udev (some u)
      = (some ⟨udev_device_get_sysattr_value u "unique_id", name, vendor,
               bolt_status_from_udev u, u.syspath⟩, none) := by
  simp only [bolt_device_new_for_udev]
  rcases h1 : read_sysattr_name u "device" with ⟨n1, e1⟩
  rw [h1] at hn
  simp only at hn
  subst hn
  rcases h2 : read_sysattr_name u "vendor" with ⟨n2, e2⟩
  rw [h2] at hv
  simp only at hv
  subst hv
  rfl

/-- C27 (as the code behaves): for a udev device that has a device and a vendor
name but no `unique_id` attribute, `bolt_device_new_for_udev` sets no error and
returns a device whose uid is NULL; the error for a missing unique id is raised
for a NULL udev device only. -/
theorem bolt_device_new_for_udev_without_unique_id :
    udev_device_get_sysattr_value
      ⟨"/sys/0-1", some "0-1", [("device_name", "Dock"), ("vendor_name", "ACME"),
        ("authorized", "0")]⟩ "unique_id" = none ∧
    bolt_device_new_for_udev
      (some ⟨"/sys/0-1", some "0-1", [("device_name", "Dock"), ("vendor_name", "ACME"),
        ("authorized", "0")]⟩)
      = (some ⟨none, "Dock", "ACME", BOLT_STATUS_CONNECTED, "/sys/0-1"⟩, none) ∧
    (bolt_device_new_for_udev
      (some ⟨"/sys/0-1", some "0-1", [("device_name", "Dock"), ("vendor_name", "ACME"),
        ("authorized", "0")]⟩)).1.map bolt_device_get_uid = some none := by
  decide

/-! ### Integer attributes -/

/-- What `read_sysfs_attr_int` returns always lies in the range of a `gint`. -/
theorem read_sysfs_attr_int_range (device : udev_device) (attr : String) :
    G_MININT ≤ read_sysfs_attr_int device attr ∧ read_sysfs_attr_int device attr ≤ G_MAXINT := by
  unfold read_sysfs_attr_int
  cases udev_device_get_sysattr_value device attr with
  | none => simp [G_MININT, G_MAXINT]
  | some str =>
    simp only
    split
    · simp [G_MININT, G_MAXINT]
    · split
      · simp [G_MININT, G_MAXINT]
      · rename_i h
        omega

set_option maxRecDepth 100000 in
/-- C21 (as the code behaves): the text is parsed as an unsigned 64-bit number
and then read as a signed one, so a text whose value lies far outside the signed
32-bit range can come back as a small number instead of 0: 2^64 - 1 and every
larger value read as -1, and -(2^64 - 1) reads as 1.  Values that fit 63 bits
behave as the claim says. -/
theorem read_sysfs_attr_int_wraps :
    read_sysfs_attr_int ⟨"/sys/0-1", some "0-1", [("authorized", "18446744073709551615")]⟩
      "authorized" = -1 ∧
    read_sysfs_attr_int ⟨"/sys/0-1", some "0-1", [("authorized", "99999999999999999999")]⟩
      "authorized" = -1 ∧
    read_sysfs_attr_int ⟨"/sys/0-1", some "0-1", [("authorized", "-18446744073709551615")]⟩
      "authorized" = 1 ∧
    read_sysfs_attr_int ⟨"/sys/0-1", some "0-1", [("authorized", "0xFFFFFFFFFFFFFFFE")]⟩
      "authorized" = -2 ∧
    read_sysfs_attr_int ⟨"/sys/0-1", some "0-1", [("authorized", "2147483648")]⟩
      "authorized" = 0 ∧
    read_sysfs_attr_int ⟨"/sys/0-1", some "0-1", [("authorized", "2147483647")]⟩
      "authorized" = 2147483647 ∧
    read_sysfs_attr_int ⟨"/sys/0-1", some "0-1", [("authorized", "-2147483648")]⟩
      "authorized" = -2147483648 ∧
    read_sysfs_attr_int ⟨"/sys/0-1", some "0-1", [("authorized", "-2147483649")]⟩
      "authorized" = 0 ∧
    read_sysfs_attr_int ⟨"/sys/0-1", some "0-1", [("authorized", "9223372036854775808")]⟩
      "authorized" = 0 ∧
    read_sysfs_attr_int ⟨"/sys/0-1", some "0-1", [("authorized", "x1")]⟩ "authorized" = 0 ∧
    read_sysfs_attr_int ⟨"/sys/0-1", some "0-1", [("key", "")]⟩ "authorized" = 0 := by
  decide

/-! ### Change reports of a library device -/

theorem flag_lor (a b : Nat) (ha : a = 0 ∨ a = 1) (hb : b = 0 ∨ b = 1) :
    (a ||| b = 0 ∨ a ||| b = 1) ∧ (a ||| b = 0 ↔ a = 0 ∧ b = 0) := by
  rcases ha with ha | ha <;> rcases hb with hb | hb <;> subst ha <;> subst hb <;> decide

theorem set_string_flag (val field : Option String) :
    ((set_string val field).1 = 0 ∧ (set_string val field).2 = field) ∨
    ((set_string val field).1 = 1 ∧ (set_string val field).2 ≠ field) := by
  unfold set_string
  by_cases h : val = field
  · simp [h]
  · simp [h]

theorem set_int_flag (udev : GUdevDevice) (attr : String) (field : Int) :
    ((set_int_from_udev_attr udev attr field).1 = 0 ∧
      (set_int_from_udev_attr udev attr field).2 = field) ∨
    ((set_int_from_udev_attr udev attr field).1 = 1 ∧
      (set_int_from_udev_attr udev attr field).2 ≠ field) := by
  simp only [set_int_from_udev_attr]
  by_cases h : g_udev_device_get_sysfs_attr_as_int udev attr = field
  · simp [h]
  · simp [h]

theorem set_uint_flag (udev : GUdevDevice) (attr : String) (field : Nat) :
    ((set_uint_from_udev_attr udev attr field).1 = 0 ∧
      (set_uint_from_udev_attr udev attr field).2 = field) ∨
    ((set_uint_from_udev_attr udev attr field).1 = 1 ∧
      (g_udev_device_get_sysfs_attr_as_uint64 udev attr < 2 ^ 32 →
        (set_uint_from_udev_attr udev attr field).2 ≠ field)) := by
  simp only [set_uint_from_udev_attr]
  by_cases h : g_udev_device_get_sysfs_attr_as_uint64 udev attr = field
  · simp [h]
  · right
    simp only [h, if_false, true_and]
    intro hlt
    rw [Nat.mod_eq_of_lt hlt]
    exact h

/-- When `tb_device_update_from_udev` returns FALSE, the device is as it was
before the call. -/
theorem tb_device_update_from_udev_false (device : TbDevice) (udev : GUdevDevice)
    (h : (tb_device_update_from_udev device udev).2 = false) :
    (tb_device_update_from_udev device udev).1 = device := by
  simp only [tb_device_update_from_udev] at h ⊢
  have f1 := set_string_flag (g_udev_device_get_sysfs_path udev) device.sysfs
  have f2 := set_string_flag (g_udev_device_get_sysfs_attr udev "device_name") device.device_name
  have f3 := set_uint_flag udev "device" device.device
  have f4 := set_string_flag (g_udev_device_get_sysfs_attr udev "vendor_name") device.vendor_name
  have f5 := set_uint_flag udev "vendor" device.vendor
  have f6 := set_int_flag udev "authorized" device.authorized
  have f7 : ((if device.uid = none then set_string_from_udev_attr udev "unique_id" device.uid
            else (0, device.uid)).1 = 0 ∧
            (if device.uid = none then set_string_from_udev_attr udev "unique_id" device.uid
            else (0, device.uid)).2 = device.uid) ∨
      ((if device.uid = none then set_string_from_udev_attr udev "unique_id" device.uid
            else (0, device.uid)).1 = 1 ∧
            (if device.uid = none then set_string_from_udev_attr udev "unique_id" device.uid
            else (0, device.uid)).2 ≠ device.uid) := by
    by_cases hu : device.uid = none
    · simp only [hu, if_true, set_string_from_udev_attr]
      exact set_string_flag _ _
    · simp [hu]
  simp only [set_string_from_udev_attr] at h f7 ⊢
  generalize set_string (g_udev_device_get_sysfs_path udev) device.sysfs = r1 at *
  generalize set_string (g_udev_device_get_sysfs_attr udev "device_name") device.device_name
    = r2 at *
  generalize set_uint_from_udev_attr udev "device" device.device = r3 at *
  generalize set_string (g_udev_device_get_sysfs_attr udev "vendor_name") device.vendor_name
    = r4 at *
  generalize set_uint_from_udev_attr udev "vendor" device.vendor = r5 at *
  generalize set_int_from_udev_attr udev "authorized" device.authorized = r6 at *
  generalize (if device.uid = none then set_string (g_udev_device_get_sysfs_attr udev "unique_id")
    device.uid else (0, device.uid)) = r7 at *
  have z1 : r1.1 = 0 ∨ r1.1 = 1 := by rcases f1 with f | f <;> simp [f.1]
  have z2 : r2.1 = 0 ∨ r2.1 = 1 := by rcases f2 with f | f <;> simp [f.1]
  have z3 : r3.1 = 0 ∨ r3.1 = 1 := by rcases f3 with f | f <;> simp [f.1]
  have z4 : r4.1 = 0 ∨ r4.1 = 1 := by rcases f4 with f | f <;> simp [f.1]
  have z5 : r5.1 = 0 ∨ r5.1 = 1 := by rcases f5 with f | f <;> simp [f.1]
  have z6 : r6.1 = 0 ∨ r6.1 = 1 := by rcases f6 with f | f <;> simp [f.1]
  have z7 : r7.1 = 0 ∨ r7.1 = 1 := by rcases f7 with f | f <;> simp [f.1]
  have l2 := flag_lor _ _ z1 z2
  have l3 := flag_lor _ _ l2.1 z3
  have l4 := flag_lor _ _ l3.1 z4
  have l5 := flag_lor _ _ l4.1 z5
  have l6 := flag_lor _ _ l5.1 z6
  have l7 := flag_lor _ _ l6.1 z7
  have h0 : r1.1 ||| r2.1 ||| r3.1 ||| r4.1 ||| r5.1 ||| r6.1 ||| r7.1 = 0 := by
    simpa using h
  obtain ⟨h6, e7⟩ := l7.2.mp h0
  obtain ⟨h5, e6⟩ := l6.2.mp h6
  obtain ⟨h4, e5⟩ := l5.2.mp h5
  obtain ⟨h3, e4⟩ := l4.2.mp h4
  obtain ⟨h2, e3⟩ := l3.2.mp h3
  obtain ⟨e1, e2⟩ := l2.2.mp h2
  have g1 : r1.2 = device.sysfs := by rcases f1 with f | f; exact f.2; omega
  have g2 : r2.2 = device.device_name := by rcases f2 with f | f; exact f.2; omega
  have g3 : r3.2 = device.device := by rcases f3 with f | f; exact f.2; omega
  have g4 : r4.2 = device.vendor_name := by rcases f4 with f | f; exact f.2; omega
  have g5 : r5.2 = device.vendor := by rcases f5 with f | f; exact f.2; omega
  have g6 : r6.2 = device.authorized := by rcases f6 with f | f; exact f.2; omega
  have g7 : r7.2 = device.uid := by rcases f7 with f | f; exact f.2; omega
  rw [g1, g2, g3, g4, g5, g6, g7]

/-- When the `device` and `vendor` attributes read as numbers below `2 ^ 32`
and `tb_device_update_from_udev` returns TRUE, one of the fields has changed. -/
theorem tb_device_update_from_udev_true (device : TbDevice) (udev : GUdevDevice)
    (hd : g_udev_device_get_sysfs_attr_as_uint64 udev "device" < 2 ^ 32)
    (hv : g_udev_device_get_sysfs_attr_as_uint64 udev "vendor" < 2 ^ 32)
    (h : (tb_device_update_from_udev device udev).2 = true) :
    (tb_device_update_from_udev device udev).1 ≠ device := by
  intro heq
  simp only [tb_device_update_from_udev] at h heq
  have f1 := set_string_flag (g_udev_device_get_sysfs_path udev) device.sysfs
  have f2 := set_string_flag (g_udev_device_get_sysfs_attr udev "device_name") device.device_name
  have f3 := set_uint_flag udev "device" device.device
  have f4 := set_string_flag (g_udev_device_get_sysfs_attr udev "vendor_name") device.vendor_name
  have f5 := set_uint_flag udev "vendor" device.vendor
  have f6 := set_int_flag udev "authorized" device.authorized
  have f7 : ((if device.uid = none then set_string_from_udev_attr udev "unique_id" device.uid
            else (0, device.uid)).1 = 0 ∧
            (if device.uid = none then set_string_from_udev_attr udev "unique_id" device.uid
            else (0, device.uid)).2 = device.uid) ∨
      ((if device.uid = none then set_string_from_udev_attr udev "unique_id" device.uid
            else (0, device.uid)).1 = 1 ∧
            (if device.uid = none then set_string_from_udev_attr udev "unique_id" device.uid
            else (0, device.uid)).2 ≠ device.uid) := by
    by_cases hu : device.uid = none
    · simp only [hu, if_true, set_string_from_udev_attr]
      exact set_string_flag _ _
    · simp [hu]
  simp only [set_string_from_udev_attr] at h heq f7
  generalize set_string (g_udev_device_get_sysfs_path udev) device.sysfs = r1 at *
  generalize set_string (g_udev_device_get_sysfs_attr udev "device_name") device.device_name
    = r2 at *
  generalize set_uint_from_udev_attr udev "device" device.device = r3 at *
  generalize set_string (g_udev_device_get_sysfs_attr udev "vendor_name") device.vendor_name
    = r4 at *
  generalize set_uint_from_udev_attr udev "vendor" device.vendor = r5 at *
  generalize set_int_from_udev_attr udev "authorized" device.authorized = r6 at *
  generalize (if device.uid = none then set_string (g_udev_device_get_sysfs_attr udev "unique_id")
    device.uid else (0, device.uid)) = r7 at *
  have g1 : r1.2 = device.sysfs := congrArg TbDevice.sysfs heq
  have g2 : r2.2 = device.device_name := congrArg TbDevice.device_name heq
  have g3 : r3.2 = device.device := congrArg TbDevice.device heq
  have g4 : r4.2 = device.vendor_name := congrArg TbDevice.vendor_name heq
  have g5 : r5.2 = device.vendor := congrArg TbDevice.vendor heq
  have g6 : r6.2 = device.authorized := congrArg TbDevice.authorized heq
  have g7 : r7.2 = device.uid := congrArg TbDevice.uid heq
  have e1 : r1.1 = 0 := by rcases f1 with f | f; exact f.1; exact absurd g1 f.2
  have e2 : r2.1 = 0 := by rcases f2 with f | f; exact f.1; exact absurd g2 f.2
  have e3 : r3.1 = 0 := by rcases f3 with f | f; exact f.1; exact absurd g3 (f.2 hd)
  have e4 : r4.1 = 0 := by rcases f4 with f | f; exact f.1; exact absurd g4 f.2
  have e5 : r5.1 = 0 := by rcases f5 with f | f; exact f.1; exact absurd g5 (f.2 hv)
  have e6 : r6.1 = 0 := by rcases f6 with f | f; exact f.1; exact absurd g6 f.2
  have e7 : r7.1 = 0 := by rcases f7 with f | f; exact f.1; exact absurd g7 f.2
  rw [e1, e2, e3, e4, e5, e6, e7] at h
  simp at h

/-- C28 (as the code behaves): a device whose `device` field is 0 is updated
from a udev device whose `device` attribute reads 4294967296 and whose other
attributes equal the fields: the call leaves every field as it was and returns
TRUE.  The value read is compared as a 64-bit number and stored in the 32-bit
field. -/
theorem tb_device_update_from_udev_reports_unchanged :
    tb_device_update_from_udev
      ⟨some "X", 0, some "ACME", 0, some "Dock", some "/sys/0-1", 1, false, false⟩
      ⟨"/sys/0-1", some "0-1", [("device_name", "Dock"), ("device", "4294967296"),
        ("vendor_name", "ACME"), ("vendor", "0"), ("authorized", "1"), ("unique_id", "X")]⟩
      = (⟨some "X", 0, some "ACME", 0, some "Dock", some "/sys/0-1", 1, false, false⟩, true) := by
  decide

/-! ### The time stamp of a put -/

/-- What `bolt_journal_list` returns after a successful `bolt_journal_put` into
a journal of well-formed lines. -/
theorem bolt_journal_put_list_after (fs : Fs) (journal : BoltJournal) (f : OpenFile)
    (id : String) (op : BoltJournalOp) (now : Nat) (fault : Option (Nat × GError))
    (hfd : fs.fds journal.fd = some f) (happ : f.append = true)
    (hok : (bolt_journal_put fs journal id op now fault).2.2 = .ok ())
    (ls : List (List Char)) (hprior : fs.data f.ino = unlines ls)
    (hls : ∀ l ∈ ls, good_line l) (hu : uid_token id) :
    (bolt_journal_list fs journal ListEnv.ok).2 = .ok (journal_parse (fs.data f.ino)) ∧
    (bolt_journal_list (bolt_journal_put fs journal id op now fault).1
      (bolt_journal_put fs journal id op now fault).2.1 ListEnv.ok).2
      = .ok (journal_parse (fs.data f.ino) ++ [⟨id, op, now % 2 ^ 64⟩]) := by
  rcases hw : bolt_journal_write_entry fs journal.fd id op now fault with ⟨fs1, e | u⟩
  · simp [bolt_journal_put, hw] at hok
  · have h := write_entry_append fs journal.fd f id op now fault hfd happ (by rw [hw])
    rw [hw] at h
    obtain ⟨hdata, p, hp⟩ := h
    have hput : bolt_journal_put fs journal id op now fault
        = (fs1, { journal with fresh := false }, .ok ()) := by
      simp [bolt_journal_put, hw]
    rw [hput]
    refine ⟨bolt_journal_list_ok fs journal f hfd, ?_⟩
    have hfd1 : fs1.fds ({ journal with fresh := false } : BoltJournal).fd
        = some ⟨f.ino, p, true⟩ := hp
    have hgood : ∀ l ∈ ls ++ [journal_entry_line id op now], good_line l := by
      intro l hl
      simp only [List.mem_append, List.mem_singleton] at hl
      rcases hl with hl | hl
      · exact hls l hl
      · rw [hl]
        exact journal_entry_line_good id op now hu
    have heq : unlines ls ++ journal_entry_data id op now
        = unlines (ls ++ [journal_entry_line id op now]) := by
      simp [journal_entry_data, unlines_append, unlines]
    rw [bolt_journal_list_ok fs1 _ _ hfd1]
    simp only []
    rw [hdata, hprior, heq, journal_parse_unlines _ hgood, journal_parse_unlines ls hls]
    simp [List.filterMap_append, journal_parse_line_entry id op now hu]

/-- C24 (amended): a successful `bolt_journal_put` appends the line of the new
record, whose time stamp field reads back as the reading `now` of the real-time
clock (as a `guint64`), whatever the records before it.  When the journal holds
well-formed lines and the uid is a token, `bolt_journal_list` then returns the
records listed before followed by the appended record, whose time stamp is that
clock reading; it is greater than or equal to the time stamp of every record
already in the journal exactly when the clock reading is. -/
theorem bolt_journal_put_timestamp (fs : Fs) (journal : BoltJournal) (f : OpenFile)
    (id : String) (op : BoltJournalOp) (now : Nat) (fault : Option (Nat × GError))
    (hfd : fs.fds journal.fd = some f) (happ : f.append = true)
    (hok : (bolt_journal_put fs journal id op now fault).2.2 = .ok ()) :
    (bolt_journal_put fs journal id op now fault).1.data f.ino
      = fs.data f.ino ++
        (id.toList ++ (' ' :: ((bolt_journal_op_to_string op).toList
          ++ (' ' :: format_016X now))) ++ ['\n']) ∧
    sscanf_016lX (' ' :: format_016X now) = some (now % 2 ^ 64) ∧
    (∀ ls, fs.data f.ino = unlines ls → (∀ l ∈ ls, good_line l) → uid_token id →
      ∃ (items : List BoltJournalItem) (record : BoltJournalItem),
        (bolt_journal_list fs journal ListEnv.ok).2 = .ok items ∧
        (bolt_journal_list (bolt_journal_put fs journal id op now fault).1
          (bolt_journal_put fs journal id op now fault).2.1 ListEnv.ok).2
          = .ok (items ++ [record]) ∧
        record.id = id ∧ record.op = op ∧ record.ts = now % 2 ^ 64 ∧
        ((∀ r ∈ items, r.ts ≤ record.ts) ↔ (∀ r ∈ items, r.ts ≤ now % 2 ^ 64)) ∧
        ((∃ r ∈ items, now % 2 ^ 64 < r.ts) → ∃ r ∈ items, record.ts < r.ts)) := by
  refine ⟨?_, sscanf_016lX_format now, ?_⟩
  · rcases hw : bolt_journal_write_entry fs journal.fd id op now fault with ⟨fs1, e | u⟩
    · simp [bolt_journal_put, hw] at hok
    · have h := write_entry_append fs journal.fd f id op now fault hfd happ (by rw [hw])
      rw [hw] at h
      have hput : bolt_journal_put fs journal id op now fault
          = (fs1, { journal with fresh := false }, .ok ()) := by
        simp [bolt_journal_put, hw]
      rw [hput]
      exact h.1
  · intro ls hprior hls hu
    obtain ⟨h1, h2⟩ := bolt_journal_put_list_after fs journal f id op now fault hfd happ hok
      ls hprior hls hu
    exact ⟨journal_parse (fs.data f.ino), ⟨id, op, now % 2 ^ 64⟩, h1, h2, rfl, rfl, rfl,
      Iff.rfl, fun h => h⟩

set_option maxRecDepth 100000 in
/-- Witness for C24: B is put at clock reading 7 into a journal whose one
record has time stamp 5. -/
theorem bolt_journal_put_timestamp_witness :
    ∃ (items : List BoltJournalItem) (record : BoltJournalItem),
      (bolt_journal_list (journal_fs "/j" "A + 0000000000000005\n".toList) (journal_at "/j")
        ListEnv.ok).2 = .ok items ∧
      (bolt_journal_list
        (bolt_journal_put (journal_fs "/j" "A + 0000000000000005\n".toList) (journal_at "/j")
          "B" BOLT_JOURNAL_ADDED 7 none).1
        (bolt_journal_put (journal_fs "/j" "A + 0000000000000005\n".toList) (journal_at "/j")
          "B" BOLT_JOURNAL_ADDED 7 none).2.1 ListEnv.ok).2
        = .ok (items ++ [record]) ∧
      record.id = "B" ∧ record.op = BOLT_JOURNAL_ADDED ∧ record.ts = 7 % 2 ^ 64 ∧
      ((∀ r ∈ items, r.ts ≤ record.ts) ↔ (∀ r ∈ items, r.ts ≤ 7 % 2 ^ 64)) ∧
      ((∃ r ∈ items, 7 % 2 ^ 64 < r.ts) → ∃ r ∈ items, record.ts < r.ts) :=
  (bolt_journal_put_timestamp (journal_fs "/j" "A + 0000000000000005\n".toList)
    (journal_at "/j") ⟨0, 0, true⟩ "B" BOLT_JOURNAL_ADDED 7 none rfl rfl rfl).2.2
    ["A + 0000000000000005".toList] rfl (by decide) (by decide)

set_option maxRecDepth 100000 in
/-- C24 as stated fails: B is put successfully at clock reading 3 into a journal
whose record A has time stamp 5; the appended record has time stamp 3, which is
smaller than that of a record already in the journal. -/
theorem bolt_journal_put_timestamp_counterexample :
    (bolt_journal_put (journal_fs "/j" "A + 0000000000000005\n".toList) (journal_at "/j")
      "B" BOLT_JOURNAL_ADDED 3 none).2.2 = .ok () ∧
    (bolt_journal_list (journal_fs "/j" "A + 0000000000000005\n".toList) (journal_at "/j")
      ListEnv.ok).2 = .ok [⟨"A", BOLT_JOURNAL_ADDED, 5⟩] ∧
    (bolt_journal_list
      (bolt_journal_put (journal_fs "/j" "A + 0000000000000005\n".toList) (journal_at "/j")
        "B" BOLT_JOURNAL_ADDED 3 none).1
      (bolt_journal_put (journal_fs "/j" "A + 0000000000000005\n".toList) (journal_at "/j")
        "B" BOLT_JOURNAL_ADDED 3 none).2.1 ListEnv.ok).2
      = .ok [⟨"A", BOLT_JOURNAL_ADDED, 5⟩, ⟨"B", BOLT_JOURNAL_ADDED, 3⟩] ∧
    ¬ ((⟨"A", BOLT_JOURNAL_ADDED, 5⟩ : BoltJournalItem).ts
        ≤ (⟨"B", BOLT_JOURNAL_ADDED, 3⟩ : BoltJournalItem).ts) :=
  ⟨rfl, rfl, rfl, by decide⟩

/-! ### The callback of an authorization -/

/-- The call of the outer callback that `authorize_thread_done` makes for a task
with a callback: one call, with `ok` telling whether the result is `TRUE`, with
the error of the result, and with the user data of the request. -/
theorem authorize_thread_done_call (d : BoltDevice) (level : Char) (callback user_data : Nat)
    (res : TaskResult) :
    (authorize_thread_done d ⟨level, some callback, user_data⟩ res).2
      = some ⟨callback, task_ok res, task_error res, user_data⟩ := by
  cases res <;> rfl

/-- An accepted request starts one task that carries the callback and the user
data; a rejected one starts none. -/
theorem bolt_device_authorize_task (dev : BoltDevice) (callback : Option Nat)
    (user_data : Nat) :
    ((bolt_device_authorize dev callback user_data).ret = true →
      (bolt_device_authorize dev callback user_data).task = some ⟨'1', callback, user_data⟩) ∧
    ((bolt_device_authorize dev callback user_data).ret = false →
      (bolt_device_authorize dev callback user_data).task = none) := by
  unfold bolt_device_authorize
  split <;> simp

/-- What an `Authorize` method call comes to when the worker of an accepted
request fails with the error object `e`: the one reply is built from `e` as the
worker left it, and `e` is freed twice more, by
`g_dbus_method_invocation_take_error` and by the cleanup of
`authorize_thread_done`. -/
theorem authorize_method_call_worker_error (io : BoltIo) (dev : BoltDevice)
    (invocation : Nat) (e : GErrorObject)
    (hst : dev.status = BOLT_STATUS_CONNECTED ∨ dev.status = BOLT_STATUS_AUTH_ERROR)
    (hres : (authorize_in_thread io { dev with status := BOLT_STATUS_AUTHORIZING }
      ⟨'1', some HANDLE_AUTHORIZE_DONE, invocation⟩).1 = .error e) :
    (authorize_method_call io dev invocation).2
      = ([(invocation, .error e)], some ⟨e.error, e.frees + 2⟩) := by
  have hs : ¬ (dev.status ≠ BOLT_STATUS_CONNECTED ∧ dev.status ≠ BOLT_STATUS_AUTH_ERROR) := by
    rcases hst with h | h <;> simp [h]
  simp [authorize_method_call, handle_authorize, bolt_device_authorize, hs,
    g_task_run_in_thread, authorize_thread_done_error, hres, task_result,
    g_task_propagate_boolean, authorize_thread_done, call_callback, handle_authorize_done,
    g_dbus_method_invocation_take_error, g_error_free]

/-- What an `Authorize` method call comes to when the worker of an accepted
request succeeds: the one reply is the method return, and there is no error
object. -/
theorem authorize_method_call_worker_ok (io : BoltIo) (dev : BoltDevice)
    (invocation : Nat)
    (hst : dev.status = BOLT_STATUS_CONNECTED ∨ dev.status = BOLT_STATUS_AUTH_ERROR)
    (hres : (authorize_in_thread io { dev with status := BOLT_STATUS_AUTHORIZING }
      ⟨'1', some HANDLE_AUTHORIZE_DONE, invocation⟩).1 = .ok ()) :
    (authorize_method_call io dev invocation).2
      = ([(invocation, .complete_authorize)], none) := by
  have hs : ¬ (dev.status ≠ BOLT_STATUS_CONNECTED ∧ dev.status ≠ BOLT_STATUS_AUTH_ERROR) := by
    rcases hst with h | h <;> simp [h]
  simp [authorize_method_call, handle_authorize, bolt_device_authorize, hs,
    g_task_run_in_thread, authorize_thread_done_error, hres, task_result,
    g_task_propagate_boolean, authorize_thread_done, call_callback, handle_authorize_done]

/-- What an `Authorize` method call comes to when the request is rejected: the
one reply is the error of the rejection, read while it is live, and no task is
started. -/
theorem authorize_method_call_rejected (io : BoltIo) (dev : BoltDevice) (invocation : Nat)
    (hst : dev.status ≠ BOLT_STATUS_CONNECTED ∧ dev.status ≠ BOLT_STATUS_AUTH_ERROR) :
    authorize_method_call io dev invocation
      = (dev, [(invocation, .error ⟨⟨BOLT_ERROR_FAILED, "wrong device state"⟩, 0⟩)], none) := by
  simp [authorize_method_call, handle_authorize, bolt_device_authorize, hst,
    g_dbus_method_invocation_take_error]

/-- C23 (as the code behaves): a connected device with uid X under `/sys/0-1` is
asked to authorize over D-Bus with invocation 5.  When the `unique_id` under the
path reads Z, the worker fails; the callback is called once and sends one error
reply, but the reply is built from an error object that the worker has already
freed, and the object is freed three times in all.  When the write fails the
reply is built from a live object, which is then freed twice.  Only a succeeding
worker and a rejected request are answered without a fault. -/
theorem authorize_method_call_error_freed :
    (authorize_method_call (sysfs_io "/sys/0-1" "Z")
      ⟨some "X", "n", "v", BOLT_STATUS_CONNECTED, "/sys/0-1"⟩ 5).2
      = ([(5, .error ⟨⟨BOLT_ERROR_FAILED, "unique id mismatch"⟩, 1⟩)],
         some ⟨⟨BOLT_ERROR_FAILED, "unique id mismatch"⟩, 3⟩) ∧
    (authorize_method_call (sysfs_io "/sys/0-2" "X")
      ⟨some "X", "n", "v", BOLT_STATUS_CONNECTED, "/sys/0-1"⟩ 5).2
      = ([(5, .error ⟨⟨G_IO_ERROR_NOT_FOUND, "could not open directory"⟩, 1⟩)],
         some ⟨⟨G_IO_ERROR_NOT_FOUND, "could not open directory"⟩, 3⟩) ∧
    (authorize_method_call (sysfs_io_write_fault "/sys/0-1" "X")
      ⟨some "X", "n", "v", BOLT_STATUS_CONNECTED, "/sys/0-1"⟩ 5).2
      = ([(5, .error ⟨⟨BOLT_ERROR_FAILED, "failed to authorize device: write failed"⟩, 0⟩)],
         some ⟨⟨BOLT_ERROR_FAILED, "failed to authorize device: write failed"⟩, 2⟩) ∧
    (authorize_method_call (sysfs_io "/sys/0-1" "X")
      ⟨some "X", "n", "v", BOLT_STATUS_CONNECTED, "/sys/0-1"⟩ 5).2
      = ([(5, .complete_authorize)], none) ∧
    (authorize_method_call (sysfs_io "/sys/0-1" "X")
      ⟨some "X", "n", "v", BOLT_STATUS_AUTHORIZED, "/sys/0-1"⟩ 5).2
      = ([(5, .error ⟨⟨BOLT_ERROR_FAILED, "wrong device state"⟩, 0⟩)], none) := by
  decide

/-! ### Decimal attribute values -/

theorem decimal_digit_spec (d : Nat) (h : d < 10) :
    digit_value (decimal_digit d) = some d ∧ ISSPACE (decimal_digit d) = false ∧
    decimal_digit d ≠ '-' ∧ decimal_digit d ≠ '+' ∧ (0 < d → decimal_digit d ≠ '0') := by
  interval_cases d <;> decide

theorem decimal_value_ge (digits : List Nat) (a : Nat) : a ≤ decimal_value digits a := by
  induction digits generalizing a with
  | nil => exact Nat.le_refl _
  | cons d digits ih =>
    have := ih (a * 10 + d)
    simp only [decimal_value, List.foldl_cons] at this ⊢
    omega

/-- Once the overflow flag is set, the digit loop of `g_parse_long_long` keeps
it set while it consumes the remaining digits. -/
theorem parse_digits_overflowed (digits : List Nat) (h : ∀ d ∈ digits, d < 10) (ui64 n : Nat) :
    (parse_digits 10 (digits.map decimal_digit) ui64 true n).2.1 = true ∧
    (parse_digits 10 (digits.map decimal_digit) ui64 true n).2.2 = n + digits.length := by
  induction digits generalizing ui64 n with
  | nil => simp [parse_digits]
  | cons d digits ih =>
    have hd := h d (by simp)
    have hrest : ∀ x ∈ digits, x < 10 := fun x hx => h x (by simp [hx])
    simp only [List.map_cons, parse_digits, (decimal_digit_spec d hd).1, ge_iff_le,
      Nat.not_le.mpr hd, if_false, List.length_cons]
    split
    · have := ih hrest ui64 (n + 1)
      exact ⟨this.1, by rw [this.2]; omega⟩
    · have := ih hrest (ui64 * 10 + d) (n + 1)
      exact ⟨this.1, by rw [this.2]; omega⟩

/-- The digit loop of `g_parse_long_long` on decimal digits: it consumes all of
them, accumulates their value while that fits 64 bits, and sets the overflow
flag when it does not. -/
theorem parse_digits_decimal (digits : List Nat) (h : ∀ d ∈ digits, d < 10) (ui64 n : Nat)
    (hui : ui64 ≤ G_MAXUINT64) :
    (parse_digits 10 (digits.map decimal_digit) ui64 false n).2.2 = n + digits.length ∧
    (decimal_value digits ui64 ≤ G_MAXUINT64 →
      (parse_digits 10 (digits.map decimal_digit) ui64 false n).1 = decimal_value digits ui64 ∧
      (parse_digits 10 (digits.map decimal_digit) ui64 false n).2.1 = false) ∧
    (G_MAXUINT64 < decimal_value digits ui64 →
      (parse_digits 10 (digits.map decimal_digit) ui64 false n).2.1 = true) := by
  induction digits generalizing ui64 n with
  | nil =>
    simp only [List.map_nil, parse_digits, decimal_value, List.foldl_nil, List.length_nil,
      Nat.add_zero, true_and, and_self, implies_true]
    intro hlt
    omega
  | cons d digits ih =>
    have hd := h d (by simp)
    have hrest : ∀ x ∈ digits, x < 10 := fun x hx => h x (by simp [hx])
    have hv : decimal_value (d :: digits) ui64 = decimal_value digits (ui64 * 10 + d) := rfl
    simp only [List.map_cons, parse_digits, (decimal_digit_spec d hd).1, ge_iff_le,
      Nat.not_le.mpr hd, if_false, List.length_cons, hv]
    have hq : G_MAXUINT64 / 10 = 1844674407370955161 := by decide
    have hr : G_MAXUINT64 % 10 = 5 := by decide
    have hm : G_MAXUINT64 = 18446744073709551615 := by decide
    by_cases hc : ui64 > G_MAXUINT64 / 10 ∨ (ui64 = G_MAXUINT64 / 10 ∧ d > G_MAXUINT64 % 10)
    · rw [if_pos hc]
      have ho := parse_digits_overflowed digits hrest ui64 (n + 1)
      have hge := decimal_value_ge digits (ui64 * 10 + d)
      have hbig : G_MAXUINT64 < ui64 * 10 + d := by
        rw [hq, hr] at hc
        rw [hm]
        omega
      refine ⟨by rw [ho.2]; omega, ?_, fun _ => ho.1⟩
      intro hle
      omega
    · rw [if_neg hc]
      have hfit : ui64 * 10 + d ≤ G_MAXUINT64 := by
        rw [hq, hr] at hc
        rw [hm]
        omega
      have := ih hrest (ui64 * 10 + d) (n + 1) hfit
      exact ⟨by rw [this.1]; omega, this.2.1, this.2.2⟩
/-- `g_ascii_strtoull` on a decimal numeral that does not start with 0: the
value of the numeral when it fits 64 bits and `G_MAXUINT64` otherwise, with all
digits consumed. -/
theorem g_ascii_strtoull_decimal (d0 : Nat) (digits : List Nat) (h0 : 0 < d0 ∧ d0 < 10)
    (h : ∀ d ∈ digits, d < 10) :
    g_ascii_strtoull ((d0 :: digits).map decimal_digit)
      = (if decimal_value (d0 :: digits) 0 ≤ G_MAXUINT64 then decimal_value (d0 :: digits) 0
         else G_MAXUINT64, digits.length + 1) := by
  have hall : ∀ d ∈ d0 :: digits, d < 10 := by
    intro d hd
    simp only [List.mem_cons] at hd
    rcases hd with hd | hd
    · rw [hd]; exact h0.2
    · exact h d hd
  have f0 := decimal_digit_spec d0 h0.2
  have hp := parse_digits_decimal (d0 :: digits) hall 0 0 (Nat.zero_le _)
  have hdrop : List.dropWhile ISSPACE ((d0 :: digits).map decimal_digit)
      = (d0 :: digits).map decimal_digit := by
    rw [List.map_cons, List.dropWhile_cons_of_neg (by simp [f0.2.1])]
  have hmark : (match (d0 :: digits).map decimal_digit with
      | '0' :: x :: _ => decide (x = 'x' ∨ x = 'X')
      | _ => false) = false := by
    split
    · rename_i heq
      simp only [List.map_cons, List.cons.injEq] at heq
      exact absurd heq.1 (f0.2.2.2.2 h0.1)
    · rfl
  unfold g_ascii_strtoull
  simp only [hdrop]
  simp only [List.map_cons, f0.2.2.1, f0.2.2.2.1, or_self, if_false, decide_False,
    Bool.false_eq_true, List.head?_cons, Option.some.injEq, f0.2.2.2.2 h0.1, Nat.sub_self,
    Nat.zero_add, Nat.add_zero] at hmark ⊢
  simp only [hmark, Bool.false_eq_true, if_false]
  simp only [List.map_cons] at hp
  rcases hq : parse_digits 10 (decimal_digit d0 :: digits.map decimal_digit) 0 false 0
    with ⟨ui, ov, n⟩
  rw [hq] at hp
  simp only [List.length_cons, Nat.zero_add] at hp
  obtain ⟨hn, hfit, hover⟩ := hp
  simp only [hn]
  by_cases hle : decimal_value (d0 :: digits) 0 ≤ G_MAXUINT64
  · obtain ⟨h1, h2⟩ := hfit hle
    simp [h1, h2, hle]
  · have h2 := hover (Nat.lt_of_not_le hle)
    simp [h2, hle]

/-- What `read_sysfs_attr_int` returns for an attribute that reads as a decimal
numeral (not starting with 0) of value `v`: `v` below `2 ^ 31` and 0 from there
up to `2 ^ 64 - 2 ^ 31`, as the claim C21 has it; but `v - 2 ^ 64` for the
`2 ^ 31` values below `2 ^ 64`, and -1 for every value from `2 ^ 64` on. -/
theorem read_sysfs_attr_int_decimal (device : udev_device) (attr : String) (d0 : Nat)
    (digits : List Nat) (h0 : 0 < d0 ∧ d0 < 10) (h : ∀ d ∈ digits, d < 10)
    (hattr : udev_device_get_sysattr_value device attr = some (decimal_text (d0 :: digits))) :
    read_sysfs_attr_int device attr
      = if decimal_value (d0 :: digits) 0 < 2 ^ 31 then (decimal_value (d0 :: digits) 0 : Int)
        else if decimal_value (d0 :: digits) 0 < 2 ^ 64 - 2 ^ 31 then 0
        else if decimal_value (d0 :: digits) 0 < 2 ^ 64 then
          (decimal_value (d0 :: digits) 0 : Int) - 2 ^ 64
        else -1 := by
  have hs := g_ascii_strtoull_decimal d0 digits h0 h
  have hm : G_MAXUINT64 = 18446744073709551615 := by decide
  have ht : (String.mk ((d0 :: digits).map decimal_digit)).toList
      = (d0 :: digits).map decimal_digit := rfl
  simp only [read_sysfs_attr_int, hattr, decimal_text, ht, hs, Nat.add_one_ne_zero, if_false,
    to_gint64, G_MAXINT, G_MININT]
  generalize decimal_value (d0 :: digits) 0 = v
  rw [hm]
  split_ifs <;> omega

end Bolt
